import Mathlib

/-!
# makedraft: the pack validator, the draft validator and the generation loop

A shallow embedding of `makedraft/main.go`.

Conventions of the embedding:

* Go arrays `[15]Card` and `[24][15]Card` are lists; every theorem below that
  quantifies over lists holds in particular for the lists of length 15 and 24.
* The end of `okPack` is embedded twice. `okPack` and `okDraft` compute in
  exact arithmetic: a `float64` is a rational, the NaN of `0 / 0` in `mean`
  (and in `stdev`) of an empty list is `none`, `math.Sqrt x` is kept symbolic
  as `Root.mk x` and only ever compared with a threshold (`Root.gt`), and a
  map is read out in insertion order. The properties that neither rounding
  nor the order of a read-out can change are stated on them. `Float64.okPack`
  computes as the source does: every operation rounds its exact result to the
  nearest float64 (`Float64.nearest`), and the counts read out of the two
  maps are an argument, any order of the values of the map. The properties of
  the thresholds are stated on it. With the four thresholds at 0 the two
  embeddings agree (`float_okPack_eq_of_caps_off`).
* A Go `map` is an association list in insertion order (`GoMap`); a missing
  key reads as the zero value.
* `log.Printf` calls are dropped; `Verbose` stays a field of `Settings`.
-/

namespace Makedraft

/-! ## Data model -/

/-- Modelled from the spec: the `Card` struct is declared outside `main.go`.
Its fields are the ones of the data model that `main.go` reads, with the
types `main.go` uses them at: `ID`, `Rarity`, `Color` and `ColorIdentity` are
Go strings (the two colour fields are ranged over rune by rune and tallied in
a `map[rune]float64`), `Rating` a float64, `Foil` and `Dfc` booleans, `Data`
the payload string. The data model confines the colour symbols to a
five-symbol alphabet; a Go string does not, so a property that needs the
alphabet states it as a hypothesis. -/
structure Card where
  ID : String
  Rarity : String
  Color : String
  ColorIdentity : String
  Rating : ℚ
  Foil : Bool
  Dfc : Bool
  Data : String
deriving DecidableEq, Inhabited

/-- The `Settings` struct without its `Set`, `Database`, `Seed` and `Name`
fields, each pointer field replaced by the value it points to. -/
structure Settings where
  Verbose : Bool
  Simulate : Bool
  MaxMythic : Int
  MaxRare : Int
  MaxUncommon : Int
  MaxCommon : Int
  PackCommonColorStdevMax : ℚ
  PackCommonRatingMin : ℚ
  PackCommonRatingMax : ℚ
  DraftCommonColorStdevMax : ℚ
  PackCommonColorIdentityStdevMax : ℚ
  DraftCommonColorIdentityStdevMax : ℚ
  DfcMode : Bool
  AbortMissingCommonColor : Bool
  AbortMissingCommonColorIdentity : Bool
  AbortDuplicateThreeColorIdentityUncommons : Bool
deriving DecidableEq, Inhabited

/-- A pack, `[15]Card` in the source. -/
abbrev Pack := List Card

/-- A draft, `[24][15]Card` in the source. -/
abbrev Draft := List Pack

/-! ## Go maps -/

/-- A Go map as an association list, keys in order of first insertion. -/
abbrev GoMap (κ ν : Type) := List (κ × ν)

namespace GoMap

variable {κ ν : Type} [DecidableEq κ]

/-- The read `m[k]`: the stored value, the zero value for a missing key. -/
def lookup [Zero ν] : GoMap κ ν → κ → ν
  | [], _ => 0
  | (k', v) :: m, k => if k' = k then v else lookup m k

/-- The statement `m[k]++`. -/
def incr [Zero ν] [One ν] [Add ν] : GoMap κ ν → κ → GoMap κ ν
  | [], k => [(k, 0 + 1)]
  | (k', v) :: m, k => if k' = k then (k', v + 1) :: m else (k', v) :: incr m k

/-- The statement `m[k] = v`. -/
def store : GoMap κ ν → κ → ν → GoMap κ ν
  | [], k, v => [(k, v)]
  | (k', v') :: m, k, v => if k' = k then (k', v) :: m else (k', v') :: store m k v

/-- The keys of the map. -/
def keys (m : GoMap κ ν) : List κ := m.map Prod.fst

/-- The values read by `for _, v := range m`, in the order of the list. -/
def values (m : GoMap κ ν) : List ν := m.map Prod.snd

end GoMap

/-! ## Statistics helpers -/

/-- The result of `math.Sqrt radicand`, kept symbolic. -/
structure Root where
  radicand : ℚ
deriving DecidableEq

/-- The comparison `math.Sqrt radicand > t`: a square root is not negative,
so it exceeds every negative `t`, and exceeds `t ≥ 0` exactly when the
radicand exceeds `t * t`. -/
def Root.gt (r : Root) (t : ℚ) : Bool :=
  decide (t < 0) || decide (t * t < r.radicand)

/-- The function `mean` in exact arithmetic: the sum of the list divided by
its length; NaN (`none`) for the empty list, where the division is `0 / 0`.
With the rounding of float64 it is `Float64.mean`. -/
def mean (list : List ℚ) : Option ℚ :=
  let sum := list.foldl (fun sum val => sum + val) 0
  if list.length = 0 then none else some (sum / (list.length : ℚ))

/-- The function `stdev` in exact arithmetic: the square root of the mean of
the squared deviations from `mean list`; NaN (`none`) for the empty list.
With the rounding of float64 it is `Float64.stdev`. -/
def stdev (list : List ℚ) : Option Root :=
  match mean list with
  | none => none
  | some avg =>
    let sum := list.foldl (fun sum val => sum + (val - avg) ^ 2) 0
    some ⟨sum / (list.length : ℚ)⟩

/-- The float comparison `x > t` for a standard deviation `x`; false on NaN. -/
def stdevGt (x : Option Root) (t : ℚ) : Bool :=
  match x with
  | none => false
  | some r => r.gt t

/-- The float comparison `x > t`; false on NaN. -/
def floatGt (x : Option ℚ) (t : ℚ) : Bool :=
  match x with
  | none => false
  | some v => decide (t < v)

/-- The float comparison `x < t`; false on NaN. -/
def floatLt (x : Option ℚ) (t : ℚ) : Bool :=
  match x with
  | none => false
  | some v => decide (v < t)

/-- The loop `for _, color := range str { hash[color]++ }`. -/
def tally (hash : GoMap Char ℚ) (str : String) : GoMap Char ℚ :=
  str.data.foldl GoMap.incr hash

/-- The test `card.Foil || (*settings.DfcMode && card.Dfc)` that excludes a
card from the pack checks and from the colour tallies. -/
def excluded (s : Settings) (card : Card) : Bool :=
  card.Foil || (s.DfcMode && card.Dfc)

/-! ## The draft validator -/

/-- The local variables of `okDraft` that its loop updates. -/
structure DraftTally where
  passes : Bool
  cardHash : GoMap String Int
  colorHash : GoMap Char ℚ
  colorIdentityHash : GoMap Char ℚ
  q : GoMap String Int

/-- The locals of `okDraft` before its loop. -/
def DraftTally.init : DraftTally :=
  { passes := true, cardHash := [], colorHash := [], colorIdentityHash := [], q := [] }

/-- The guard `max != 0 && qty > max` of the four rarity cases. -/
def overMax (max qty : Int) : Bool :=
  decide (max ≠ 0) && decide (qty > max)

/-- The body of the inner loop of `okDraft`, for one card. -/
def okDraftCard (s : Settings) (st : DraftTally) (card : Card) : DraftTally :=
  let cardHash := st.cardHash.incr card.ID
  let qty := cardHash.lookup card.ID
  let q := if card.Rarity ≠ "B" ∧ qty > st.q.lookup card.Rarity
    then st.q.store card.Rarity qty else st.q
  let st := { st with cardHash := cardHash, q := q }
  if card.Rarity = "mythic" then
    if overMax s.MaxMythic qty then { st with passes := false } else st
  else if card.Rarity = "rare" then
    if overMax s.MaxRare qty then { st with passes := false } else st
  else if card.Rarity = "uncommon" then
    if overMax s.MaxUncommon qty then { st with passes := false } else st
  else if card.Rarity = "common" then
    let st := if overMax s.MaxCommon qty then { st with passes := false } else st
    if !(excluded s card) then
      { st with colorHash := tally st.colorHash card.Color,
                colorIdentityHash := tally st.colorIdentityHash card.ColorIdentity }
    else st
  else st

/-- The two nested loops of `okDraft` over the packs and their cards. -/
def okDraftLoop (s : Settings) (packs : Draft) : DraftTally :=
  packs.foldl (fun st pack => pack.foldl (okDraftCard s) st) DraftTally.init

/-- The end of `okDraft`, after the loops: the two standard-deviation caps
applied to the counts read out of the two colour maps. -/
def okDraftVerdict (s : Settings) (passes : Bool) (colors colorIdentities : List ℚ) : Bool :=
  let colorStdev := stdev colors
  let colorIdentityStdev := stdev colorIdentities
  let passes :=
    if s.DraftCommonColorStdevMax ≠ 0 ∧ stdevGt colorStdev s.DraftCommonColorStdevMax
    then false else passes
  let passes :=
    if s.DraftCommonColorIdentityStdevMax ≠ 0
        ∧ stdevGt colorIdentityStdev s.DraftCommonColorIdentityStdevMax
    then false else passes
  passes

/-- The function `okDraft`. -/
def okDraft (s : Settings) (packs : Draft) : Bool :=
  let st := okDraftLoop s packs
  okDraftVerdict s st.passes st.colorHash.values st.colorIdentityHash.values

/-! ## The pack validator -/

/-- The function `stringSort`: the runes of the string in ascending order. -/
def stringSort (s : String) : String :=
  String.mk (s.data.insertionSort (fun a b => a ≤ b))

/-- The local variables of `okPack` that its loop updates. -/
structure PackTally where
  passes : Bool
  cardHash : GoMap String Int
  colorHash : GoMap Char ℚ
  colorIdentityHash : GoMap Char ℚ
  uncommonColorIdentities : GoMap String Int
  ratings : List ℚ
  totalCommons : Int

/-- The locals of `okPack` before its loop. -/
def PackTally.init : PackTally :=
  { passes := true, cardHash := [], colorHash := [], colorIdentityHash := [],
    uncommonColorIdentities := [], ratings := [], totalCommons := 0 }

/-- The duplicate check at the head of the loop body of `okPack`:
`cardHash[card.ID]++` and `passes = false` when the count exceeds 1. -/
def okPackCount (st : PackTally) (card : Card) : PackTally :=
  let cardHash := st.cardHash.incr card.ID
  let st := { st with cardHash := cardHash }
  if cardHash.lookup card.ID > 1 then { st with passes := false } else st

/-- The branch `card.Rarity == "common"` of the loop body of `okPack`. -/
def okPackCommon (st : PackTally) (card : Card) : PackTally :=
  { st with colorHash := tally st.colorHash card.Color,
            colorIdentityHash := tally st.colorIdentityHash card.ColorIdentity,
            ratings := st.ratings ++ [card.Rating],
            totalCommons := st.totalCommons + 1 }

/-- The branch `card.Rarity == "uncommon"` of the loop body of `okPack`.
`len(sortedColor)` is the length of the string in bytes. -/
def okPackUncommon (s : Settings) (st : PackTally) (card : Card) : PackTally :=
  if s.AbortDuplicateThreeColorIdentityUncommons then
    let sortedColor := stringSort card.ColorIdentity
    let uci := st.uncommonColorIdentities.incr sortedColor
    let st := { st with uncommonColorIdentities := uci }
    let st := if uci.lookup sortedColor > 1 ∧ sortedColor.utf8ByteSize = 3
      then { st with passes := false } else st
    if uci.lookup sortedColor ≥ 3 then { st with passes := false } else st
  else st

/-- The body of the loop of `okPack`, for one card. -/
def okPackCard (s : Settings) (st : PackTally) (card : Card) : PackTally :=
  if excluded s card then st
  else
    let st := okPackCount st card
    if card.Rarity = "common" then okPackCommon st card
    else if card.Rarity = "uncommon" then okPackUncommon s st card
    else st

/-- The loop of `okPack` over the cards of the pack. -/
def okPackLoop (s : Settings) (pack : Pack) : PackTally :=
  pack.foldl (okPackCard s) PackTally.init

/-- The loop `for { colors = append(colors, 0); if len(colors) == 5 { break } }`
run for at most `fuel` iterations; `none` when the `break` was not reached. -/
def padLoop : Nat → List ℚ → Option (List ℚ)
  | 0, _ => none
  | fuel + 1, colors =>
    let colors := colors ++ [0]
    if colors.length = 5 then some colors else padLoop fuel colors

/-- The zero-padding loop run to its end. Five iterations decide it: from a
length below 5 the `break` is reached within 5 appends, from any other length
it is never reached (`padLoop_eq_none`), and then `okPack` does not return. -/
def padZeros (colors : List ℚ) : Option (List ℚ) :=
  padLoop 5 colors

/-- The block `if *flag && len(colors) != 5 { passes = false; for {...} }`,
shared by the colour and the colour-identity tally; `none` when the loop in
it does not end. -/
def abortMissing (flag passes : Bool) (colors : List ℚ) : Option (Bool × List ℚ) :=
  if flag = true ∧ colors.length ≠ 5 then
    match padZeros colors with
    | none => none
    | some colors => some (false, colors)
  else some (passes, colors)

/-- The three threshold checks at the end of `okPack`, on the values of its
locals `passes`, `colorStdev`, `colorIdentityStdev` and `ratingMean`. -/
def okPackCaps (s : Settings) (passes : Bool) (colorStdev colorIdentityStdev : Option Root)
    (ratingMean : Option ℚ) : Bool :=
  let passes :=
    if s.PackCommonColorStdevMax ≠ 0 ∧ stdevGt colorStdev s.PackCommonColorStdevMax
    then false else passes
  let passes :=
    if s.PackCommonColorIdentityStdevMax ≠ 0
        ∧ stdevGt colorIdentityStdev s.PackCommonColorIdentityStdevMax
    then false else passes
  let passes :=
    if s.PackCommonRatingMax ≠ 0 ∧ floatGt ratingMean s.PackCommonRatingMax then false
    else if s.PackCommonRatingMin ≠ 0 ∧ floatLt ratingMean s.PackCommonRatingMin then false
    else passes
  passes

/-- The end of `okPack`, after its loop, on the counts read out of the two
colour maps and the ratings; `none` when a zero-padding loop does not end. -/
def okPackVerdict (s : Settings) (passes : Bool) (colors colorIdentities ratings : List ℚ) :
    Option Bool :=
  match abortMissing s.AbortMissingCommonColor passes colors with
  | none => none
  | some (passes, colors) =>
    let colorStdev := stdev colors
    match abortMissing s.AbortMissingCommonColorIdentity passes colorIdentities with
    | none => none
    | some (passes, colorIdentities) =>
      let colorIdentityStdev := stdev colorIdentities
      let ratingMean := mean ratings
      some (okPackCaps s passes colorStdev colorIdentityStdev ratingMean)

/-- The function `okPack`, in exact arithmetic and with the maps read out in
insertion order; `none` when it does not return. In float64 arithmetic, for
any read-out, it is `Float64.okPack`. -/
def okPack (s : Settings) (pack : Pack) : Option Bool :=
  let st := okPackLoop s pack
  okPackVerdict s st.passes st.colorHash.values st.colorIdentityHash.values st.ratings

/-- The value of the local `colorStdev` of `okPack`: the standard deviation
of the counts read out of `colorHash`, after the block that pads them with
zeros; `none` when `okPack` does not get that far. -/
def okPackColorStdev (s : Settings) (pack : Pack) : Option (Option Root) :=
  let st := okPackLoop s pack
  match abortMissing s.AbortMissingCommonColor st.passes st.colorHash.values with
  | none => none
  | some (_, colors) => some (stdev colors)

/-- The value of the local `colorIdentityStdev` of `okPack`, computed when
the block on the colours has ended. -/
def okPackColorIdentityStdev (s : Settings) (pack : Pack) : Option (Option Root) :=
  let st := okPackLoop s pack
  match abortMissing s.AbortMissingCommonColorIdentity st.passes st.colorIdentityHash.values with
  | none => none
  | some (_, colorIdentities) => some (stdev colorIdentities)

/-! ## The generation loop of `main` -/

/-- Modelled from the spec: the `Hopper` type, its constructors and its `Pop`
method are declared outside `main.go`. The 15 hoppers, with the random source
they draw from, are a state of type `σ`. `resetHoppers` is the closure of that
name in `main`, which rebuilds the hoppers; `pop j` is `hoppers[j].Pop()`: the
card drawn, whether the hopper reported exhaustion, and the state after the
draw. -/
structure Hoppers (σ : Type) where
  resetHoppers : σ → σ
  pop : Nat → σ → (Card × Bool) × σ

/-- The position of the control in the generation loop: `reset` is the head
of the outer `for` (before `resetHoppers()`), `draw i` the head of the inner
`for` with its variable `i` (`resetDraft` is false there), `done` the point
after the `break` of the outer `for`. -/
inductive Loc where
  | reset : Loc
  | draw (i : Nat) : Loc
  | done : Loc
deriving DecidableEq

/-- The variables of the generation loop. `drawnIn` is a ghost array next to
`packs`: `drawnIn[i][j]` is the value `draftAttempts` had when `packs[i][j]`
was last assigned, 0 when it never was. -/
structure GenState (σ : Type) where
  loc : Loc
  hoppers : σ
  packs : Draft
  packAttempts : Nat
  draftAttempts : Nat
  drawnIn : List (List Nat)
deriving DecidableEq

/-- The variables before the generation loop: zero-valued cards and counters. -/
def genInit {σ : Type} (w : σ) : GenState σ :=
  { loc := Loc.reset, hoppers := w,
    packs := List.replicate 24 (List.replicate 15 default),
    packAttempts := 0, draftAttempts := 0,
    drawnIn := List.replicate 24 (List.replicate 15 0) }

/-- The loop `for j, hopper := range hoppers` that draws one pack, from slot
`j` on with `n` slots left: the cards assigned to `packs[i][j]`, `packs[i][j+1]`,
... in order, the hoppers after the draws, and the final value of `resetDraft`.
A `Pop` that reports exhaustion still assigns its card and ends the loop. -/
def drawCards {σ : Type} (h : Hoppers σ) : Nat → Nat → σ → List Card × σ × Bool
  | 0, _, w => ([], w, false)
  | n + 1, j, w =>
    match h.pop j w with
    | ((card, empty), w) =>
      if empty then ([card], w, true)
      else
        match drawCards h n (j + 1) w with
        | (cards, w, resetDraft) => (card :: cards, w, resetDraft)

/-- The row of an array after its first slots were overwritten by `new`. -/
def writeRow {α : Type} (row new : List α) : List α :=
  new ++ row.drop new.length

/-- One step of the generation loop, with the two validators as parameters:
from `reset` the hoppers are rebuilt and `draftAttempts` incremented; from
`draw i` with `i < 24` one pack is drawn into `packs[i]` and, unless a hopper
was exhausted, `okP` decides whether `i` advances; from `draw i` with `i ≥ 24`
the inner loop is over and `okD` decides between the `break` and a new
attempt. `none` when the pack validator does not return. -/
def genStepWith {σ : Type} (h : Hoppers σ) (okP : Pack → Option Bool) (okD : Draft → Bool)
    (st : GenState σ) : Option (GenState σ) :=
  match st.loc with
  | Loc.done => some st
  | Loc.reset =>
    some { st with loc := Loc.draw 0, hoppers := h.resetHoppers st.hoppers,
                   draftAttempts := st.draftAttempts + 1 }
  | Loc.draw i =>
    if i < 24 then
      match drawCards h 15 0 st.hoppers with
      | (cards, w, resetDraft) =>
        let st := { st with
          hoppers := w,
          packAttempts := st.packAttempts + 1,
          packs := st.packs.set i (writeRow (st.packs.getD i []) cards),
          drawnIn := st.drawnIn.set i
            (writeRow (st.drawnIn.getD i []) (List.replicate cards.length st.draftAttempts)) }
        if resetDraft then some { st with loc := Loc.reset }
        else
          match okP (st.packs.getD i []) with
          | none => none
          | some true => some { st with loc := Loc.draw (i + 1) }
          | some false => some { st with loc := Loc.draw i }
    else if okD st.packs then some { st with loc := Loc.done }
    else some { st with loc := Loc.reset }

/-- One step of the generation loop of `main`. -/
def genStep {σ : Type} (h : Hoppers σ) (s : Settings) (st : GenState σ) : Option (GenState σ) :=
  genStepWith h (okPack s) (okDraft s) st

/-- The generation loop run for `n` steps. -/
def genRun {σ : Type} (h : Hoppers σ) (s : Settings) : Nat → GenState σ → Option (GenState σ)
  | 0, st => some st
  | n + 1, st =>
    match genStep h s st with
    | none => none
    | some st => genRun h s n st

/-! ## The validators with their log output

The functions below are `okPack` and `okDraft` again, this time with the
calls of `log.Printf` that `Verbose` guards: the log is the list of the
format strings of the calls made, in order. -/

/-- A call `log.Printf(format, ...)` inside `if *settings.Verbose { ... }`. -/
def logIf (s : Settings) (log : List String) (format : String) : List String :=
  if s.Verbose then log ++ [format] else log

/-- The duplicate check of `okPack` with its log line. -/
def okPackCountV (s : Settings) (st : PackTally) (log : List String) (card : Card) :
    PackTally × List String :=
  let cardHash := st.cardHash.incr card.ID
  let st := { st with cardHash := cardHash }
  if cardHash.lookup card.ID > 1 then
    ({ st with passes := false }, logIf s log "found duplicated card %s")
  else (st, log)

/-- The first test of the branch on uncommons with its log line. -/
def okPackTripletV (s : Settings) (st : PackTally) (log : List String) (sortedColor : String) :
    PackTally × List String :=
  if st.uncommonColorIdentities.lookup sortedColor > 1 ∧ sortedColor.utf8ByteSize = 3 then
    ({ st with passes := false }, logIf s log "found more than one uncommon %s card")
  else (st, log)

/-- The second test of the branch on uncommons with its log line. -/
def okPackAllSameV (s : Settings) (st : PackTally) (log : List String) (sortedColor : String) :
    PackTally × List String :=
  if st.uncommonColorIdentities.lookup sortedColor ≥ 3 then
    ({ st with passes := false }, logIf s log "all uncommons are %s")
  else (st, log)

/-- The branch `card.Rarity == "uncommon"` of `okPack` with its log lines. -/
def okPackUncommonV (s : Settings) (st : PackTally) (log : List String) (card : Card) :
    PackTally × List String :=
  if s.AbortDuplicateThreeColorIdentityUncommons then
    let sortedColor := stringSort card.ColorIdentity
    let st := { st with
      uncommonColorIdentities := st.uncommonColorIdentities.incr sortedColor }
    let x := okPackTripletV s st log sortedColor
    okPackAllSameV s x.1 x.2 sortedColor
  else (st, log)

/-- The body of the loop of `okPack` with its log lines. -/
def okPackCardV (s : Settings) (x : PackTally × List String) (card : Card) :
    PackTally × List String :=
  if excluded s card then x
  else
    let y := okPackCountV s x.1 x.2 card
    if card.Rarity = "common" then (okPackCommon y.1 card, y.2)
    else if card.Rarity = "uncommon" then okPackUncommonV s y.1 y.2 card
    else y

/-- The block that pads the counts with zeros, with its log line `format`. -/
def abortMissingV (s : Settings) (flag passes : Bool) (colors : List ℚ) (log : List String)
    (format : String) : Option ((Bool × List ℚ) × List String) :=
  if flag = true ∧ colors.length ≠ 5 then
    match padZeros colors with
    | none => none
    | some colors => some ((false, colors), logIf s log format)
  else some ((passes, colors), log)

/-- One threshold test at the end of a validator, with its log line. -/
def capV (s : Settings) (exceeded passes : Bool) (log : List String) (format : String) :
    Bool × List String :=
  if exceeded then (false, logIf s log format) else (passes, log)

/-- The two rating tests of `okPack` with their log lines. -/
def ratingCapV (s : Settings) (ratingMean : Option ℚ) (passes : Bool) (log : List String) :
    Bool × List String :=
  if s.PackCommonRatingMax ≠ 0 ∧ floatGt ratingMean s.PackCommonRatingMax then
    (false, logIf s log "rating mean too high")
  else if s.PackCommonRatingMin ≠ 0 ∧ floatLt ratingMean s.PackCommonRatingMin then
    (false, logIf s log "rating mean too low")
  else (passes, log)

/-- The last lines of a validator: one of two log lines, and `return passes`. -/
def returnV (s : Settings) (passes : Bool) (log : List String) (yes no : String) :
    Bool × List String :=
  if passes then (passes, logIf s log yes) else (passes, logIf s log no)

/-- The threshold tests at the end of `okPack` with their log lines. -/
def okPackCapsV (s : Settings) (passes : Bool) (colorStdev colorIdentityStdev : Option Root)
    (ratingMean : Option ℚ) (log : List String) : Bool × List String :=
  let log := logIf s log "color stdev:\t%f"
  let log := logIf s log "color identity stdev:\t%f"
  let log := logIf s log "rating mean:\t%f"
  let x := capV s (decide (s.PackCommonColorStdevMax ≠ 0
    ∧ stdevGt colorStdev s.PackCommonColorStdevMax = true)) passes log "color stdev too high"
  let x := capV s (decide (s.PackCommonColorIdentityStdevMax ≠ 0
    ∧ stdevGt colorIdentityStdev s.PackCommonColorIdentityStdevMax = true)) x.1 x.2
    "color identity stdev too high"
  let x := ratingCapV s ratingMean x.1 x.2
  returnV s x.1 x.2 "pack passes!" "pack fails :("

/-- The function `okPack` with its log: the boolean returned and the lines
logged; `none` when it does not return. -/
def okPackV (s : Settings) (pack : Pack) : Option (Bool × List String) :=
  let x := pack.foldl (okPackCardV s) (PackTally.init, [])
  match abortMissingV s s.AbortMissingCommonColor x.1.passes x.1.colorHash.values x.2
      "a color is missing among commons" with
  | none => none
  | some ((passes, colors), log) =>
    match abortMissingV s s.AbortMissingCommonColorIdentity passes
        x.1.colorIdentityHash.values log "a color identity is missing among commons" with
    | none => none
    | some ((passes, colorIdentities), log) =>
      some (okPackCapsV s passes (stdev colors) (stdev colorIdentities) (mean x.1.ratings) log)

/-- One of the four rarity cases of `okDraft` with its log line. -/
def overMaxV (s : Settings) (max qty : Int) (st : DraftTally) (log : List String) :
    DraftTally × List String :=
  if overMax max qty then
    ({ st with passes := false }, logIf s log "found %d %s, which is more than %d")
  else (st, log)

/-- The tally of the colours of a common in `okDraft`. -/
def okDraftTally (s : Settings) (st : DraftTally) (card : Card) : DraftTally :=
  if !(excluded s card) then
    { st with colorHash := tally st.colorHash card.Color,
              colorIdentityHash := tally st.colorIdentityHash card.ColorIdentity }
  else st

/-- The body of the inner loop of `okDraft` with its log lines. -/
def okDraftCardV (s : Settings) (x : DraftTally × List String) (card : Card) :
    DraftTally × List String :=
  let cardHash := x.1.cardHash.incr card.ID
  let qty := cardHash.lookup card.ID
  let q := if card.Rarity ≠ "B" ∧ qty > x.1.q.lookup card.Rarity
    then x.1.q.store card.Rarity qty else x.1.q
  let st := { x.1 with cardHash := cardHash, q := q }
  if card.Rarity = "mythic" then overMaxV s s.MaxMythic qty st x.2
  else if card.Rarity = "rare" then overMaxV s s.MaxRare qty st x.2
  else if card.Rarity = "uncommon" then overMaxV s s.MaxUncommon qty st x.2
  else if card.Rarity = "common" then
    let y := overMaxV s s.MaxCommon qty st x.2
    (okDraftTally s y.1 card, y.2)
  else (st, x.2)

/-- The function `okDraft` with its log: the boolean returned and the lines
logged. -/
def okDraftV (s : Settings) (packs : Draft) : Bool × List String :=
  let log := logIf s [] "analyzing entire draft pool..."
  let x := packs.foldl (fun x pack => pack.foldl (okDraftCardV s) x) (DraftTally.init, log)
  let colorStdev := stdev x.1.colorHash.values
  let colorIdentityStdev := stdev x.1.colorIdentityHash.values
  let log := logIf s x.2 "all commons color stdev:\t%f\t%v"
  let log := logIf s log "all commons color identity stdev:\t%f\t%v"
  let y := capV s (decide (s.DraftCommonColorStdevMax ≠ 0
    ∧ stdevGt colorStdev s.DraftCommonColorStdevMax = true)) x.1.passes log
    "color stdev too high"
  let y := capV s (decide (s.DraftCommonColorIdentityStdevMax ≠ 0
    ∧ stdevGt colorIdentityStdev s.DraftCommonColorIdentityStdevMax = true)) y.1 y.2
    "color identity stdev too high"
  returnV s y.1 y.2 "draft passes!" "draft fails :("

/-! ## The partition of the catalog -/

/-- Modelled from the spec: the `CardSet` struct is declared outside
`main.go`. Its fields are the buckets `main.go` appends to. -/
structure CardSet where
  All : List Card
  Mythics : List Card
  Rares : List Card
  Uncommons : List Card
  Commons : List Card
  Basics : List Card
deriving DecidableEq

/-- The zero value of `CardSet`, the value of `allCards` and `dfcCards`
before the partitioning loop. -/
def CardSet.empty : CardSet :=
  { All := [], Mythics := [], Rares := [], Uncommons := [], Commons := [], Basics := [] }

/-- The statement `switch card.Rarity { ... }` of the partitioning loop on
`currentSet`; `none` in the `default` case, where `main` logs and returns. -/
def addToBucket (set : CardSet) (card : Card) : Option CardSet :=
  if card.Rarity = "mythic" then some { set with Mythics := set.Mythics ++ [card] }
  else if card.Rarity = "rare" then some { set with Rares := set.Rares ++ [card] }
  else if card.Rarity = "uncommon" then some { set with Uncommons := set.Uncommons ++ [card] }
  else if card.Rarity = "common" then some { set with Commons := set.Commons ++ [card] }
  else if card.Rarity = "basic" then some { set with Basics := set.Basics ++ [card] }
  else none

/-- The body of the partitioning loop on the pair `(allCards, dfcCards)`:
`currentSet` is chosen, the card appended to its `All` and to a bucket;
`none` when `main` returns. -/
def partitionCard (s : Settings) (sets : CardSet × CardSet) (card : Card) :
    Option (CardSet × CardSet) :=
  if s.DfcMode && card.Dfc then
    match addToBucket { sets.2 with All := sets.2.All ++ [card] } card with
    | none => none
    | some dfcCards => some (sets.1, dfcCards)
  else
    match addToBucket { sets.1 with All := sets.1.All ++ [card] } card with
    | none => none
    | some allCards => some (allCards, sets.2)

/-- The partitioning loop `for _, card := range cfg.Cards`; `none` when it
ends in the `return` of the `default` case. -/
def partitionCards (s : Settings) : List Card → CardSet × CardSet → Option (CardSet × CardSet)
  | [], sets => some sets
  | card :: rest, sets =>
    match partitionCard s sets card with
    | none => none
    | some sets => partitionCards s rest sets

/-! ## The database transaction and the end of `main` -/

/-- An argument of a query. -/
inductive SqlArg where
  | int (n : Int) : SqlArg
  | text (s : String) : SqlArg
deriving DecidableEq

/-- Modelled from the spec: the transaction `tx` of `database/sql`, which is
outside the repository. The database seen through the transaction is a state
of type `δ`. `exec query args` is `tx.Exec(query, args...)`: the result, or
`none` for an error, and the state after; `lastInsertId` is
`res.LastInsertId()`: the id and whether an error came with it; `commit` is
`tx.Commit()` and `rollback` the deferred `tx.Rollback()` of a transaction
that was not committed. -/
structure Tx (δ ρ : Type) where
  exec : String → List SqlArg → δ → Option ρ × δ
  lastInsertId : ρ → Int × Bool
  commit : δ → δ
  rollback : δ → δ

/-- The loop of `generateEmptyDraft` that inserts the seats `i` of the list:
the array `seatIds`, or `none` when the function returns with an error. -/
def insertSeats {δ ρ : Type} (tx : Tx δ ρ) (draftID : Int) :
    List Nat → List Int → δ → Option (List Int) × δ
  | [], seatIds, db => (some seatIds, db)
  | i :: rest, seatIds, db =>
    match tx.exec "INSERT INTO seats (position, draft) VALUES (?, ?)"
        [SqlArg.int i, SqlArg.int draftID] db with
    | (none, db) => (none, db)
    | (some res, db) =>
      match tx.lastInsertId res with
      | (id, err) =>
        if err then (none, db) else insertSeats tx draftID rest (seatIds.set i id) db

/-- The two nested loops of `generateEmptyDraft` that insert the packs, over
the pairs `(i, j)` of seat and round in the order of the loops: the array
`packIds` and whether the function returns with an error. -/
def insertPacks {δ ρ : Type} (tx : Tx δ ρ) (seatIds : List Int) :
    List (Nat × Nat) → List Int → δ → (List Int × Bool) × δ
  | [], packIds, db => ((packIds, false), db)
  | (i, j) :: rest, packIds, db =>
    match tx.exec "INSERT INTO packs (seat, original_seat, round) VALUES (?, ?, ?)"
        [SqlArg.int (seatIds.getD i 0), SqlArg.int (seatIds.getD i 0), SqlArg.int j] db with
    | (none, db) => ((packIds, true), db)
    | (some res, db) =>
      if j ≠ 0 then
        match tx.lastInsertId res with
        | (id, err) =>
          if err then ((packIds.set (3 * i + (j - 1)) id, true), db)
          else insertPacks tx seatIds rest (packIds.set (3 * i + (j - 1)) id) db
      else insertPacks tx seatIds rest packIds db

/-- The pairs `(i, j)` that the loops `for i := 0; i < 8; i++` and
`for j := 0; j < 4; j++` run through, in order. -/
def seatRounds : List (Nat × Nat) :=
  (List.range 8).flatMap (fun i => (List.range 4).map (fun j => (i, j)))

/-- The function `generateEmptyDraft`: the array `packIds`, whether the error
returned is not nil, and the database after. -/
def generateEmptyDraft {δ ρ : Type} (tx : Tx δ ρ) (name : String) (db : δ) :
    (List Int × Bool) × δ :=
  let packIds : List Int := List.replicate 24 0
  match tx.exec "INSERT INTO drafts (name) VALUES (?);" [SqlArg.text name] db with
  | (none, db) => ((packIds, true), db)
  | (some res, db) =>
    match tx.lastInsertId res with
    | (draftID, err) =>
      if err then ((packIds, true), db)
      else
        match insertSeats tx draftID (List.range 8) (List.replicate 8 0) db with
        | (none, db) => ((packIds, true), db)
        | (some seatIds, db) => insertPacks tx seatIds seatRounds packIds db

/-- The text inserted for a card: its `Data` with every `"FOIL_STATUS"`
replaced by `true` or `false`. -/
def foilData (card : Card) : String :=
  card.Data.replace "\"FOIL_STATUS\"" (if card.Foil then "true" else "false")

/-- The loops of `main` that insert the cards of the packs; the result and
the error of each `tx.Exec` are dropped. -/
def insertCards {δ ρ : Type} (tx : Tx δ ρ) (packIDs : List Int) (packs : Draft) (db : δ) : δ :=
  (List.zip (List.range packs.length) packs).foldl
    (fun db ip => ip.2.foldl
      (fun db card =>
        (tx.exec "INSERT INTO cards (pack, original_pack, data) VALUES (?, ?, ?)"
          [SqlArg.int (packIDs.getD ip.1 0), SqlArg.int (packIDs.getD ip.1 0),
           SqlArg.text (foilData card)] db).2)
      db)
    db

/-- The `return` through which `main` ends: in the `default` case of the
rarity switch, after an error of `generateEmptyDraft`, or at its last line. -/
inductive MainExit where
  | rarityError : MainExit
  | draftError : MainExit
  | finished : MainExit
deriving DecidableEq

/-- What `main` leaves behind: the hoppers with their random source, the
database, the two counters, and whether `tx.Commit()` was called. -/
structure MainEnd (σ δ : Type) where
  exit : MainExit
  hoppers : σ
  db : δ
  packAttempts : Nat
  draftAttempts : Nat
  committed : Bool
deriving DecidableEq

/-- The function `main` from the partitioning loop on, once the flags are
parsed, the catalog `cards` is loaded and the transaction is open. `mk` gives
the hoppers that `resetHoppers` builds from the two card sets. `none` when
the generation loop has not ended within `fuel` steps or `okPack` does not
return. The last statement is
`if *settings.Simulate { err = tx.Commit() } else { err = nil }`. -/
def mainFrom {σ δ ρ : Type} (mk : CardSet → CardSet → Hoppers σ) (tx : Tx δ ρ) (s : Settings)
    (name : String) (cards : List Card) (fuel : Nat) (w : σ) (db : δ) : Option (MainEnd σ δ) :=
  match partitionCards s cards (CardSet.empty, CardSet.empty) with
  | none =>
    some { exit := MainExit.rarityError, hoppers := w, db := tx.rollback db,
           packAttempts := 0, draftAttempts := 0, committed := false }
  | some (allCards, dfcCards) =>
    match genRun (mk allCards dfcCards) s fuel (genInit w) with
    | none => none
    | some st =>
      if st.loc = Loc.done then
        match generateEmptyDraft tx name db with
        | ((packIDs, err), db) =>
          if err then
            some { exit := MainExit.draftError, hoppers := st.hoppers, db := tx.rollback db,
                   packAttempts := st.packAttempts, draftAttempts := st.draftAttempts,
                   committed := false }
          else
            let db := insertCards tx packIDs st.packs db
            if s.Simulate then
              some { exit := MainExit.finished, hoppers := st.hoppers, db := tx.commit db,
                     packAttempts := st.packAttempts, draftAttempts := st.draftAttempts,
                     committed := true }
            else
              some { exit := MainExit.finished, hoppers := st.hoppers, db := tx.rollback db,
                     packAttempts := st.packAttempts, draftAttempts := st.draftAttempts,
                     committed := false }
      else none

/-! ## The hopper graph builder

The generation loop above is stated over any `Hoppers σ`, with `resetHoppers`
as a transformer of the hopper state. This section opens up the body of the
closure `resetHoppers`: the array of 15 hopper values and the loop over
`cfg.Hoppers` that assigns its slots. -/

/-- Modelled from the spec: an entry of `cfg.Hoppers`, whose struct is
declared outside `main.go`: the type tag (the field `Type`, a reserved word
here) and the references to other slots that `resetHoppers` reads. -/
structure HopperDef where
  Kind : String
  Refs : List Int
deriving DecidableEq

/-- Modelled from the spec: the constructors `MakeNormalHopper`,
`MakeBasicLandHopper` and `MakeFoilHopper` are declared outside `main.go`.
They return a hopper, a value of type `η`, and draw on the process-wide
random source, a state of type `ω`. `MakeFoilHopper` receives the addresses
`&hoppers[r]` of three slots of the array, given here by their indices. -/
structure HopperMakers (η ω : Type) where
  MakeNormalHopper : Bool → List (List Card) → ω → η × ω
  MakeBasicLandHopper : List Card → ω → η × ω
  MakeFoilHopper : Nat → Nat → Nat → List (List Card) → ω → η × ω

/-- The index expression `hoppers[hopdef.Refs[k]]` as far as its index goes:
the slot meant, or `none` for the run-time panic of an index out of range,
of `Refs` or of the 15 slots of `hoppers`. -/
def refSlot (hopdef : HopperDef) (k : Nat) : Option Nat :=
  match hopdef.Refs[k]? with
  | none => none
  | some r => if 0 ≤ r ∧ r < 15 then some r.toNat else none

/-- The assignment `hoppers[i] = hopper`, where `none` as a hopper is the nil
interface value; `none` as a result is the run-time panic for `i ≥ 15`. -/
def assignSlot {η ω : Type} (hoppers : List (Option η)) (i : Nat) (made : η × ω) :
    Option (List (Option η) × ω) :=
  if i < 15 then some (hoppers.set i (some made.1), made.2) else none

/-- The source lists of a `DfcHopper` and a `DfcRefillHopper`. -/
def dfcLists (dfcCards : CardSet) : List (List Card) :=
  [dfcCards.Mythics] ++ List.replicate 2 dfcCards.Rares
    ++ List.replicate 6 dfcCards.Uncommons ++ List.replicate 11 dfcCards.Commons

/-- The source lists of a `FoilHopper`. -/
def foilLists (allCards : CardSet) : List (List Card) :=
  [allCards.Mythics] ++ List.replicate 2 allCards.Rares
    ++ List.replicate 3 allCards.Uncommons ++ List.replicate 4 allCards.Commons
    ++ List.replicate 4 allCards.Basics

/-- The arguments of `MakeNormalHopper` in the nine cases of the
`switch hopdef.Type` of `resetHoppers` that call it: whether the hopper is
refillable and its source lists; `none` for every other type tag. -/
def normalHopperArgs (allCards dfcCards : CardSet) (kind : String) :
    Option (Bool × List (List Card)) :=
  if kind = "RareHopper" then
    some (false, [allCards.Mythics, allCards.Rares, allCards.Rares])
  else if kind = "RareRefillHopper" then
    some (true, [allCards.Mythics, allCards.Rares, allCards.Rares])
  else if kind = "UncommonHopper" then some (false, [allCards.Uncommons, allCards.Uncommons])
  else if kind = "UncommonRefillHopper" then
    some (true, [allCards.Uncommons, allCards.Uncommons])
  else if kind = "CommonHopper" then some (false, [allCards.Commons, allCards.Commons])
  else if kind = "CommonRefillHopper" then some (true, [allCards.Commons, allCards.Commons])
  else if kind = "CubeHopper" then some (false, [allCards.All])
  else if kind = "DfcHopper" then some (false, dfcLists dfcCards)
  else if kind = "DfcRefillHopper" then some (true, dfcLists dfcCards)
  else none

/-- The body of the loop of `resetHoppers` for the entry `hopdef` at index
`i`: the `switch hopdef.Type`, whose cases exclude one another and which has
no `default` case, so that an entry of any other type leaves the array as it
is. `none` is a run-time panic. -/
def buildHopper {η ω : Type} (mk : HopperMakers η ω) (allCards dfcCards : CardSet) (i : Nat)
    (hopdef : HopperDef) (hoppers : List (Option η)) (w : ω) : Option (List (Option η) × ω) :=
  if hopdef.Kind = "BasicLandHopper" then
    assignSlot hoppers i (mk.MakeBasicLandHopper allCards.Basics w)
  else if hopdef.Kind = "Pointer" then
    match refSlot hopdef 0 with
    | none => none
    | some r => if i < 15 then some (hoppers.set i (hoppers.getD r none), w) else none
  else if hopdef.Kind = "FoilHopper" then
    match refSlot hopdef 0, refSlot hopdef 1, refSlot hopdef 2 with
    | some r₀, some r₁, some r₂ =>
      assignSlot hoppers i (mk.MakeFoilHopper r₀ r₁ r₂ (foilLists allCards) w)
    | _, _, _ => none
  else
    match normalHopperArgs allCards dfcCards hopdef.Kind with
    | some (refillable, lists) =>
      assignSlot hoppers i (mk.MakeNormalHopper refillable lists w)
    | none => some (hoppers, w)

/-- The loop `for i, hopdef := range cfg.Hoppers` of `resetHoppers`, from
index `i` on. -/
def resetHoppersFrom {η ω : Type} (mk : HopperMakers η ω) (allCards dfcCards : CardSet) :
    Nat → List HopperDef → List (Option η) → ω → Option (List (Option η) × ω)
  | _, [], hoppers, w => some (hoppers, w)
  | i, hopdef :: rest, hoppers, w =>
    match buildHopper mk allCards dfcCards i hopdef hoppers w with
    | none => none
    | some (hoppers, w) => resetHoppersFrom mk allCards dfcCards (i + 1) rest hoppers w

/-- The closure `resetHoppers` of `main` on the array `hoppers` as the last
build left it (15 nil values before the first): the array after the build,
or `none` for a run-time panic. -/
def resetHoppers {η ω : Type} (mk : HopperMakers η ω) (allCards dfcCards : CardSet)
    (defs : List HopperDef) (hoppers : List (Option η)) (w : ω) :
    Option (List (Option η) × ω) :=
  resetHoppersFrom mk allCards dfcCards 0 defs hoppers w

/-! ## The assignments to `packIds` -/

/-- One assignment `packIds[(3*i)+(j-1)], err = res.LastInsertId()` of
`generateEmptyDraft`: the index written, the seat `i` and the round `j` of
the loops, the result `res` of the insertion of that pack and the id stored. -/
structure PackStore (ρ : Type) where
  index : Nat
  seat : Nat
  round : Nat
  res : ρ
  id : Int

/-- The loops of `insertPacks` that return, next to what `insertPacks`
returns, the assignments to `packIds` that were made, in order. -/
def insertPacksLog {δ ρ : Type} (tx : Tx δ ρ) (seatIds : List Int) :
    List (Nat × Nat) → List Int → δ → ((List Int × Bool) × δ) × List (PackStore ρ)
  | [], packIds, db => (((packIds, false), db), [])
  | (i, j) :: rest, packIds, db =>
    match tx.exec "INSERT INTO packs (seat, original_seat, round) VALUES (?, ?, ?)"
        [SqlArg.int (seatIds.getD i 0), SqlArg.int (seatIds.getD i 0), SqlArg.int j] db with
    | (none, db) => (((packIds, true), db), [])
    | (some res, db) =>
      if j ≠ 0 then
        match tx.lastInsertId res with
        | (id, err) =>
          if err then
            (((packIds.set (3 * i + (j - 1)) id, true), db), [⟨3 * i + (j - 1), i, j, res, id⟩])
          else
            let r := insertPacksLog tx seatIds rest (packIds.set (3 * i + (j - 1)) id) db
            (r.1, ⟨3 * i + (j - 1), i, j, res, id⟩ :: r.2)
      else insertPacksLog tx seatIds rest packIds db

/-- The function `generateEmptyDraft` that returns, next to what
`generateEmptyDraft` returns, the assignments to `packIds` that were made. -/
def generateEmptyDraftLog {δ ρ : Type} (tx : Tx δ ρ) (name : String) (db : δ) :
    ((List Int × Bool) × δ) × List (PackStore ρ) :=
  let packIds : List Int := List.replicate 24 0
  match tx.exec "INSERT INTO drafts (name) VALUES (?);" [SqlArg.text name] db with
  | (none, db) => (((packIds, true), db), [])
  | (some res, db) =>
    match tx.lastInsertId res with
    | (draftID, err) =>
      if err then (((packIds, true), db), [])
      else
        match insertSeats tx draftID (List.range 8) (List.replicate 8 0) db with
        | (none, db) => (((packIds, true), db), [])
        | (some seatIds, db) => insertPacksLog tx seatIds seatRounds packIds db

/-! ## The pack validator in float64 arithmetic

The validators above compute in exact arithmetic. This section embeds `mean`,
`stdev` and the end of `okPack` once more, with the arithmetic of the source:
every `+`, `-` and `/` on float64 rounds its exact result to the nearest
float64, ties to the even mantissa, and the counts are read out of the two
maps in an order that the Go runtime chooses. -/

/-- A float64 value: NaN, an infinity with its sign, or a finite value, kept
as the rational it denotes. The sign of a zero is not kept: no operation of
the validators gives a result that depends on it (the divisors are lengths,
never a negative zero, and the comparisons treat both zeros alike). -/
inductive Float64 where
  | nan : Float64
  | inf (neg : Bool) : Float64
  | fin (q : ℚ) : Float64
deriving DecidableEq

namespace Float64

/-- The loop that counts the halvings of `n` down to 1, with `fuel` steps. -/
def log2Aux : ℕ → ℕ → ℕ
  | 0, _ => 0
  | fuel + 1, n => if 2 ≤ n then log2Aux fuel (n / 2) + 1 else 0

/-- The position of the leading bit of `n`: the largest `k` with `2 ^ k ≤ n`. -/
def log2 (n : ℕ) : ℕ := log2Aux n n

/-- The binary exponent of a rational `q ≠ 0`: the largest `k` with
`2 ^ k ≤ |q|`. -/
def ilog2 (q : ℚ) : ℤ :=
  let a : ℤ := (log2 q.num.natAbs : ℤ) - (log2 q.den : ℤ)
  if (2 : ℚ) ^ a ≤ |q| then a else a - 1

/-- The integer nearest to `x`, the even one of the two when `x` lies half
way between them. -/
def roundEven (x : ℚ) : ℤ :=
  let f := ⌊x⌋
  if x - f < 1 / 2 then f
  else if 1 / 2 < x - f then f + 1
  else if f % 2 = 0 then f else f + 1

/-- The multiple of `2 ^ e` nearest to `q`, ties to the even multiple. -/
def roundTo (e : ℤ) (q : ℚ) : ℚ :=
  roundEven (q / 2 ^ e) * 2 ^ e

/-- The rounding of `q` to 53 significant bits, whatever its exponent. -/
def round53 (q : ℚ) : ℚ :=
  if q = 0 then 0 else roundTo (ilog2 q - 52) q

/-- The float64 nearest to the rational `q`, as IEEE 754 rounds the exact
result of an operation: to 53 significant bits, to a multiple of `2 ^ -1074`
below the normal range, and to an infinity once the rounded value reaches
`2 ^ 1024`. -/
def nearest (q : ℚ) : Float64 :=
  if q = 0 then fin 0
  else
    let r := roundTo (max (ilog2 q - 52) (-1074)) q
    if (2 : ℚ) ^ (1024 : ℕ) ≤ |r| then inf (decide (q < 0)) else fin r

/-- The conversion `float64(n)` of a length. -/
def ofNat (n : ℕ) : Float64 := nearest n

/-- The negation `-a`. -/
def neg : Float64 → Float64
  | nan => nan
  | inf s => inf (!s)
  | fin x => fin (-x)

/-- The sum `a + b`. -/
def add : Float64 → Float64 → Float64
  | nan, _ => nan
  | _, nan => nan
  | inf s, inf t => if s = t then inf s else nan
  | inf s, fin _ => inf s
  | fin _, inf t => inf t
  | fin x, fin y => nearest (x + y)

/-- The difference `a - b`, which IEEE 754 defines as `a + (-b)`. -/
def sub (a b : Float64) : Float64 := add a (neg b)

/-- The quotient `a / b`; a zero divisor is the positive zero. -/
def div : Float64 → Float64 → Float64
  | nan, _ => nan
  | _, nan => nan
  | inf _, inf _ => nan
  | inf s, fin y => inf (s != decide (y < 0))
  | fin _, inf _ => fin 0
  | fin x, fin y =>
    if y = 0 then (if x = 0 then nan else inf (decide (x < 0))) else nearest (x / y)

/-- The integer square root of `n < 4 ^ k`, one bit per step. -/
def isqrtAux : ℕ → ℕ → ℕ
  | 0, _ => 0
  | k + 1, n =>
    let r := 2 * isqrtAux k (n / 4)
    if (r + 1) * (r + 1) ≤ n then r + 1 else r

/-- The integer square root: the largest `r` with `r * r ≤ n`. -/
def isqrt (n : ℕ) : ℕ := isqrtAux (log2 n / 2 + 1) n

/-- The square root of a rational `x > 0` rounded to 53 significant bits:
`x` is scaled by a power of 4 into `[2 ^ 106, 2 ^ 108)`, where the root lies
in `[2 ^ 53, 2 ^ 54)` and the values of 53 bits are the even integers. -/
def sqrt53 (x : ℚ) : ℚ :=
  let s : ℤ := 53 - ilog2 x / 2
  let y : ℚ := x * 4 ^ s
  let r : ℕ := isqrt ⌊y⌋.toNat
  let m : ℕ :=
    if r % 2 = 0 then r
    else if y = ((r * r : ℕ) : ℚ) then (if (r - 1) % 4 = 0 then r - 1 else r + 1)
    else r + 1
  (m : ℚ) / 2 ^ s

/-- The function `math.Sqrt` of the Go library: the correctly rounded square
root, NaN below zero. -/
def sqrt : Float64 → Float64
  | nan => nan
  | inf s => if s then nan else inf false
  | fin x => if x < 0 then nan else if x = 0 then fin 0 else nearest (sqrt53 x)

/-- The call `math.Pow(a, 2)` of the Go library: the mantissa of `a` is
squared and rounded to 53 bits, and `math.Ldexp` puts the exponent back,
rounding once more where the result is below the normal range. -/
def pow2 : Float64 → Float64
  | nan => nan
  | inf _ => inf false
  | fin x => nearest (round53 (x * x))

/-- The comparison `a > t` with a finite `t`; false on NaN. -/
def gt (a : Float64) (t : ℚ) : Bool :=
  match a with
  | nan => false
  | inf s => !s
  | fin x => decide (t < x)

/-- The comparison `a < t` with a finite `t`; false on NaN. -/
def lt (a : Float64) (t : ℚ) : Bool :=
  match a with
  | nan => false
  | inf s => s
  | fin x => decide (x < t)

/-- The comparison `a <= t` with a finite `t`; false on NaN. -/
def le (a : Float64) (t : ℚ) : Bool :=
  match a with
  | nan => false
  | inf s => s
  | fin x => decide (x ≤ t)

/-- The comparison `a >= t` with a finite `t`; false on NaN. -/
def ge (a : Float64) (t : ℚ) : Bool :=
  match a with
  | nan => false
  | inf s => !s
  | fin x => decide (t ≤ x)

/-- The function `mean`: the running sum of the list from left to right, one
rounding for each `sum += val`, divided by `float64(len(list))`. -/
def mean (list : List Float64) : Float64 :=
  let sum := list.foldl (fun sum val => add sum val) (fin 0)
  div sum (ofNat list.length)

/-- The function `stdev`: `math.Sqrt` of the running sum of
`math.Pow(val-avg, 2)` divided by `float64(len(list))`. -/
def stdev (list : List Float64) : Float64 :=
  let avg := mean list
  let sum := list.foldl (fun sum val => add sum (pow2 (sub val avg))) (fin 0)
  sqrt (div sum (ofNat list.length))

/-- The three threshold checks at the end of `okPack`, on the float64 values
of its locals `colorStdev`, `colorIdentityStdev` and `ratingMean`. The
thresholds are float64 values held in the rational fields of `Settings`. -/
def okPackCaps (s : Settings) (passes : Bool)
    (colorStdev colorIdentityStdev ratingMean : Float64) : Bool :=
  let passes :=
    if s.PackCommonColorStdevMax ≠ 0 ∧ colorStdev.gt s.PackCommonColorStdevMax
    then false else passes
  let passes :=
    if s.PackCommonColorIdentityStdevMax ≠ 0
        ∧ colorIdentityStdev.gt s.PackCommonColorIdentityStdevMax
    then false else passes
  let passes :=
    if s.PackCommonRatingMax ≠ 0 ∧ ratingMean.gt s.PackCommonRatingMax then false
    else if s.PackCommonRatingMin ≠ 0 ∧ ratingMean.lt s.PackCommonRatingMin then false
    else passes
  passes

/-- The end of `okPack`, after its loop, in float64 arithmetic: `colors` and
`colorIdentities` are the counts in the order in which the two loops
`for _, v := range` read them out of the maps, `ratings` the ratings in pack
order; `none` when a zero-padding loop does not end. -/
def okPackVerdict (s : Settings) (passes : Bool) (colors colorIdentities ratings : List ℚ) :
    Option Bool :=
  match abortMissing s.AbortMissingCommonColor passes colors with
  | none => none
  | some (passes, colors) =>
    let colorStdev := stdev (colors.map fin)
    match abortMissing s.AbortMissingCommonColorIdentity passes colorIdentities with
    | none => none
    | some (passes, colorIdentities) =>
      let colorIdentityStdev := stdev (colorIdentities.map fin)
      let ratingMean := mean (ratings.map fin)
      some (okPackCaps s passes colorStdev colorIdentityStdev ratingMean)

/-- The function `okPack` in float64 arithmetic, for one evaluation: `colors`
and `colorIdentities` are what the loops over `colorHash` and
`colorIdentityHash` yield in that evaluation, the values of the map in an
order that the runtime chooses. The counts and the ratings are float64 values
held as rationals (a count stays below `2 ^ 53`, where `++` is exact). -/
def okPack (s : Settings) (pack : Pack) (colors colorIdentities : List ℚ) : Option Bool :=
  let st := okPackLoop s pack
  okPackVerdict s st.passes colors colorIdentities st.ratings

/-- The value of the local `colorStdev` of `okPack` in an evaluation that
reads `colors` out of `colorHash`; `none` when the padding loop does not
end. -/
def okPackColorStdev (s : Settings) (colors : List ℚ) : Option Float64 :=
  match abortMissing s.AbortMissingCommonColor true colors with
  | none => none
  | some (_, colors) => some (stdev (colors.map fin))

/-- The value of the local `colorIdentityStdev` of `okPack` in an evaluation
that reads `colorIdentities` out of `colorIdentityHash`. -/
def okPackColorIdentityStdev (s : Settings) (colorIdentities : List ℚ) : Option Float64 :=
  match abortMissing s.AbortMissingCommonColorIdentity true colorIdentities with
  | none => none
  | some (_, colorIdentities) => some (stdev (colorIdentities.map fin))

end Float64

/-! ## The seats of `generateEmptyDraft` -/

/-- The part of `generateEmptyDraft` before the loops that insert the packs:
the value of `draftID`, the array `seatIds` and the database when those loops
begin; `none` when the function has returned with an error before. -/
def generateEmptyDraftSeats {δ ρ : Type} (tx : Tx δ ρ) (name : String) (db : δ) :
    Option (Int × List Int × δ) :=
  match tx.exec "INSERT INTO drafts (name) VALUES (?);" [SqlArg.text name] db with
  | (none, _) => none
  | (some res, db) =>
    match tx.lastInsertId res with
    | (draftID, err) =>
      if err then none
      else
        match insertSeats tx draftID (List.range 8) (List.replicate 8 0) db with
        | (none, _) => none
        | (some seatIds, db) => some (draftID, seatIds, db)

/-! ## The generation loop on the hoppers that `resetHoppers` builds -/

/-- The hoppers of `main` as the generation loop uses them. The state is the
array `hoppers` with the random source; `resetHoppers` is the closure of that
name, for the card sets and the list `cfg.Hoppers`; `pop j` is
`hoppers[j].Pop()`, a method declared outside `main.go` and taken as a
parameter, which acts on the array (a `Pointer` slot shares its hopper with
another slot, a `FoilHopper` reads the slots it was given) and on the random
source. A build that panics ends the program and is no step of the loop; the
state is then left as it is. -/
def mainHoppers {η ω : Type} (mk : HopperMakers η ω)
    (pop : Nat → List (Option η) × ω → (Card × Bool) × (List (Option η) × ω))
    (allCards dfcCards : CardSet) (defs : List HopperDef) : Hoppers (List (Option η) × ω) :=
  { resetHoppers := fun st => (resetHoppers mk allCards dfcCards defs st.1 st.2).getD st,
    pop := pop }

/-! ## Notions used to state the properties -/

/-- The maximum configured for a rarity label: `MaxMythic`, `MaxRare`,
`MaxUncommon` or `MaxCommon`; 0 (no limit) for every other label. -/
def configuredMax (s : Settings) (rarity : String) : Int :=
  if rarity = "mythic" then s.MaxMythic
  else if rarity = "rare" then s.MaxRare
  else if rarity = "uncommon" then s.MaxUncommon
  else if rarity = "common" then s.MaxCommon
  else 0

/-- The number of cards of the list that have the given ID. -/
def copies (id : String) (cards : List Card) : Nat :=
  cards.countP (fun c => decide (c.ID = id))

/-- The number of cards of the list that have the given ID and rarity. -/
def copiesOfRarity (id rarity : String) (cards : List Card) : Nat :=
  cards.countP (fun c => decide (c.ID = id ∧ c.Rarity = rarity))

/-- The per-rarity maximum-copy checks alone, on the cards in draft order:
each card's running copy count (the cards `seen` before it with its ID, and
itself) must not exceed a nonzero maximum configured for its rarity. Only the
`ID` and the `Rarity` of a card are read. -/
def maxCopyChecks (s : Settings) : List Card → List Card → Bool
  | _, [] => true
  | seen, card :: rest =>
    !(overMax (configuredMax s card.Rarity) ((copies card.ID seen : Int) + 1))
      && maxCopyChecks s (card :: seen) rest

/-- The cards of the pack that `okPack` looks at: those that are neither foil
nor, in `DfcMode`, Dfc. -/
def eligible (s : Settings) (pack : Pack) : List Card :=
  pack.filter (fun c => !(excluded s c))

/-- The eligible commons of the pack. -/
def eligibleCommons (s : Settings) (pack : Pack) : List Card :=
  (eligible s pack).filter (fun c => decide (c.Rarity = "common"))

/-- The symbols of the `Color` strings of the eligible commons, each
occurrence listed. -/
def colorSymbols (s : Settings) (pack : Pack) : List Char :=
  (eligibleCommons s pack).flatMap (fun c => c.Color.data)

/-- The symbols of the `ColorIdentity` strings of the eligible commons, each
occurrence listed. -/
def colorIdentitySymbols (s : Settings) (pack : Pack) : List Char :=
  (eligibleCommons s pack).flatMap (fun c => c.ColorIdentity.data)

/-- One count for each distinct symbol of the list: the number of its
occurrences. A symbol that does not occur has no count. -/
def perSymbolCounts (symbols : List Char) : List ℚ :=
  symbols.dedup.map (fun x => (symbols.count x : ℚ))

/-- The population variance of a list: the mean of the squared deviations
from the mean of the list. -/
def popVariance (l : List ℚ) : ℚ :=
  (l.map (fun x => (x - l.sum / (l.length : ℚ)) ^ 2)).sum / (l.length : ℚ)

/-- The packs `0 .. i-1` are validated in the current attempt: `okPack`
returned true on each and every slot of each was assigned in the attempt
numbered `draftAttempts`. -/
def Validated {σ : Type} (s : Settings) (st : GenState σ) (i : Nat) : Prop :=
  1 ≤ st.draftAttempts
  ∧ ∀ k < i, okPack s (st.packs.getD k []) = some true
      ∧ st.drawnIn.getD k [] = List.replicate 15 st.draftAttempts

/-- The invariant of the generation loop: the arrays keep their 24 x 15
shape; at the head of the inner loop with variable `i` the packs before `i`
are validated; after the `break` all 24 are, and `okDraft` accepted them. -/
def GenInv {σ : Type} (s : Settings) (st : GenState σ) : Prop :=
  st.packs.length = 24 ∧ st.drawnIn.length = 24
  ∧ (∀ row ∈ st.packs, row.length = 15) ∧ (∀ row ∈ st.drawnIn, row.length = 15)
  ∧ (∀ i, st.loc = Loc.draw i → i ≤ 24 ∧ Validated s st i)
  ∧ (st.loc = Loc.done → Validated s st 24 ∧ okDraft s st.packs = true)

/-- A card with its `Color` and `ColorIdentity` replaced by the empty string. -/
def eraseColors (card : Card) : Card :=
  { card with Color := "", ColorIdentity := "" }

/-- The mean `Rating` of the eligible commons of the pack, in exact
arithmetic; meaningful when there is at least one. -/
def meanRating (s : Settings) (pack : Pack) : ℚ :=
  ((eligibleCommons s pack).map Card.Rating).sum / ((eligibleCommons s pack).length : ℚ)

/-- The array `packs` after pack `i` has been drawn from the hoppers of the
state: the slots of `packs[i]` that the draw assigned are overwritten. -/
def drawnPacks {σ : Type} (h : Hoppers σ) (st : GenState σ) (i : Nat) : Draft :=
  st.packs.set i (writeRow (st.packs.getD i []) (drawCards h 15 0 st.hoppers).1)

/-- A card with its `ColorIdentity` replaced by the empty string when it is
an uncommon, and unchanged otherwise. -/
def eraseUncommonIdentity (card : Card) : Card :=
  if card.Rarity = "uncommon" then { card with ColorIdentity := "" } else card

/-- The five rarity labels the partitioning loop knows. -/
def knownRarities : List String :=
  ["mythic", "rare", "uncommon", "common", "basic"]

/-- The test that sends a card to `dfcCards`. -/
def toDfc (s : Settings) (card : Card) : Bool :=
  s.DfcMode && card.Dfc

/-- The card set of a list of cards: the list itself as `All`, and for each
bucket the cards of the list with the label of the bucket, in the order of
the list. -/
def bucketsOf (cards : List Card) : CardSet :=
  { All := cards,
    Mythics := cards.filter (fun c => decide (c.Rarity = "mythic")),
    Rares := cards.filter (fun c => decide (c.Rarity = "rare")),
    Uncommons := cards.filter (fun c => decide (c.Rarity = "uncommon")),
    Commons := cards.filter (fun c => decide (c.Rarity = "common")),
    Basics := cards.filter (fun c => decide (c.Rarity = "basic")) }

/-- The five rarity buckets of a card set, one after the other. -/
def CardSet.buckets (set : CardSet) : List Card :=
  set.Mythics ++ set.Rares ++ set.Uncommons ++ set.Commons ++ set.Basics

/-- A card set with the cards of a second one appended bucket by bucket. -/
def CardSet.append (a b : CardSet) : CardSet :=
  { All := a.All ++ b.All, Mythics := a.Mythics ++ b.Mythics, Rares := a.Rares ++ b.Rares,
    Uncommons := a.Uncommons ++ b.Uncommons, Commons := a.Commons ++ b.Commons,
    Basics := a.Basics ++ b.Basics }

/-- The index `(3*i)+(j-1)` at which `generateEmptyDraft` stores the id of
the pack of seat `i` and round `j`. -/
def packIndex (i j : Nat) : Nat := 3 * i + (j - 1)

/-- Every `tx.Exec` and every `res.LastInsertId()` of the transaction
succeeds. -/
def Tx.Succeeds {δ ρ : Type} (tx : Tx δ ρ) : Prop :=
  (∀ query args db, (tx.exec query args db).1 ≠ none) ∧ ∀ res, (tx.lastInsertId res).2 = false

/-- A float64 value that is neither NaN nor below zero. -/
def Float64.NonNeg : Float64 → Prop
  | Float64.nan => False
  | Float64.inf s => s = false
  | Float64.fin x => 0 ≤ x

/-- The float64 value that `okPack` computes as `ratingMean`: `mean` of the
ratings of the eligible commons, in pack order. -/
def Float64.meanRating (s : Settings) (pack : Pack) : Float64 :=
  Float64.mean ((eligibleCommons s pack).map (fun c => Float64.fin c.Rating))

/-- The type tags for which the `switch` of `resetHoppers` has a case. -/
def knownKinds : List String :=
  ["RareHopper", "RareRefillHopper", "UncommonHopper", "UncommonRefillHopper", "CommonHopper",
   "CommonRefillHopper", "BasicLandHopper", "CubeHopper", "Pointer", "DfcHopper",
   "DfcRefillHopper", "FoilHopper"]

/-- An entry of the hopper list at index `i` as the configuration is meant to
be: a type tag that the `switch` knows, for a `Pointer` a reference to a slot
built earlier in the list, for a `FoilHopper` three references to slots of
the array. -/
def HopperDef.WellFormedAt (d : HopperDef) (i : Nat) : Prop :=
  d.Kind ∈ knownKinds
  ∧ (d.Kind = "Pointer" → ∃ r, r < i ∧ refSlot d 0 = some r)
  ∧ (d.Kind = "FoilHopper" →
      ∃ r₀ r₁ r₂, refSlot d 0 = some r₀ ∧ refSlot d 1 = some r₁ ∧ refSlot d 2 = some r₂)

/-- The entries of a hopper list whose first entry has index `i` are all well
formed. -/
def WellFormedFrom : Nat → List HopperDef → Prop
  | _, [] => True
  | i, d :: rest => d.WellFormedAt i ∧ WellFormedFrom (i + 1) rest

/-- The hopper list that the configuration is meant to hold: exactly 15
entries, each well formed at its index. -/
def WellFormedHoppers (defs : List HopperDef) : Prop :=
  defs.length = 15 ∧ WellFormedFrom 0 defs

/-- Two arrays of 15 hoppers hold the same hopper, and not nil, in every slot
below `i`. -/
def AgreeBelow {η : Type} (i : Nat) (h₁ h₂ : List (Option η)) : Prop :=
  h₁.length = 15 ∧ h₂.length = 15
  ∧ ∀ k, k < i → h₁.getD k none = h₂.getD k none ∧ h₁.getD k none ≠ none

/-! ## Concrete inputs -/

/-- The settings `main` starts from when no flag is given. -/
def defaultSettings : Settings :=
  { Verbose := false, Simulate := false, MaxMythic := 2, MaxRare := 3, MaxUncommon := 4,
    MaxCommon := 6, PackCommonColorStdevMax := 0, PackCommonRatingMin := 0,
    PackCommonRatingMax := 0, DraftCommonColorStdevMax := 0,
    PackCommonColorIdentityStdevMax := 0, DraftCommonColorIdentityStdevMax := 0,
    DfcMode := false, AbortMissingCommonColor := false,
    AbortMissingCommonColorIdentity := false,
    AbortDuplicateThreeColorIdentityUncommons := false }

/-- The default settings with the four maximum copy counts set to 0: every
optional rule of both validators is disabled. -/
def noRules : Settings :=
  { defaultSettings with MaxMythic := 0, MaxRare := 0, MaxUncommon := 0, MaxCommon := 0 }

/-- Every optional rule disabled except the two `AbortMissing` flags. -/
def bothAbortMissing : Settings :=
  { noRules with AbortMissingCommonColor := true, AbortMissingCommonColorIdentity := true }

/-- A basic land. -/
def plains : Card :=
  { ID := "Plains", Rarity := "basic", Color := "", ColorIdentity := "W", Rating := 0,
    Foil := false, Dfc := false, Data := "" }

/-- The common card `C1`. -/
def commonC1 : Card :=
  { ID := "C1", Rarity := "common", Color := "W", ColorIdentity := "W", Rating := 2,
    Foil := false, Dfc := false, Data := "" }

/-- A draft of 24 packs of 15 cards in which `C1` occurs once in each of the
first `n` packs and every other card is a basic land. -/
def draftWithC1 (n : Nat) : Draft :=
  List.replicate n (commonC1 :: List.replicate 14 plains)
    ++ List.replicate (24 - n) (List.replicate 15 plains)

/-- A non-foil, non-Dfc card with the given ID, rarity and colours. -/
def mkCard (id rarity color : String) : Card :=
  { ID := id, Rarity := rarity, Color := color, ColorIdentity := color, Rating := 2,
    Foil := false, Dfc := false, Data := "" }

/-- A pack of 15 cards whose eligible commons tally W:3, U:1, B:1 and no red
or green: five coloured commons, five colourless commons, three uncommons, a
rare, and a foil copy of the common `C1`. -/
def packThreeColors : Pack :=
  [mkCard "C1" "common" "W", mkCard "C2" "common" "W", mkCard "C3" "common" "W",
   mkCard "C4" "common" "U", mkCard "C5" "common" "B",
   mkCard "C6" "common" "", mkCard "C7" "common" "", mkCard "C8" "common" "",
   mkCard "C9" "common" "", mkCard "C10" "common" "",
   mkCard "U1" "uncommon" "W", mkCard "U2" "uncommon" "U", mkCard "U3" "uncommon" "B",
   mkCard "R1" "rare" "R",
   { mkCard "C1" "common" "W" with Foil := true }]

/-- A pack of 15 cards whose eligible commons show all five colours. -/
def packFiveColors : Pack :=
  [mkCard "C1" "common" "W", mkCard "C2" "common" "U", mkCard "C3" "common" "B",
   mkCard "C4" "common" "R", mkCard "C5" "common" "G",
   mkCard "C6" "common" "W", mkCard "C7" "common" "U", mkCard "C8" "common" "B",
   mkCard "C9" "common" "R", mkCard "C10" "common" "G",
   mkCard "U1" "uncommon" "W", mkCard "U2" "uncommon" "U", mkCard "U3" "uncommon" "B",
   mkCard "R1" "rare" "R", mkCard "Plains" "basic" ""]

/-- A pack of 15 cards with two non-foil copies of one common whose `Color`
has six distinct symbols. -/
def packSixSymbols : Pack :=
  [mkCard "C1" "common" "WUBRGC", mkCard "C1" "common" "WUBRGC",
   mkCard "C3" "common" "B", mkCard "C4" "common" "R", mkCard "C5" "common" "G",
   mkCard "C6" "common" "W", mkCard "C7" "common" "U", mkCard "C8" "common" "B",
   mkCard "C9" "common" "R", mkCard "C10" "common" "G",
   mkCard "U1" "uncommon" "W", mkCard "U2" "uncommon" "U", mkCard "U3" "uncommon" "B",
   mkCard "R1" "rare" "R", mkCard "Plains" "basic" ""]

/-- A foil basic land. -/
def foilPlains : Card :=
  { plains with Foil := true }

/-- Hoppers that never run out of foil basic lands. -/
def endlessHoppers : Hoppers Unit :=
  { resetHoppers := fun w => w,
    pop := fun _ w => ((foilPlains, false), w) }

/-- The state in which the generation loop over `endlessHoppers` ends. -/
def endlessFinal : GenState Unit :=
  { loc := Loc.done, hoppers := (),
    packs := List.replicate 24 (List.replicate 15 foilPlains),
    packAttempts := 24, draftAttempts := 1,
    drawnIn := List.replicate 24 (List.replicate 15 1) }

/-- Every optional rule disabled except the two rating bounds: the minimum
is 3 and the maximum is 5. -/
def ratingBetween3And5 : Settings :=
  { noRules with PackCommonRatingMin := 3, PackCommonRatingMax := 5 }

/-- Every optional rule disabled except the rating maximum 5. -/
def ratingAtMost5 : Settings :=
  { noRules with PackCommonRatingMax := 5 }

/-- Every optional rule disabled except the two rating bounds: the minimum
is 1 and the maximum is 3. -/
def ratingBetween1And3 : Settings :=
  { noRules with PackCommonRatingMin := 1, PackCommonRatingMax := 3 }

/-- Hoppers that never run out of non-foil basic lands. -/
def plainsHoppers : Hoppers Unit :=
  { resetHoppers := fun w => w,
    pop := fun _ w => ((plains, false), w) }

/-- The state of the generation loop just after its first reset. -/
def firstDrawState : GenState Unit :=
  { genInit () with loc := Loc.draw 0, draftAttempts := 1 }

/-- Every optional rule disabled except the rule on uncommons. -/
def uncommonRuleOn : Settings :=
  { noRules with AbortDuplicateThreeColorIdentityUncommons := true }

/-- The rule on uncommons and `AbortMissingCommonColor` on, the rest off. -/
def uncommonRuleAndAbortMissing : Settings :=
  { noRules with AbortDuplicateThreeColorIdentityUncommons := true,
                 AbortMissingCommonColor := true }

/-- Ten commons with distinct IDs: three white, one blue, one black and five
colourless. -/
def tenCommons : List Card :=
  [mkCard "C1" "common" "W", mkCard "C2" "common" "W", mkCard "C3" "common" "W",
   mkCard "C4" "common" "U", mkCard "C5" "common" "B",
   mkCard "C6" "common" "", mkCard "C7" "common" "", mkCard "C8" "common" "",
   mkCard "C9" "common" "", mkCard "C10" "common" ""]

/-- The last three cards of the packs below: an uncommon, a rare and a basic
land. -/
def threeOthers : List Card :=
  [mkCard "U3" "uncommon" "G", mkCard "R1" "rare" "R", mkCard "Plains" "basic" ""]

/-- A pack of 15 cards with two uncommons whose identities are the three
symbols W, U, B in two orders. -/
def packTwoWUB : Pack :=
  tenCommons ++ mkCard "U1" "uncommon" "WUB"
    :: ([] ++ mkCard "U2" "uncommon" "BUW" :: threeOthers)

/-- A pack of 15 cards with two uncommons whose identities are the three
two-byte symbols α, β, γ in two orders. -/
def packTwoGreek : Pack :=
  tenCommons ++ mkCard "U1" "uncommon" "αβγ"
    :: ([] ++ mkCard "U2" "uncommon" "γβα" :: threeOthers)

/-- The pack `packTwoWUB` with the `Color` of its first common replaced by a
string of six distinct symbols. -/
def packTwoWUBSixSymbols : Pack :=
  mkCard "C1" "common" "WUBRGC" :: packTwoWUB.tail

/-- A catalog of six cards, two of them Dfc. -/
def smallCatalog : List Card :=
  [mkCard "M1" "mythic" "W", { mkCard "R1" "rare" "U" with Dfc := true },
   mkCard "U1" "uncommon" "B", mkCard "C1" "common" "R",
   { mkCard "C2" "common" "G" with Dfc := true }, mkCard "Plains" "basic" ""]

/-- The default settings with `DfcMode` on. -/
def dfcSettings : Settings :=
  { defaultSettings with DfcMode := true }

/-- A transaction that counts the statements executed: every `Exec` succeeds
and returns the count as id; a rollback sets the count back to 0. -/
def countingTx : Tx Nat Nat :=
  { exec := fun _ _ n => (some (n + 1), n + 1),
    lastInsertId := fun r => ((r : Int), false),
    commit := fun n => n,
    rollback := fun _ => 0 }

/-- The default settings with `Simulate` on. -/
def simulateSettings : Settings :=
  { defaultSettings with Simulate := true }

/-- Constructors that number the hoppers they make. -/
def countingMakers : HopperMakers Nat Nat :=
  { MakeNormalHopper := fun _ _ w => (w, w + 1),
    MakeBasicLandHopper := fun _ w => (w, w + 1),
    MakeFoilHopper := fun _ _ _ _ w => (w, w + 1) }

/-- Fourteen `CubeHopper` entries. -/
def fourteenCubes : List HopperDef :=
  List.replicate 14 { Kind := "CubeHopper", Refs := [] }

/-- A pack of 15 cards whose three commons are rated 0.1, 0.2 and 0.3, each
the float64 value nearest to that decimal; the other cards are foil basic
lands. -/
def packRatedTenths : Pack :=
  [{ mkCard "C1" "common" "W" with Rating := 3602879701896397 / 36028797018963968 },
   { mkCard "C2" "common" "U" with Rating := 3602879701896397 / 18014398509481984 },
   { mkCard "C3" "common" "B" with Rating := 5404319552844595 / 18014398509481984 }]
    ++ List.replicate 12 foilPlains

/-- Every optional rule disabled except the rating minimum, which is the
float64 value 0.2. -/
def ratingAtLeastFifth : Settings :=
  { noRules with PackCommonRatingMin := 3602879701896397 / 18014398509481984 }

/-- A pack of 15 cards whose eligible commons tally W:2, U:1, B:1, R:1, G:1,
the white commons first. -/
def packTwoWhite : Pack :=
  [mkCard "C1" "common" "W", mkCard "C2" "common" "W", mkCard "C3" "common" "U",
   mkCard "C4" "common" "B", mkCard "C5" "common" "R", mkCard "C6" "common" "G",
   mkCard "C7" "common" "", mkCard "C8" "common" "", mkCard "C9" "common" "",
   mkCard "C10" "common" "",
   mkCard "U1" "uncommon" "W", mkCard "U2" "uncommon" "U", mkCard "U3" "uncommon" "B",
   mkCard "R1" "rare" "R", mkCard "Plains" "basic" ""]

/-- Every optional rule disabled except the colour cap, which is the float64
value 0.4. -/
def colorCapTwoFifths : Settings :=
  { noRules with PackCommonColorStdevMax := 3602879701896397 / 9007199254740992 }

/-- A transaction that records the statements executed, with their
arguments: every `Exec` succeeds and returns the number of statements so far
as id. -/
def recordingTx : Tx (List (String × List SqlArg)) Nat :=
  { exec := fun query args db => (some (db.length + 1), db ++ [(query, args)]),
    lastInsertId := fun r => ((r : Int), false),
    commit := fun db => db,
    rollback := fun _ => [] }

/-- Constructors of hoppers that hold two cards each: a hopper is the number
of cards it has left, and the random source counts the hoppers made. -/
def twoCardMakers : HopperMakers Nat Nat :=
  { MakeNormalHopper := fun _ _ w => (2, w + 1),
    MakeBasicLandHopper := fun _ w => (2, w + 1),
    MakeFoilHopper := fun _ _ _ _ w => (2, w + 1) }

/-- A `Pop` for the hoppers of `twoCardMakers`: it takes a foil basic land
from the hopper of the slot and reports exhaustion when none is left. -/
def countedPop (j : Nat) (st : List (Option Nat) × Nat) :
    (Card × Bool) × (List (Option Nat) × Nat) :=
  match st.1.getD j none with
  | some (n + 1) => ((foilPlains, false), (st.1.set j (some n), st.2))
  | _ => ((default, true), st)

/-- Fifteen `CubeHopper` entries. -/
def fifteenCubes : List HopperDef :=
  List.replicate 15 { Kind := "CubeHopper", Refs := [] }

/-- The hoppers of `main` for fifteen `CubeHopper` entries of two cards. -/
def cubeHoppers : Hoppers (List (Option Nat) × Nat) :=
  mainHoppers twoCardMakers countedPop CardSet.empty CardSet.empty fifteenCubes

/-- The state of the generation loop over `cubeHoppers` after the reset and
the draws of the packs 0 and 1: every hopper is empty. -/
def drainedState : GenState (List (Option Nat) × Nat) :=
  { loc := Loc.draw 2, hoppers := (List.replicate 15 (some 0), 15),
    packs := List.replicate 2 (List.replicate 15 foilPlains)
      ++ List.replicate 22 (List.replicate 15 default),
    packAttempts := 2, draftAttempts := 1,
    drawnIn := List.replicate 2 (List.replicate 15 1)
      ++ List.replicate 22 (List.replicate 15 0) }

/-! ## Theorems -/

/-! ### Go maps -/

theorem GoMap.lookup_incr_self {κ ν : Type} [DecidableEq κ] [Zero ν] [One ν] [Add ν]
    (m : GoMap κ ν) (k : κ) : (m.incr k).lookup k = m.lookup k + 1 := by
  induction m with
  | nil => simp [GoMap.incr, GoMap.lookup]
  | cons kv m ih =>
    obtain ⟨k', v⟩ := kv
    by_cases h : k' = k
    · simp [GoMap.incr, GoMap.lookup, h]
    · simp [GoMap.incr, GoMap.lookup, h, ih]

theorem GoMap.lookup_incr_of_ne {κ ν : Type} [DecidableEq κ] [Zero ν] [One ν] [Add ν]
    (m : GoMap κ ν) {k k' : κ} (h : k ≠ k') : (m.incr k).lookup k' = m.lookup k' := by
  induction m with
  | nil => simp [GoMap.incr, GoMap.lookup, h]
  | cons kv m ih =>
    obtain ⟨k₀, v⟩ := kv
    by_cases h₀ : k₀ = k
    · subst h₀
      simp [GoMap.incr, GoMap.lookup, h]
    · by_cases h₁ : k₀ = k'
      · have h₂ : ¬ k' = k := fun e => h e.symm
        subst h₁
        simp [GoMap.incr, GoMap.lookup, h₂]
      · simp [GoMap.incr, GoMap.lookup, h₀, h₁, ih]

theorem GoMap.keys_incr {κ ν : Type} [DecidableEq κ] [Zero ν] [One ν] [Add ν]
    (m : GoMap κ ν) (k : κ) :
    (m.incr k).keys = if k ∈ m.keys then m.keys else m.keys ++ [k] := by
  induction m with
  | nil => simp [GoMap.incr, GoMap.keys]
  | cons kv m ih =>
    obtain ⟨k', v⟩ := kv
    by_cases h : k' = k
    · simp [GoMap.incr, GoMap.keys, h]
    · have h' : ¬ k = k' := fun e => h e.symm
      simp only [GoMap.keys] at ih
      simp only [GoMap.incr, GoMap.keys, h, if_false, List.map_cons, ih, List.mem_cons, h',
        false_or]
      split_ifs <;> simp

/-! ### The loop of `okDraft` -/

theorem okDraftCard_cardHash (s : Settings) (st : DraftTally) (card : Card) :
    (okDraftCard s st card).cardHash = st.cardHash.incr card.ID := by
  unfold okDraftCard
  simp only []
  split_ifs <;> rfl

theorem okDraftCard_passes (s : Settings) (st : DraftTally) (card : Card) :
    (okDraftCard s st card).passes
      = (st.passes && !(overMax (configuredMax s card.Rarity)
          ((st.cardHash.incr card.ID).lookup card.ID))) := by
  unfold okDraftCard configuredMax
  simp only []
  by_cases h1 : card.Rarity = "mythic"
  · simp only [if_pos h1]
    split_ifs <;> simp_all
  by_cases h2 : card.Rarity = "rare"
  · simp only [if_neg h1, if_pos h2]
    split_ifs <;> simp_all
  by_cases h3 : card.Rarity = "uncommon"
  · simp only [if_neg h1, if_neg h2, if_pos h3]
    split_ifs <;> simp_all
  by_cases h4 : card.Rarity = "common"
  · simp only [if_neg h1, if_neg h2, if_neg h3, if_pos h4]
    split_ifs <;> simp_all
  · simp only [if_neg h1, if_neg h2, if_neg h3, if_neg h4]
    simp [overMax]

theorem copies_cons (id : String) (card : Card) (cards : List Card) :
    copies id (card :: cards) = copies id cards + (if card.ID = id then 1 else 0) := by
  simp [copies, List.countP_cons]

/-- The `passes` flag after the loop body has run over `cards`, when the
`cardHash` of the starting state counts the cards `seen` so far. -/
theorem foldl_okDraftCard_passes (s : Settings) (cards seen : List Card) (st : DraftTally)
    (hst : ∀ id, st.cardHash.lookup id = (copies id seen : Int)) :
    (cards.foldl (okDraftCard s) st).passes = (st.passes && maxCopyChecks s seen cards) := by
  induction cards generalizing seen st with
  | nil => simp [maxCopyChecks]
  | cons card rest ih =>
    have hnext : ∀ id, (okDraftCard s st card).cardHash.lookup id
        = (copies id (card :: seen) : Int) := by
      intro id
      rw [okDraftCard_cardHash, copies_cons]
      by_cases h : card.ID = id
      · subst h
        simp [GoMap.lookup_incr_self, hst]
      · simp [GoMap.lookup_incr_of_ne _ h, hst, h]
    rw [List.foldl_cons, ih (card :: seen) _ hnext, okDraftCard_passes,
      GoMap.lookup_incr_self, hst, maxCopyChecks, Bool.and_assoc]

theorem okDraftLoop_passes (s : Settings) (packs : Draft) :
    (okDraftLoop s packs).passes = maxCopyChecks s [] packs.flatten := by
  have h := foldl_okDraftCard_passes s packs.flatten [] DraftTally.init
    (by intro id; simp [DraftTally.init, GoMap.lookup, copies])
  unfold okDraftLoop
  rw [← List.foldl_flatten, h]
  simp [DraftTally.init]

theorem okDraft_eq_true_passes (s : Settings) (packs : Draft) (h : okDraft s packs = true) :
    (okDraftLoop s packs).passes = true := by
  unfold okDraft okDraftVerdict at h
  simp only [] at h
  split_ifs at h
  exact h

theorem copiesOfRarity_cons (id rarity : String) (card : Card) (cards : List Card) :
    copiesOfRarity id rarity (card :: cards)
      = copiesOfRarity id rarity cards + (if card.ID = id ∧ card.Rarity = rarity then 1 else 0) := by
  simp [copiesOfRarity, List.countP_cons]

theorem copiesOfRarity_eq_zero (id rarity : String) (cards : List Card)
    (h : ¬ ∃ c ∈ cards, c.ID = id ∧ c.Rarity = rarity) : copiesOfRarity id rarity cards = 0 := by
  unfold copiesOfRarity
  rw [List.countP_eq_zero]
  intro c hc hp
  exact h ⟨c, hc, by simpa using hp⟩

/-- When the maximum-copy checks pass on `cards` after `seen`, every ID that
occurs in `cards` with a rarity of nonzero maximum stays within the maximum,
the copies already seen (of any rarity) included. -/
theorem maxCopyChecks_bound (s : Settings) (id rarity : String)
    (hmax : configuredMax s rarity ≠ 0) (cards seen : List Card)
    (h : maxCopyChecks s seen cards = true)
    (hocc : ∃ c ∈ cards, c.ID = id ∧ c.Rarity = rarity) :
    (copies id seen : Int) + (copiesOfRarity id rarity cards : Int) ≤ configuredMax s rarity := by
  induction cards generalizing seen with
  | nil => obtain ⟨c, hc, _⟩ := hocc; simp at hc
  | cons card rest ih =>
    rw [maxCopyChecks, Bool.and_eq_true] at h
    obtain ⟨hcard, hrest⟩ := h
    by_cases hmore : ∃ c ∈ rest, c.ID = id ∧ c.Rarity = rarity
    · have hle := ih (card :: seen) hrest hmore
      rw [copies_cons] at hle
      rw [copiesOfRarity_cons]
      by_cases hid : card.ID = id
      · simp only [hid, if_true, Nat.cast_add, Nat.cast_one] at hle
        split_ifs <;> push_cast <;> omega
      · have : ¬ (card.ID = id ∧ card.Rarity = rarity) := fun hh => hid hh.1
        simp only [hid, if_false, this, Nat.add_zero] at hle ⊢
        exact hle
    · have hzero := copiesOfRarity_eq_zero id rarity rest hmore
      have hhere : card.ID = id ∧ card.Rarity = rarity := by
        obtain ⟨c, hc, hcid⟩ := hocc
        rcases List.mem_cons.1 hc with rfl | hc
        · exact hcid
        · exact absurd ⟨c, hc, hcid⟩ hmore
      rw [copiesOfRarity_cons, hzero, if_pos hhere]
      rw [hhere.1, hhere.2] at hcard
      simp only [overMax, Bool.not_eq_true', Bool.and_eq_false_iff, decide_eq_false_iff_not,
        ne_eq, not_not, gt_iff_lt, not_lt] at hcard
      rcases hcard with hcard | hcard
      · exact absurd hcard hmax
      · push_cast
        omega

theorem okDraft_bound (s : Settings) (packs : Draft) (h : okDraft s packs = true)
    (id rarity : String) (hmax : configuredMax s rarity ≠ 0)
    (hocc : ∃ c ∈ packs.flatten, c.ID = id ∧ c.Rarity = rarity) :
    (copiesOfRarity id rarity packs.flatten : Int) ≤ configuredMax s rarity := by
  have hp := okDraft_eq_true_passes s packs h
  rw [okDraftLoop_passes] at hp
  have := maxCopyChecks_bound s id rarity hmax packs.flatten [] hp hocc
  simpa [copies] using this

theorem maxCopyChecks_eraseColors (s : Settings) (cards seen : List Card) :
    maxCopyChecks s (seen.map eraseColors) (cards.map eraseColors) = maxCopyChecks s seen cards := by
  induction cards generalizing seen with
  | nil => simp [maxCopyChecks]
  | cons card rest ih =>
    have hc : copies (eraseColors card).ID (seen.map eraseColors) = copies card.ID seen := by
      simp [copies, List.countP_map, eraseColors, Function.comp_def]
    have := ih (card :: seen)
    rw [List.map_cons] at this
    rw [List.map_cons, maxCopyChecks, maxCopyChecks, this, hc]
    rfl

theorem okDraft_of_zero_stdev_max (s : Settings) (packs : Draft)
    (hc : s.DraftCommonColorStdevMax = 0) (hi : s.DraftCommonColorIdentityStdevMax = 0) :
    okDraft s packs = maxCopyChecks s [] packs.flatten := by
  unfold okDraft okDraftVerdict
  simp [hc, hi, okDraftLoop_passes]


/-! ### The loop of `okPack` -/

theorem okPackCount_cardHash (st : PackTally) (card : Card) :
    (okPackCount st card).cardHash = st.cardHash.incr card.ID := by
  unfold okPackCount
  simp only []
  split_ifs <;> rfl

theorem okPackCount_passes (st : PackTally) (card : Card) :
    (okPackCount st card).passes
      = (st.passes && !(decide ((st.cardHash.incr card.ID).lookup card.ID > 1))) := by
  unfold okPackCount
  simp only []
  split_ifs with h <;> simp [h]

theorem okPackCount_colorHash (st : PackTally) (card : Card) :
    (okPackCount st card).colorHash = st.colorHash
    ∧ (okPackCount st card).colorIdentityHash = st.colorIdentityHash
    ∧ (okPackCount st card).ratings = st.ratings := by
  unfold okPackCount
  simp only []
  split_ifs <;> exact ⟨rfl, rfl, rfl⟩

theorem okPackUncommon_frame (s : Settings) (st : PackTally) (card : Card) :
    (okPackUncommon s st card).cardHash = st.cardHash
    ∧ (okPackUncommon s st card).colorHash = st.colorHash
    ∧ (okPackUncommon s st card).colorIdentityHash = st.colorIdentityHash
    ∧ (okPackUncommon s st card).ratings = st.ratings := by
  unfold okPackUncommon
  simp only []
  split_ifs <;> exact ⟨rfl, rfl, rfl, rfl⟩

theorem okPackUncommon_passes_true (s : Settings) (st : PackTally) (card : Card)
    (h : (okPackUncommon s st card).passes = true) : st.passes = true := by
  unfold okPackUncommon at h
  simp only [] at h
  split_ifs at h <;> exact h

theorem okPackUncommon_of_flag_off (s : Settings) (st : PackTally) (card : Card)
    (hflag : s.AbortDuplicateThreeColorIdentityUncommons = false) :
    okPackUncommon s st card = st := by
  simp [okPackUncommon, hflag]

theorem okPackCard_of_excluded (s : Settings) (st : PackTally) (card : Card)
    (h : excluded s card = true) : okPackCard s st card = st := by
  simp [okPackCard, h]

theorem okPackCard_cardHash (s : Settings) (st : PackTally) (card : Card)
    (h : excluded s card = false) :
    (okPackCard s st card).cardHash = st.cardHash.incr card.ID := by
  unfold okPackCard
  simp only [h, Bool.false_eq_true, if_false]
  split_ifs
  · exact okPackCount_cardHash st card
  · rw [(okPackUncommon_frame s _ card).1]
    exact okPackCount_cardHash st card
  · exact okPackCount_cardHash st card

theorem okPackCard_passes_true (s : Settings) (st : PackTally) (card : Card)
    (hex : excluded s card = false) (h : (okPackCard s st card).passes = true) :
    st.passes = true ∧ ¬ (st.cardHash.incr card.ID).lookup card.ID > 1 := by
  unfold okPackCard at h
  simp only [hex, Bool.false_eq_true, if_false] at h
  have key : (okPackCount st card).passes = true := by
    split_ifs at h
    · exact h
    · exact okPackUncommon_passes_true s _ card h
    · exact h
  rw [okPackCount_passes] at key
  simpa using key

theorem okPackCard_passes_of_flag_off (s : Settings) (st : PackTally) (card : Card)
    (hflag : s.AbortDuplicateThreeColorIdentityUncommons = false)
    (hex : excluded s card = false) :
    (okPackCard s st card).passes
      = (st.passes && !(decide ((st.cardHash.incr card.ID).lookup card.ID > 1))) := by
  unfold okPackCard
  simp only [hex, Bool.false_eq_true, if_false, okPackUncommon_of_flag_off s _ card hflag]
  split_ifs
  · exact okPackCount_passes st card
  · exact okPackCount_passes st card
  · exact okPackCount_passes st card

theorem eligible_cons (s : Settings) (card : Card) (cards : List Card) :
    eligible s (card :: cards)
      = if excluded s card = true then eligible s cards else card :: eligible s cards := by
  unfold eligible
  rw [List.filter_cons]
  cases excluded s card <;> simp

/-- If `passes` is still true after the loop body has run over `cards`, it
was true before, the IDs of the eligible cards among `cards` are pairwise
distinct and none of them was counted before. -/
theorem foldl_okPackCard_passes_true (s : Settings) (cards seen : List Card) (st : PackTally)
    (hst : ∀ id, st.cardHash.lookup id = (copies id seen : Int))
    (h : (cards.foldl (okPackCard s) st).passes = true) :
    st.passes = true ∧ ((eligible s cards).map Card.ID).Nodup
      ∧ ∀ c ∈ eligible s cards, copies c.ID seen = 0 := by
  induction cards generalizing seen st with
  | nil => exact ⟨h, by simp [eligible], by simp [eligible]⟩
  | cons card rest ih =>
    rw [List.foldl_cons] at h
    rw [eligible_cons]
    cases hex : excluded s card with
    | true =>
      rw [okPackCard_of_excluded s st card hex] at h
      simpa using ih seen st hst h
    | false =>
      have hnext : ∀ id, (okPackCard s st card).cardHash.lookup id
          = (copies id (card :: seen) : Int) := by
        intro id
        rw [okPackCard_cardHash s st card hex, copies_cons]
        by_cases hid : card.ID = id
        · subst hid
          simp [GoMap.lookup_incr_self, hst]
        · simp [GoMap.lookup_incr_of_ne _ hid, hst, hid]
      obtain ⟨hp1, hnd, hfresh⟩ := ih (card :: seen) _ hnext h
      obtain ⟨hp, hone⟩ := okPackCard_passes_true s st card hex hp1
      rw [GoMap.lookup_incr_self, hst] at hone
      have hzero : copies card.ID seen = 0 := by omega
      refine ⟨hp, ?_, ?_⟩
      · simp only [Bool.false_eq_true, if_false, List.map_cons, List.nodup_cons, hnd, and_true,
          List.mem_map, not_exists, not_and]
        intro c hc hid
        have := hfresh c hc
        rw [copies_cons, hid] at this
        simp at this
      · intro c hc
        simp only [Bool.false_eq_true, if_false, List.mem_cons] at hc
        rcases hc with rfl | hc
        · exact hzero
        · have := hfresh c hc
          rw [copies_cons] at this
          omega

/-- With the rule on uncommons off, `passes` stays true over `cards` when the
IDs of the eligible cards among them are pairwise distinct and new. -/
theorem foldl_okPackCard_passes_of_nodup (s : Settings)
    (hflag : s.AbortDuplicateThreeColorIdentityUncommons = false)
    (cards seen : List Card) (st : PackTally)
    (hst : ∀ id, st.cardHash.lookup id = (copies id seen : Int))
    (hp : st.passes = true) (hnd : ((eligible s cards).map Card.ID).Nodup)
    (hfresh : ∀ c ∈ eligible s cards, copies c.ID seen = 0) :
    (cards.foldl (okPackCard s) st).passes = true := by
  induction cards generalizing seen st with
  | nil => exact hp
  | cons card rest ih =>
    rw [List.foldl_cons]
    rw [eligible_cons] at hnd hfresh
    cases hex : excluded s card with
    | true =>
      rw [okPackCard_of_excluded s st card hex]
      simp only [hex, if_true] at hnd hfresh
      exact ih seen st hst hp hnd hfresh
    | false =>
      simp only [hex, Bool.false_eq_true, if_false, List.map_cons, List.nodup_cons,
        List.mem_map, not_exists, not_and, List.mem_cons, forall_eq_or_imp] at hnd hfresh
      have hnext : ∀ id, (okPackCard s st card).cardHash.lookup id
          = (copies id (card :: seen) : Int) := by
        intro id
        rw [okPackCard_cardHash s st card hex, copies_cons]
        by_cases hid : card.ID = id
        · subst hid
          simp [GoMap.lookup_incr_self, hst]
        · simp [GoMap.lookup_incr_of_ne _ hid, hst, hid]
      refine ih (card :: seen) _ hnext ?_ hnd.2 ?_
      · rw [okPackCard_passes_of_flag_off s st card hflag hex, GoMap.lookup_incr_self, hst,
          hfresh.1, hp]
        simp
      · intro c hc
        rw [copies_cons, hfresh.2 c hc]
        have : ¬ card.ID = c.ID := fun e => hnd.1 c hc e.symm
        simp [this]

theorem okPackLoop_passes_true (s : Settings) (pack : Pack)
    (h : (okPackLoop s pack).passes = true) : ((eligible s pack).map Card.ID).Nodup :=
  (foldl_okPackCard_passes_true s pack [] PackTally.init
    (by intro id; simp [PackTally.init, GoMap.lookup, copies]) h).2.1

theorem okPackLoop_passes_of_nodup (s : Settings)
    (hflag : s.AbortDuplicateThreeColorIdentityUncommons = false) (pack : Pack)
    (hnd : ((eligible s pack).map Card.ID).Nodup) : (okPackLoop s pack).passes = true :=
  foldl_okPackCard_passes_of_nodup s hflag pack [] PackTally.init
    (by intro id; simp [PackTally.init, GoMap.lookup, copies]) rfl hnd
    (by intro c _; simp [copies])


/-! ### The end of `okPack` -/

theorem padLoop_eq_some (fuel : Nat) (l r : List ℚ) (h : padLoop fuel l = some r) :
    l.length < 5 ∧ r = l ++ List.replicate (5 - l.length) 0 := by
  induction fuel generalizing l with
  | zero => simp [padLoop] at h
  | succ fuel ih =>
    rw [padLoop] at h
    simp only [List.length_append, List.length_singleton] at h
    split_ifs at h with h5
    · have hl : l.length = 4 := by omega
      refine ⟨by omega, ?_⟩
      rw [hl]
      simpa using h.symm
    · obtain ⟨hlt, hr⟩ := ih (l ++ [0]) h
      simp only [List.length_append, List.length_singleton] at hlt hr
      refine ⟨by omega, ?_⟩
      have : 5 - l.length = (5 - (l.length + 1)) + 1 := by omega
      rw [hr, this, List.replicate_succ, List.append_assoc]
      rfl

theorem padLoop_of_lt (fuel : Nat) (l : List ℚ) (hl : l.length < 5) (hf : 5 - l.length ≤ fuel) :
    padLoop fuel l = some (l ++ List.replicate (5 - l.length) 0) := by
  induction fuel generalizing l with
  | zero => omega
  | succ fuel ih =>
    rw [padLoop]
    simp only [List.length_append, List.length_singleton]
    split_ifs with h5
    · have hl4 : l.length = 4 := by omega
      rw [hl4]
      rfl
    · have := ih (l ++ [0]) (by simp; omega) (by simp; omega)
      rw [this]
      simp only [List.length_append, List.length_singleton]
      have : 5 - l.length = (5 - (l.length + 1)) + 1 := by omega
      rw [this, List.replicate_succ, List.append_assoc]
      rfl

/-- From five or more counts the zero-padding loop never reaches its `break`,
however long it runs. -/
theorem padLoop_eq_none (fuel : Nat) (l : List ℚ) (hl : 5 ≤ l.length) : padLoop fuel l = none := by
  cases h : padLoop fuel l with
  | none => rfl
  | some r => have := (padLoop_eq_some fuel l r h).1; omega

/-- No number of iterations gives the zero-padding loop a result that five
iterations do not give. -/
theorem padLoop_eq_padZeros (fuel : Nat) (l r : List ℚ) (h : padLoop fuel l = some r) :
    padZeros l = some r := by
  obtain ⟨hl, hr⟩ := padLoop_eq_some fuel l r h
  rw [padZeros, padLoop_of_lt 5 l hl (by omega), hr]

theorem abortMissing_eq (flag passes : Bool) (colors : List ℚ) :
    abortMissing flag passes colors
      = if flag = true ∧ colors.length ≠ 5 then
          if colors.length < 5
          then some (false, colors ++ List.replicate (5 - colors.length) 0) else none
        else some (passes, colors) := by
  unfold abortMissing
  split_ifs with h1 h2
  · rw [padZeros, padLoop_of_lt 5 colors h2 (by omega)]
  · rw [padZeros, padLoop_eq_none 5 colors (by omega)]
  · rfl

theorem okPackCaps_false (s : Settings) (colorStdev colorIdentityStdev : Option Root)
    (ratingMean : Option ℚ) :
    okPackCaps s false colorStdev colorIdentityStdev ratingMean = false := by
  unfold okPackCaps
  simp

/-- The result of `okPack` is never true once `passes` is false after the loop. -/
theorem okPackVerdict_of_passes_false (s : Settings) (colors colorIdentities ratings : List ℚ) :
    okPackVerdict s false colors colorIdentities ratings ≠ some true := by
  unfold okPackVerdict
  rw [abortMissing_eq]
  split_ifs
  · simp only [abortMissing_eq]
    split_ifs <;> simp [okPackCaps_false]
  · simp
  · simp only [abortMissing_eq]
    split_ifs <;> simp [okPackCaps_false]

/-- The end of `okPack` returns unless a zero-padding loop is entered with
more than five counts, and it returns false when `passes` is false. -/
theorem okPackVerdict_false_of_le (s : Settings) (colors colorIdentities ratings : List ℚ)
    (hc : s.AbortMissingCommonColor = true → colors.length ≤ 5)
    (hi : s.AbortMissingCommonColorIdentity = true → colorIdentities.length ≤ 5) :
    okPackVerdict s false colors colorIdentities ratings = some false := by
  unfold okPackVerdict
  rw [abortMissing_eq]
  split_ifs with h1 h2
  · simp only [abortMissing_eq]
    split_ifs with h3 h4
    · simp [okPackCaps_false]
    · have := hi h3.1; omega
    · simp [okPackCaps_false]
  · have := hc h1.1; omega
  · simp only [abortMissing_eq]
    split_ifs with h3 h4
    · simp [okPackCaps_false]
    · have := hi h3.1; omega
    · simp [okPackCaps_false]

/-- With both `AbortMissing` flags off the end of `okPack` is the three
threshold checks on the counts as read out of the maps. -/
theorem okPackVerdict_of_flags_off (s : Settings) (passes : Bool)
    (colors colorIdentities ratings : List ℚ)
    (hc : s.AbortMissingCommonColor = false) (hi : s.AbortMissingCommonColorIdentity = false) :
    okPackVerdict s passes colors colorIdentities ratings
      = some (okPackCaps s passes (stdev colors) (stdev colorIdentities) (mean ratings)) := by
  unfold okPackVerdict
  simp [abortMissing, hc, hi]


/-! ### The colour tallies of `okPack` -/

theorem GoMap.nodup_keys_incr {κ ν : Type} [DecidableEq κ] [Zero ν] [One ν] [Add ν]
    (m : GoMap κ ν) (k : κ) (h : m.keys.Nodup) : (m.incr k).keys.Nodup := by
  rw [GoMap.keys_incr]
  split_ifs with hk
  · exact h
  · rw [List.nodup_append]
    refine ⟨h, List.nodup_singleton k, ?_⟩
    intro a ha hak
    rw [List.mem_singleton] at hak
    exact hk (hak ▸ ha)

theorem GoMap.mem_keys_incr {κ ν : Type} [DecidableEq κ] [Zero ν] [One ν] [Add ν]
    (m : GoMap κ ν) (k x : κ) : x ∈ (m.incr k).keys ↔ x ∈ m.keys ∨ x = k := by
  rw [GoMap.keys_incr]
  split_ifs with hk
  · constructor
    · exact Or.inl
    · rintro (h | rfl)
      · exact h
      · exact hk
  · simp

theorem GoMap.values_eq_map_lookup {κ ν : Type} [DecidableEq κ] [Zero ν]
    (m : GoMap κ ν) (h : m.keys.Nodup) : m.values = m.keys.map (fun k => m.lookup k) := by
  induction m with
  | nil => rfl
  | cons kv m ih =>
    obtain ⟨k, v⟩ := kv
    simp only [GoMap.keys, List.map_cons, List.nodup_cons, List.mem_map, not_exists,
      not_and] at h
    have ih' := ih h.2
    simp only [GoMap.values, GoMap.keys, List.map_cons, List.map_map, GoMap.lookup, if_true,
      List.cons.injEq, true_and] at ih' ⊢
    rw [ih']
    apply List.map_congr_left
    intro kv' hkv'
    have : ¬ k = kv'.1 := fun e => h.1 kv' hkv' e.symm
    simp [GoMap.lookup, this]

theorem tally_foldl_nodup (syms : List Char) (m : GoMap Char ℚ) (h : m.keys.Nodup) :
    (syms.foldl GoMap.incr m).keys.Nodup := by
  induction syms generalizing m with
  | nil => exact h
  | cons x xs ih => exact ih _ (GoMap.nodup_keys_incr m x h)

theorem tally_foldl_mem (syms : List Char) (m : GoMap Char ℚ) (x : Char) :
    x ∈ (syms.foldl GoMap.incr m).keys ↔ x ∈ m.keys ∨ x ∈ syms := by
  induction syms generalizing m with
  | nil => simp
  | cons y ys ih =>
    rw [List.foldl_cons, ih, GoMap.mem_keys_incr, List.mem_cons, or_assoc]

theorem tally_foldl_lookup (syms : List Char) (m : GoMap Char ℚ) (x : Char) :
    (syms.foldl GoMap.incr m).lookup x = m.lookup x + (syms.count x : ℚ) := by
  induction syms generalizing m with
  | nil => simp
  | cons y ys ih =>
    rw [List.foldl_cons, ih, List.count_cons]
    by_cases hxy : y = x
    · subst hxy
      rw [GoMap.lookup_incr_self]
      simp
      ring
    · rw [GoMap.lookup_incr_of_ne _ hxy]
      simp [hxy]

/-- The counts read out of a map that tallied `syms` are, up to order, one
count per distinct symbol of `syms`. -/
theorem tally_values_perm (syms : List Char) :
    ((syms.foldl GoMap.incr ([] : GoMap Char ℚ)).values).Perm (perSymbolCounts syms) := by
  have hnd := tally_foldl_nodup syms ([] : GoMap Char ℚ) (by simp [GoMap.keys])
  rw [GoMap.values_eq_map_lookup _ hnd]
  have hperm : ((syms.foldl GoMap.incr ([] : GoMap Char ℚ)).keys).Perm syms.dedup := by
    rw [List.perm_ext_iff_of_nodup hnd (List.nodup_dedup syms)]
    intro x
    rw [tally_foldl_mem, List.mem_dedup]
    simp [GoMap.keys]
  have hfun : (fun k => (syms.foldl GoMap.incr ([] : GoMap Char ℚ)).lookup k)
      = fun x => (syms.count x : ℚ) := by
    funext x
    rw [tally_foldl_lookup]
    simp [GoMap.lookup]
  rw [hfun]
  exact hperm.map _

theorem okPackCard_colorHash (s : Settings) (st : PackTally) (card : Card) :
    (okPackCard s st card).colorHash
      = if excluded s card = false ∧ card.Rarity = "common"
        then tally st.colorHash card.Color else st.colorHash := by
  unfold okPackCard
  cases hex : excluded s card with
  | true => simp
  | false =>
    simp only [Bool.false_eq_true, if_false, true_and]
    split_ifs
    · simp [okPackCommon, (okPackCount_colorHash st card).1]
    · rw [(okPackUncommon_frame s _ card).2.1, (okPackCount_colorHash st card).1]
    · exact (okPackCount_colorHash st card).1

theorem okPackCard_colorIdentityHash (s : Settings) (st : PackTally) (card : Card) :
    (okPackCard s st card).colorIdentityHash
      = if excluded s card = false ∧ card.Rarity = "common"
        then tally st.colorIdentityHash card.ColorIdentity else st.colorIdentityHash := by
  unfold okPackCard
  cases hex : excluded s card with
  | true => simp
  | false =>
    simp only [Bool.false_eq_true, if_false, true_and]
    split_ifs
    · simp [okPackCommon, (okPackCount_colorHash st card).2.1]
    · rw [(okPackUncommon_frame s _ card).2.2.1, (okPackCount_colorHash st card).2.1]
    · exact (okPackCount_colorHash st card).2.1

theorem eligibleCommons_cons (s : Settings) (card : Card) (cards : List Card) :
    eligibleCommons s (card :: cards)
      = if excluded s card = false ∧ card.Rarity = "common"
        then card :: eligibleCommons s cards else eligibleCommons s cards := by
  unfold eligibleCommons
  rw [eligible_cons]
  cases hex : excluded s card with
  | true => simp
  | false =>
    by_cases hr : card.Rarity = "common"
    · simp [hr, List.filter_cons]
    · simp [hr, List.filter_cons]

theorem foldl_okPackCard_colorHash (s : Settings) (cards : List Card) (st : PackTally) :
    (cards.foldl (okPackCard s) st).colorHash
      = (colorSymbols s cards).foldl GoMap.incr st.colorHash := by
  induction cards generalizing st with
  | nil => rfl
  | cons card rest ih =>
    rw [List.foldl_cons, ih, okPackCard_colorHash]
    unfold colorSymbols
    rw [eligibleCommons_cons]
    split_ifs
    · rw [List.flatMap_cons, List.foldl_append]
      rfl
    · rfl

theorem foldl_okPackCard_colorIdentityHash (s : Settings) (cards : List Card) (st : PackTally) :
    (cards.foldl (okPackCard s) st).colorIdentityHash
      = (colorIdentitySymbols s cards).foldl GoMap.incr st.colorIdentityHash := by
  induction cards generalizing st with
  | nil => rfl
  | cons card rest ih =>
    rw [List.foldl_cons, ih, okPackCard_colorIdentityHash]
    unfold colorIdentitySymbols
    rw [eligibleCommons_cons]
    split_ifs
    · rw [List.flatMap_cons, List.foldl_append]
      rfl
    · rfl

/-- The counts `okPack` reads out of `colorHash` are, up to order, one count
per colour symbol that occurs among the eligible commons. -/
theorem okPackLoop_colors_perm (s : Settings) (pack : Pack) :
    ((okPackLoop s pack).colorHash.values).Perm (perSymbolCounts (colorSymbols s pack)) := by
  unfold okPackLoop
  rw [foldl_okPackCard_colorHash]
  exact tally_values_perm _

theorem okPackLoop_colorIdentities_perm (s : Settings) (pack : Pack) :
    ((okPackLoop s pack).colorIdentityHash.values).Perm
      (perSymbolCounts (colorIdentitySymbols s pack)) := by
  unfold okPackLoop
  rw [foldl_okPackCard_colorIdentityHash]
  exact tally_values_perm _


/-! ### Mean and standard deviation -/

theorem foldl_add_eq_sum (l : List ℚ) (a : ℚ) :
    l.foldl (fun sum val => sum + val) a = a + l.sum := by
  induction l generalizing a with
  | nil => simp
  | cons x xs ih => rw [List.foldl_cons, ih, List.sum_cons]; ring

theorem foldl_sq_eq_sum (l : List ℚ) (avg a : ℚ) :
    l.foldl (fun sum val => sum + (val - avg) ^ 2) a
      = a + (l.map (fun x => (x - avg) ^ 2)).sum := by
  induction l generalizing a with
  | nil => simp
  | cons x xs ih => rw [List.foldl_cons, ih, List.map_cons, List.sum_cons]; ring

theorem mean_eq (l : List ℚ) (h : l ≠ []) : mean l = some (l.sum / (l.length : ℚ)) := by
  have hlen : l.length ≠ 0 := by simpa using h
  simp [mean, hlen, foldl_add_eq_sum]

/-- On a non-empty list `stdev` is the square root of the population variance. -/
theorem stdev_eq (l : List ℚ) (h : l ≠ []) : stdev l = some ⟨popVariance l⟩ := by
  unfold stdev
  rw [mean_eq l h]
  simp [popVariance, foldl_sq_eq_sum]

theorem stdev_nil : stdev [] = none := by
  simp [stdev, mean]

theorem popVariance_nonneg (l : List ℚ) : 0 ≤ popVariance l := by
  unfold popVariance
  apply div_nonneg
  · apply List.sum_nonneg
    intro x hx
    obtain ⟨y, _, rfl⟩ := List.mem_map.1 hx
    positivity
  · positivity

theorem popVariance_perm {l l' : List ℚ} (h : l.Perm l') : popVariance l = popVariance l' := by
  unfold popVariance
  rw [h.sum_eq, h.length_eq, (h.map _).sum_eq]

theorem mean_perm {l l' : List ℚ} (h : l.Perm l') : mean l = mean l' := by
  by_cases hl : l = []
  · subst hl
    rw [List.nil_perm.1 h]
  · have hl' : l' ≠ [] := fun e => hl (by subst e; exact List.perm_nil.1 h)
    rw [mean_eq l hl, mean_eq l' hl', h.sum_eq, h.length_eq]

theorem stdev_perm {l l' : List ℚ} (h : l.Perm l') : stdev l = stdev l' := by
  by_cases hl : l = []
  · subst hl
    rw [List.nil_perm.1 h]
  · have hl' : l' ≠ [] := fun e => hl (by subst e; exact List.perm_nil.1 h)
    rw [stdev_eq l hl, stdev_eq l' hl', popVariance_perm h]

/-- The comparison `Root.gt` is the comparison of the real square root with
the threshold. -/
theorem Root.gt_iff (r : Root) (t : ℚ) :
    r.gt t = true ↔ (t : ℝ) < Real.sqrt (r.radicand : ℝ) := by
  unfold Root.gt
  rw [Bool.or_eq_true, decide_eq_true_iff, decide_eq_true_iff]
  by_cases ht : t < 0
  · have h0 : (t : ℝ) < 0 := by exact_mod_cast ht
    constructor
    · intro _
      exact lt_of_lt_of_le h0 (Real.sqrt_nonneg _)
    · intro _
      exact Or.inl ht
  · have h0 : (0 : ℝ) ≤ (t : ℝ) := by exact_mod_cast not_lt.1 ht
    rw [Real.lt_sqrt h0]
    constructor
    · rintro (h | h)
      · exact absurd h ht
      · have : ((t * t : ℚ) : ℝ) < (r.radicand : ℝ) := by exact_mod_cast h
        rw [sq]
        push_cast at this
        exact this
    · intro h
      right
      rw [sq] at h
      exact_mod_cast h

theorem Root.not_gt_iff (r : Root) (t : ℚ) :
    r.gt t = false ↔ Real.sqrt (r.radicand : ℝ) ≤ (t : ℝ) := by
  rw [← not_lt, ← Root.gt_iff]
  simp

/-! ### Claims on `okDraft` -/

/-- C1. If `okDraft` returns true then, for each of the rarities mythic, rare,
uncommon and common whose configured maximum is nonzero, every card ID that
occurs in the draft with that rarity has at most that maximum of copies of
that rarity in the draft. -/
theorem okDraft_accepted_within_max (s : Settings) (packs : Draft)
    (h : okDraft s packs = true) :
    (s.MaxMythic ≠ 0 → ∀ id, (∃ c ∈ packs.flatten, c.ID = id ∧ c.Rarity = "mythic") →
        (copiesOfRarity id "mythic" packs.flatten : Int) ≤ s.MaxMythic)
    ∧ (s.MaxRare ≠ 0 → ∀ id, (∃ c ∈ packs.flatten, c.ID = id ∧ c.Rarity = "rare") →
        (copiesOfRarity id "rare" packs.flatten : Int) ≤ s.MaxRare)
    ∧ (s.MaxUncommon ≠ 0 → ∀ id, (∃ c ∈ packs.flatten, c.ID = id ∧ c.Rarity = "uncommon") →
        (copiesOfRarity id "uncommon" packs.flatten : Int) ≤ s.MaxUncommon)
    ∧ (s.MaxCommon ≠ 0 → ∀ id, (∃ c ∈ packs.flatten, c.ID = id ∧ c.Rarity = "common") →
        (copiesOfRarity id "common" packs.flatten : Int) ≤ s.MaxCommon) := by
  refine ⟨fun hm id hocc => ?_, fun hm id hocc => ?_, fun hm id hocc => ?_,
    fun hm id hocc => ?_⟩
  · exact okDraft_bound s packs h id "mythic" (by simpa [configuredMax] using hm) hocc
  · exact okDraft_bound s packs h id "rare" (by simpa [configuredMax] using hm) hocc
  · exact okDraft_bound s packs h id "uncommon" (by simpa [configuredMax] using hm) hocc
  · exact okDraft_bound s packs h id "common" (by simpa [configuredMax] using hm) hocc

/-- C1 at a 24x15 draft with six copies of the common `C1` under the default
settings: the draft is accepted and the bounds hold. -/
theorem okDraft_accepted_within_max_witness :
    okDraft defaultSettings (draftWithC1 6) = true
    ∧ (copiesOfRarity "C1" "common" (draftWithC1 6).flatten : Int) ≤ defaultSettings.MaxCommon :=
  ⟨by decide!,
    (okDraft_accepted_within_max defaultSettings (draftWithC1 6) (by decide!)).2.2.2
      (by decide) "C1" ⟨commonC1, by decide!, rfl, rfl⟩⟩

/-- C2. With a positive maximum `M` configured for a rarity among mythic,
rare, uncommon and common, a draft in which some ID has more than `M` cards
of that rarity (foil and Dfc copies counted) is rejected by `okDraft`. -/
theorem okDraft_rejects_excess (s : Settings) (packs : Draft) (id rarity : String) (M : Int)
    (hM : 0 < M)
    (hr : (rarity = "mythic" ∧ s.MaxMythic = M) ∨ (rarity = "rare" ∧ s.MaxRare = M)
      ∨ (rarity = "uncommon" ∧ s.MaxUncommon = M) ∨ (rarity = "common" ∧ s.MaxCommon = M))
    (hmore : M < (copiesOfRarity id rarity packs.flatten : Int)) :
    okDraft s packs = false := by
  have hcfg : configuredMax s rarity = M := by
    rcases hr with ⟨rfl, h⟩ | ⟨rfl, h⟩ | ⟨rfl, h⟩ | ⟨rfl, h⟩ <;> simpa [configuredMax] using h
  have hocc : ∃ c ∈ packs.flatten, c.ID = id ∧ c.Rarity = rarity := by
    by_contra hno
    rw [copiesOfRarity_eq_zero id rarity _ hno] at hmore
    simp only [Nat.cast_zero] at hmore
    omega
  cases hok : okDraft s packs with
  | false => rfl
  | true =>
    have := okDraft_bound s packs hok id rarity (by rw [hcfg]; omega) hocc
    rw [hcfg] at this
    omega

/-- C2 at the example of the specification: `MaxCommon = 6` and a 24x15 draft
in which the common `C1` occurs 7 times. -/
theorem okDraft_rejects_excess_witness :
    (draftWithC1 7).length = 24 ∧ (∀ pack ∈ draftWithC1 7, pack.length = 15)
    ∧ copiesOfRarity "C1" "common" (draftWithC1 7).flatten = 7
    ∧ okDraft defaultSettings (draftWithC1 7) = false :=
  ⟨by decide, by decide, by decide!,
    okDraft_rejects_excess defaultSettings (draftWithC1 7) "C1" "common" 6 (by decide)
      (Or.inr (Or.inr (Or.inr ⟨rfl, rfl⟩))) (by decide!)⟩

/-- C6. When `DraftCommonColorStdevMax` and `DraftCommonColorIdentityStdevMax`
are both 0, the verdict of `okDraft` is the verdict of the per-rarity
maximum-copy checks alone, and two drafts that differ only in the `Color` and
`ColorIdentity` of their cards get the same verdict. -/
theorem okDraft_ignores_colors (s : Settings) (packs : Draft)
    (hc : s.DraftCommonColorStdevMax = 0) (hi : s.DraftCommonColorIdentityStdevMax = 0) :
    okDraft s packs = maxCopyChecks s [] packs.flatten
    ∧ ∀ packs' : Draft, packs'.map (List.map eraseColors) = packs.map (List.map eraseColors) →
        okDraft s packs' = okDraft s packs := by
  refine ⟨okDraft_of_zero_stdev_max s packs hc hi, fun packs' heq => ?_⟩
  rw [okDraft_of_zero_stdev_max s packs hc hi, okDraft_of_zero_stdev_max s packs' hc hi]
  have h1 := maxCopyChecks_eraseColors s packs.flatten []
  have h2 := maxCopyChecks_eraseColors s packs'.flatten []
  rw [List.map_flatten] at h1 h2
  rw [← h1, ← h2, heq]

/-- C6 at the default settings (both caps are 0) and a 24x15 draft. -/
theorem okDraft_ignores_colors_witness :
    defaultSettings.DraftCommonColorStdevMax = 0
    ∧ defaultSettings.DraftCommonColorIdentityStdevMax = 0
    ∧ okDraft defaultSettings (draftWithC1 7) = maxCopyChecks defaultSettings [] (draftWithC1 7).flatten
    ∧ okDraft defaultSettings ((draftWithC1 7).map (List.map eraseColors))
        = okDraft defaultSettings (draftWithC1 7) :=
  ⟨rfl, rfl, (okDraft_ignores_colors defaultSettings (draftWithC1 7) rfl rfl).1,
    (okDraft_ignores_colors defaultSettings (draftWithC1 7) rfl rfl).2 _ (by decide!)⟩

/-! ### Claims on `okPack` -/

theorem okPackLoop_colors_length (s : Settings) (pack : Pack) :
    (okPackLoop s pack).colorHash.values.length = (colorSymbols s pack).dedup.length := by
  rw [(okPackLoop_colors_perm s pack).length_eq]
  simp [perSymbolCounts]

theorem okPackLoop_colorIdentities_length (s : Settings) (pack : Pack) :
    (okPackLoop s pack).colorIdentityHash.values.length
      = (colorIdentitySymbols s pack).dedup.length := by
  rw [(okPackLoop_colorIdentities_perm s pack).length_eq]
  simp [perSymbolCounts]

theorem eligible_append (s : Settings) (l₁ l₂ : List Card) :
    eligible s (l₁ ++ l₂) = eligible s l₁ ++ eligible s l₂ := by
  simp [eligible]

theorem okPackLoop_passes_false_of_duplicate (s : Settings) (pre mid post : List Card)
    (c₁ c₂ : Card) (h₁ : excluded s c₁ = false) (h₂ : excluded s c₂ = false)
    (hid : c₁.ID = c₂.ID) :
    (okPackLoop s (pre ++ c₁ :: (mid ++ c₂ :: post))).passes = false := by
  cases hp : (okPackLoop s (pre ++ c₁ :: (mid ++ c₂ :: post))).passes with
  | false => rfl
  | true =>
    exfalso
    have hnd := okPackLoop_passes_true s _ hp
    rw [eligible_append, eligible_cons, eligible_append, eligible_cons] at hnd
    simp only [h₁, h₂, Bool.false_eq_true, if_false, List.map_append, List.map_cons] at hnd
    rw [List.nodup_append] at hnd
    have hc := (List.nodup_cons.1 hnd.2.1).1
    apply hc
    rw [hid]
    simp

theorem okPackCaps_true_iff (s : Settings) (colorStdev colorIdentityStdev : Option Root)
    (ratingMean : Option ℚ) :
    okPackCaps s true colorStdev colorIdentityStdev ratingMean = true
      ↔ ¬ (s.PackCommonColorStdevMax ≠ 0 ∧ stdevGt colorStdev s.PackCommonColorStdevMax = true)
        ∧ ¬ (s.PackCommonColorIdentityStdevMax ≠ 0
              ∧ stdevGt colorIdentityStdev s.PackCommonColorIdentityStdevMax = true)
        ∧ ¬ (s.PackCommonRatingMax ≠ 0 ∧ floatGt ratingMean s.PackCommonRatingMax = true)
        ∧ ¬ (s.PackCommonRatingMin ≠ 0 ∧ floatLt ratingMean s.PackCommonRatingMin = true) := by
  unfold okPackCaps
  simp only []
  split_ifs <;> simp_all

/-- The end of `okPack` returns true exactly when `passes` was true after the
loop, no zero-padding block was entered and no threshold is exceeded. -/
theorem okPackVerdict_eq_some_true_iff (s : Settings) (passes : Bool)
    (colors colorIdentities ratings : List ℚ) :
    okPackVerdict s passes colors colorIdentities ratings = some true
      ↔ passes = true
        ∧ (s.AbortMissingCommonColor = true → colors.length = 5)
        ∧ (s.AbortMissingCommonColorIdentity = true → colorIdentities.length = 5)
        ∧ okPackCaps s true (stdev colors) (stdev colorIdentities) (mean ratings) = true := by
  unfold okPackVerdict
  rw [abortMissing_eq]
  by_cases h1 : s.AbortMissingCommonColor = true ∧ colors.length ≠ 5
  · rw [if_pos h1]
    have hno : ¬ (s.AbortMissingCommonColor = true → colors.length = 5) := fun h => h1.2 (h h1.1)
    split_ifs
    · simp only [abortMissing_eq]
      split_ifs <;> simp [okPackCaps_false, hno]
    · simp [hno]
  · rw [if_neg h1]
    have hyes : s.AbortMissingCommonColor = true → colors.length = 5 := by
      intro hf
      by_contra hne
      exact h1 ⟨hf, hne⟩
    simp only [abortMissing_eq]
    by_cases h2 : s.AbortMissingCommonColorIdentity = true ∧ colorIdentities.length ≠ 5
    · rw [if_pos h2]
      have hno : ¬ (s.AbortMissingCommonColorIdentity = true → colorIdentities.length = 5) :=
        fun h => h2.2 (h h2.1)
      split_ifs <;> simp [okPackCaps_false, hno]
    · rw [if_neg h2]
      have hyes2 : s.AbortMissingCommonColorIdentity = true → colorIdentities.length = 5 := by
        intro hf
        by_contra hne
        exact h2 ⟨hf, hne⟩
      cases passes with
      | false => simp [okPackCaps_false]
      | true =>
        simp only [Option.some.injEq, true_and]
        exact ⟨fun h => ⟨hyes, hyes2, h⟩, fun h => h.2.2⟩

theorem stdevGt_mono (x : Option Root) {t t' : ℚ} (htt : t ≤ t') (h : stdevGt x t' = true) :
    stdevGt x t = true := by
  cases x with
  | none => simp [stdevGt] at h
  | some r =>
    simp only [stdevGt] at h ⊢
    rw [Root.gt_iff] at h ⊢
    have : (t : ℝ) ≤ (t' : ℝ) := by exact_mod_cast htt
    exact lt_of_le_of_lt this h

theorem one_le_of_mem_perSymbolCounts (syms : List Char) (x : ℚ)
    (hx : x ∈ perSymbolCounts syms) : 1 ≤ x := by
  unfold perSymbolCounts at hx
  obtain ⟨y, hy, rfl⟩ := List.mem_map.1 hx
  have hpos : 0 < syms.count y := List.count_pos_iff.2 (List.mem_dedup.1 hy)
  exact_mod_cast hpos

theorem okPackColorStdev_eq (s : Settings) (pack : Pack) :
    okPackColorStdev s pack
      = if s.AbortMissingCommonColor = true
            ∧ (perSymbolCounts (colorSymbols s pack)).length ≠ 5 then
          if (perSymbolCounts (colorSymbols s pack)).length < 5 then
            some (stdev (perSymbolCounts (colorSymbols s pack)
              ++ List.replicate (5 - (perSymbolCounts (colorSymbols s pack)).length) 0))
          else none
        else some (stdev (perSymbolCounts (colorSymbols s pack))) := by
  have hperm := okPackLoop_colors_perm s pack
  unfold okPackColorStdev
  simp only [abortMissing_eq, hperm.length_eq]
  split_ifs
  · simp only [Option.some.injEq]
    exact stdev_perm (hperm.append_right _)
  · rfl
  · simp only [Option.some.injEq]
    exact stdev_perm hperm

theorem okPackColorIdentityStdev_eq (s : Settings) (pack : Pack) :
    okPackColorIdentityStdev s pack
      = if s.AbortMissingCommonColorIdentity = true
            ∧ (perSymbolCounts (colorIdentitySymbols s pack)).length ≠ 5 then
          if (perSymbolCounts (colorIdentitySymbols s pack)).length < 5 then
            some (stdev (perSymbolCounts (colorIdentitySymbols s pack)
              ++ List.replicate (5 - (perSymbolCounts (colorIdentitySymbols s pack)).length) 0))
          else none
        else some (stdev (perSymbolCounts (colorIdentitySymbols s pack))) := by
  have hperm := okPackLoop_colorIdentities_perm s pack
  unfold okPackColorIdentityStdev
  simp only [abortMissing_eq, hperm.length_eq]
  split_ifs
  · simp only [Option.some.injEq]
    exact stdev_perm (hperm.append_right _)
  · rfl
  · simp only [Option.some.injEq]
    exact stdev_perm hperm


/-- When two cards of the pack that are neither foil nor (in `DfcMode`) Dfc
have the same ID, `okPack` does not return true, whatever the settings; and
it returns false when, for each `AbortMissing` flag that is on, the eligible
commons carry at most five distinct symbols in the tallied field. -/
theorem okPack_duplicate_not_accepted (s : Settings) (pre mid post : List Card) (c₁ c₂ : Card)
    (h₁ : excluded s c₁ = false) (h₂ : excluded s c₂ = false) (hid : c₁.ID = c₂.ID) :
    okPack s (pre ++ c₁ :: (mid ++ c₂ :: post)) ≠ some true
    ∧ ((s.AbortMissingCommonColor = true →
          (colorSymbols s (pre ++ c₁ :: (mid ++ c₂ :: post))).dedup.length ≤ 5) →
       (s.AbortMissingCommonColorIdentity = true →
          (colorIdentitySymbols s (pre ++ c₁ :: (mid ++ c₂ :: post))).dedup.length ≤ 5) →
       okPack s (pre ++ c₁ :: (mid ++ c₂ :: post)) = some false) := by
  have hp := okPackLoop_passes_false_of_duplicate s pre mid post c₁ c₂ h₁ h₂ hid
  unfold okPack
  simp only [hp]
  refine ⟨okPackVerdict_of_passes_false s _ _ _, fun hc hi => ?_⟩
  apply okPackVerdict_false_of_le
  · intro hflag
    rw [okPackLoop_colors_length]
    exact hc hflag
  · intro hflag
    rw [okPackLoop_colorIdentities_length]
    exact hi hflag

/-- C7. With every optional pack rule disabled, `okPack` returns true for
every pack in which no ID is repeated among the cards that are neither foil
nor (in `DfcMode`) Dfc; the foil cards, and in `DfcMode` the Dfc cards, are
not looked at. -/
theorem okPack_accepts_without_rules (s : Settings) (pack : Pack)
    (hcs : s.PackCommonColorStdevMax = 0) (hcis : s.PackCommonColorIdentityStdevMax = 0)
    (hmin : s.PackCommonRatingMin = 0) (hmax : s.PackCommonRatingMax = 0)
    (hac : s.AbortMissingCommonColor = false) (haci : s.AbortMissingCommonColorIdentity = false)
    (hau : s.AbortDuplicateThreeColorIdentityUncommons = false)
    (hnd : ((eligible s pack).map Card.ID).Nodup) :
    okPack s pack = some true := by
  unfold okPack
  simp only []
  rw [okPackVerdict_of_flags_off s _ _ _ _ hac haci, okPackLoop_passes_of_nodup s hau pack hnd]
  simp [okPackCaps, hcs, hcis, hmin, hmax]

/-- C7 at a pack of 15 cards whose last card is a foil copy of its first
card: with every rule disabled the pack is accepted. -/
theorem okPack_accepts_without_rules_witness :
    packThreeColors.length = 15
    ∧ (∃ c ∈ packThreeColors, c.Foil = true ∧ c.ID = "C1")
    ∧ (∃ c ∈ packThreeColors, c.Foil = false ∧ c.ID = "C1")
    ∧ okPack noRules packThreeColors = some true :=
  ⟨rfl, ⟨_, List.mem_of_mem_getLast? (by rfl), rfl, rfl⟩, ⟨_, List.mem_cons_self _ _, rfl, rfl⟩,
    okPack_accepts_without_rules noRules packThreeColors rfl rfl rfl rfl rfl rfl rfl
      (by decide)⟩


theorem perSymbolCounts_ne_nil (syms : List Char) (h : syms ≠ []) : perSymbolCounts syms ≠ [] := by
  obtain ⟨x, hx⟩ := List.exists_mem_of_ne_nil syms h
  have hx' : x ∈ syms.dedup := List.mem_dedup.2 hx
  intro hnil
  unfold perSymbolCounts at hnil
  rw [List.map_eq_nil_iff] at hnil
  rw [hnil] at hx'
  simp at hx'

/-- When only the colour cap can be on, `okPack` accepts a pack without
repeated eligible ID exactly when the standard deviation of the per-colour
counts of the occurring colours does not exceed a nonzero cap. -/
theorem okPack_of_only_color_cap (s : Settings) (pack : Pack)
    (hcis : s.PackCommonColorIdentityStdevMax = 0)
    (hmin : s.PackCommonRatingMin = 0) (hmax : s.PackCommonRatingMax = 0)
    (hac : s.AbortMissingCommonColor = false) (haci : s.AbortMissingCommonColorIdentity = false)
    (hau : s.AbortDuplicateThreeColorIdentityUncommons = false)
    (hnd : ((eligible s pack).map Card.ID).Nodup) :
    okPack s pack = some true
      ↔ ¬ (s.PackCommonColorStdevMax ≠ 0
            ∧ stdevGt (stdev (perSymbolCounts (colorSymbols s pack)))
                s.PackCommonColorStdevMax = true) := by
  unfold okPack
  simp only []
  rw [okPackVerdict_eq_some_true_iff, okPackCaps_true_iff,
    stdev_perm (okPackLoop_colors_perm s pack)]
  simp [hcis, hmin, hmax, hac, haci, okPackLoop_passes_of_nodup s hau pack hnd]

theorem okPack_of_only_colorIdentity_cap (s : Settings) (pack : Pack)
    (hcs : s.PackCommonColorStdevMax = 0)
    (hmin : s.PackCommonRatingMin = 0) (hmax : s.PackCommonRatingMax = 0)
    (hac : s.AbortMissingCommonColor = false) (haci : s.AbortMissingCommonColorIdentity = false)
    (hau : s.AbortDuplicateThreeColorIdentityUncommons = false)
    (hnd : ((eligible s pack).map Card.ID).Nodup) :
    okPack s pack = some true
      ↔ ¬ (s.PackCommonColorIdentityStdevMax ≠ 0
            ∧ stdevGt (stdev (perSymbolCounts (colorIdentitySymbols s pack)))
                s.PackCommonColorIdentityStdevMax = true) := by
  unfold okPack
  simp only []
  rw [okPackVerdict_eq_some_true_iff, okPackCaps_true_iff,
    stdev_perm (okPackLoop_colorIdentities_perm s pack)]
  simp [hcs, hmin, hmax, hac, haci, okPackLoop_passes_of_nodup s hau pack hnd]

theorem mem_colorSymbols (s : Settings) (pack : Pack) (x : Char) :
    x ∈ colorSymbols s pack
      ↔ ∃ c ∈ pack, excluded s c = false ∧ c.Rarity = "common" ∧ x ∈ c.Color.data := by
  simp only [colorSymbols, eligibleCommons, eligible, List.mem_flatMap, List.mem_filter,
    Bool.not_eq_true', decide_eq_true_eq]
  constructor
  · rintro ⟨c, ⟨⟨hc, hex⟩, hr⟩, hx⟩
    exact ⟨c, hc, hex, hr, hx⟩
  · rintro ⟨c, hc, hex, hr, hx⟩
    exact ⟨c, ⟨⟨hc, hex⟩, hr⟩, hx⟩

theorem mem_colorIdentitySymbols (s : Settings) (pack : Pack) (x : Char) :
    x ∈ colorIdentitySymbols s pack
      ↔ ∃ c ∈ pack, excluded s c = false ∧ c.Rarity = "common" ∧ x ∈ c.ColorIdentity.data := by
  simp only [colorIdentitySymbols, eligibleCommons, eligible, List.mem_flatMap, List.mem_filter,
    Bool.not_eq_true', decide_eq_true_eq]
  constructor
  · rintro ⟨c, ⟨⟨hc, hex⟩, hr⟩, hx⟩
    exact ⟨c, hc, hex, hr, hx⟩
  · rintro ⟨c, hc, hex, hr, hx⟩
    exact ⟨c, ⟨⟨hc, hex⟩, hr⟩, hx⟩

/-- Five distinct symbols drawn from a list of five symbols are all of them. -/
theorem subset_of_five_distinct (syms alphabet : List Char) (hA : alphabet.length = 5)
    (hsub : ∀ x ∈ syms, x ∈ alphabet) (hlen : syms.dedup.length = 5) :
    ∀ x ∈ alphabet, x ∈ syms := by
  have hsp : syms.dedup.Subperm alphabet :=
    List.subperm_of_subset (List.nodup_dedup syms)
      (fun x hx => hsub x (List.mem_dedup.1 hx))
  have hperm := hsp.perm_of_length_le (by omega)
  intro x hx
  exact List.mem_dedup.1 (hperm.mem_iff.2 hx)

/-- C10. When every common's `Color` is drawn from a five-symbol alphabet and
`AbortMissingCommonColor` is on, every pack that `okPack` accepts has each of
the five symbols in the `Color` of some eligible common; likewise for
`ColorIdentity` with `AbortMissingCommonColorIdentity`. -/
theorem okPack_all_colors_present (s : Settings) (pack : Pack) (alphabet : List Char)
    (hA : alphabet.length = 5) (hok : okPack s pack = some true) :
    (s.AbortMissingCommonColor = true →
      (∀ c ∈ pack, c.Rarity = "common" → ∀ x ∈ c.Color.data, x ∈ alphabet) →
      ∀ x ∈ alphabet, ∃ c ∈ pack, excluded s c = false ∧ c.Rarity = "common"
        ∧ x ∈ c.Color.data)
    ∧ (s.AbortMissingCommonColorIdentity = true →
      (∀ c ∈ pack, c.Rarity = "common" → ∀ x ∈ c.ColorIdentity.data, x ∈ alphabet) →
      ∀ x ∈ alphabet, ∃ c ∈ pack, excluded s c = false ∧ c.Rarity = "common"
        ∧ x ∈ c.ColorIdentity.data) := by
  unfold okPack at hok
  simp only [] at hok
  rw [okPackVerdict_eq_some_true_iff] at hok
  obtain ⟨_, hc, hi, _⟩ := hok
  constructor
  · intro hflag halpha x hx
    have hlen := hc hflag
    rw [okPackLoop_colors_length] at hlen
    have hsub : ∀ y ∈ colorSymbols s pack, y ∈ alphabet := by
      intro y hy
      obtain ⟨c, hcp, _, hr, hyc⟩ := (mem_colorSymbols s pack y).1 hy
      exact halpha c hcp hr y hyc
    exact (mem_colorSymbols s pack x).1
      (subset_of_five_distinct _ alphabet hA hsub hlen x hx)
  · intro hflag halpha x hx
    have hlen := hi hflag
    rw [okPackLoop_colorIdentities_length] at hlen
    have hsub : ∀ y ∈ colorIdentitySymbols s pack, y ∈ alphabet := by
      intro y hy
      obtain ⟨c, hcp, _, hr, hyc⟩ := (mem_colorIdentitySymbols s pack y).1 hy
      exact halpha c hcp hr y hyc
    exact (mem_colorIdentitySymbols s pack x).1
      (subset_of_five_distinct _ alphabet hA hsub hlen x hx)

/-- C10 at the 15-card pack `packFiveColors` with both `AbortMissing` flags
on and the alphabet W, U, B, R, G: the pack is accepted and each of the five
symbols is the colour of an eligible common. -/
theorem okPack_all_colors_present_witness :
    okPack bothAbortMissing packFiveColors = some true
    ∧ ∀ x ∈ ['W', 'U', 'B', 'R', 'G'], ∃ c ∈ packFiveColors,
        excluded bothAbortMissing c = false ∧ c.Rarity = "common" ∧ x ∈ c.Color.data :=
  ⟨by decide!,
    (okPack_all_colors_present bothAbortMissing packFiveColors ['W', 'U', 'B', 'R', 'G']
      rfl (by decide!)).1 rfl (by decide)⟩

/-! ### The generation loop -/

theorem drawCards_length_le {σ : Type} (h : Hoppers σ) (n j : Nat) (w : σ) :
    (drawCards h n j w).1.length ≤ n := by
  induction n generalizing j w with
  | zero => simp [drawCards]
  | succ n ih =>
    rw [drawCards]
    rcases hp : h.pop j w with ⟨⟨card, empty⟩, w'⟩
    cases empty with
    | true => simp
    | false =>
      have := ih (j + 1) w'
      simp only [Bool.false_eq_true, if_false, List.length_cons]
      omega

theorem drawCards_length_of_not_exhausted {σ : Type} (h : Hoppers σ) (n j : Nat) (w : σ)
    (hex : (drawCards h n j w).2.2 = false) : (drawCards h n j w).1.length = n := by
  induction n generalizing j w with
  | zero => simp [drawCards]
  | succ n ih =>
    rw [drawCards] at hex ⊢
    rcases hp : h.pop j w with ⟨⟨card, empty⟩, w'⟩
    rw [hp] at hex
    cases empty with
    | true => simp at hex
    | false =>
      simp only [Bool.false_eq_true, if_false] at hex ⊢
      have := ih (j + 1) w' hex
      simp only [List.length_cons]
      omega

theorem writeRow_length {α : Type} (row new : List α) (h : new.length ≤ row.length) :
    (writeRow row new).length = row.length := by
  simp only [writeRow, List.length_append, List.length_drop]
  omega

theorem writeRow_full {α : Type} (row new : List α) (h : new.length = row.length) :
    writeRow row new = new := by
  simp [writeRow, h]

theorem getD_set_self {α : Type} (l : List α) (i : Nat) (x d : α) (h : i < l.length) :
    (l.set i x).getD i d = x := by
  simp [List.getD_eq_getElem?_getD, List.getElem?_set, h]

theorem getD_set_of_ne {α : Type} (l : List α) (i k : Nat) (x d : α) (h : i ≠ k) :
    (l.set i x).getD k d = l.getD k d := by
  simp [List.getD_eq_getElem?_getD, List.getElem?_set, h]

theorem getD_mem {α : Type} (l : List α) (i : Nat) (d : α) (h : i < l.length) :
    l.getD i d ∈ l := by
  rw [List.getD_eq_getElem?_getD, List.getElem?_eq_getElem h]
  exact List.getElem_mem h

theorem genInv_init {σ : Type} (s : Settings) (w : σ) : GenInv s (genInit w) := by
  refine ⟨by simp [genInit], by simp [genInit], ?_, ?_, ?_, ?_⟩
  · intro row hrow
    simp only [genInit, List.mem_replicate] at hrow
    rw [hrow.2, List.length_replicate]
  · intro row hrow
    simp only [genInit, List.mem_replicate] at hrow
    rw [hrow.2, List.length_replicate]
  · intro i hi
    simp [genInit] at hi
  · intro hd
    simp [genInit] at hd

/-- A step of the generation loop keeps its invariant. -/
theorem genInv_step {σ : Type} (h : Hoppers σ) (s : Settings) (st st' : GenState σ)
    (hinv : GenInv s st) (hstep : genStep h s st = some st') : GenInv s st' := by
  obtain ⟨hp, hd, hprow, hdrow, hdraw, hdone⟩ := hinv
  unfold genStep genStepWith at hstep
  cases hloc : st.loc with
  | done =>
    rw [hloc] at hstep
    simp only [Option.some.injEq] at hstep
    subst hstep
    exact ⟨hp, hd, hprow, hdrow, hdraw, hdone⟩
  | reset =>
    rw [hloc] at hstep
    simp only [Option.some.injEq] at hstep
    subst hstep
    refine ⟨hp, hd, hprow, hdrow, ?_, ?_⟩
    · intro i hi
      simp only [Loc.draw.injEq] at hi
      subst hi
      exact ⟨by omega, by simp, fun k hk => absurd hk (by omega)⟩
    · intro hdn
      simp at hdn
  | draw i =>
    obtain ⟨hi24, hpos, hval⟩ := hdraw i hloc
    rw [hloc] at hstep
    simp only [] at hstep
    by_cases hlt : i < 24
    · rw [if_pos hlt] at hstep
      have hlen := drawCards_length_le h 15 0 st.hoppers
      have hfull := drawCards_length_of_not_exhausted h 15 0 st.hoppers
      rcases hdc : drawCards h 15 0 st.hoppers with ⟨cards, w, resetDraft⟩
      rw [hdc] at hstep hlen hfull
      simp only [] at hstep hlen hfull
      have hrowlen : (st.packs.getD i []).length = 15 :=
        hprow _ (getD_mem _ _ _ (by omega))
      have hstamplen : (st.drawnIn.getD i []).length = 15 :=
        hdrow _ (getD_mem _ _ _ (by omega))
      have hprow' : ∀ row ∈ st.packs.set i (writeRow (st.packs.getD i []) cards),
          row.length = 15 := by
        intro row hrow
        rcases List.mem_or_eq_of_mem_set hrow with hm | rfl
        · exact hprow row hm
        · rw [writeRow_length _ _ (by omega), hrowlen]
      have hdrow' : ∀ row ∈ st.drawnIn.set i (writeRow (st.drawnIn.getD i [])
          (List.replicate cards.length st.draftAttempts)), row.length = 15 := by
        intro row hrow
        rcases List.mem_or_eq_of_mem_set hrow with hm | rfl
        · exact hdrow row hm
        · rw [writeRow_length _ _ (by rw [List.length_replicate, hstamplen]; exact hlen),
            hstamplen]
      have hkeep : ∀ k < i,
          okPack s ((st.packs.set i (writeRow (st.packs.getD i []) cards)).getD k [])
            = some true
          ∧ (st.drawnIn.set i (writeRow (st.drawnIn.getD i [])
              (List.replicate cards.length st.draftAttempts))).getD k []
            = List.replicate 15 st.draftAttempts := by
        intro k hk
        rw [getD_set_of_ne _ _ _ _ _ (by omega), getD_set_of_ne _ _ _ _ _ (by omega)]
        exact hval k hk
      cases resetDraft with
      | true =>
        simp only [if_true, Option.some.injEq] at hstep
        subst hstep
        refine ⟨by simp [hp], by simp [hd], hprow', hdrow', ?_, ?_⟩
        · intro j hj
          simp at hj
        · intro hdn
          simp at hdn
      | false =>
        have hc15 : cards.length = 15 := hfull rfl
        simp only [Bool.false_eq_true, if_false] at hstep
        rw [getD_set_self _ _ _ _ (by omega)] at hstep
        cases hok : okPack s (writeRow (st.packs.getD i []) cards) with
        | none => rw [hok] at hstep; simp at hstep
        | some b =>
          rw [hok] at hstep
          cases b with
          | true =>
            simp only [Option.some.injEq] at hstep
            subst hstep
            refine ⟨by simp [hp], by simp [hd], hprow', hdrow', ?_, ?_⟩
            · intro j hj
              simp only [Loc.draw.injEq] at hj
              subst hj
              refine ⟨by omega, hpos, fun k hk => ?_⟩
              by_cases hki : k = i
              · subst hki
                simp only []
                rw [getD_set_self _ _ _ _ (by omega), getD_set_self _ _ _ _ (by omega), hok,
                  writeRow_full _ _ (by rw [List.length_replicate, hc15, hstamplen]), hc15]
                exact ⟨rfl, rfl⟩
              · exact hkeep k (by omega)
            · intro hdn
              simp at hdn
          | false =>
            simp only [Option.some.injEq] at hstep
            subst hstep
            refine ⟨by simp [hp], by simp [hd], hprow', hdrow', ?_, ?_⟩
            · intro j hj
              simp only [Loc.draw.injEq] at hj
              subst hj
              exact ⟨hi24, hpos, hkeep⟩
            · intro hdn
              simp at hdn
    · rw [if_neg hlt] at hstep
      have hi : i = 24 := by omega
      subst hi
      by_cases hok : okDraft s st.packs = true
      · rw [if_pos hok] at hstep
        simp only [Option.some.injEq] at hstep
        subst hstep
        refine ⟨hp, hd, hprow, hdrow, ?_, ?_⟩
        · intro j hj
          simp at hj
        · intro _
          exact ⟨⟨hpos, hval⟩, hok⟩
      · rw [if_neg hok] at hstep
        simp only [Option.some.injEq] at hstep
        subst hstep
        refine ⟨hp, hd, hprow, hdrow, ?_, ?_⟩
        · intro j hj
          simp at hj
        · intro hdn
          simp at hdn

theorem genInv_run {σ : Type} (h : Hoppers σ) (s : Settings) (n : Nat) (st st' : GenState σ)
    (hinv : GenInv s st) (hrun : genRun h s n st = some st') : GenInv s st' := by
  induction n generalizing st with
  | zero =>
    simp only [genRun, Option.some.injEq] at hrun
    subst hrun
    exact hinv
  | succ n ih =>
    rw [genRun] at hrun
    cases hstep : genStep h s st with
    | none => rw [hstep] at hrun; simp at hrun
    | some st₁ =>
      rw [hstep] at hrun
      exact ih st₁ (genInv_step h s st st₁ hinv hstep) hrun


/-- C4. When the generation loop has ended, the draft left in `packs` is
validated: there are 24 packs of 15 cards, `okPack` returned true on each,
every slot of every pack was assigned in the last attempt (the one numbered
by the final `draftAttempts`, begun by the last `resetHoppers`), and `okDraft`
returned true on the 24 packs together. -/
theorem genLoop_result_validated {σ : Type} (h : Hoppers σ) (s : Settings) (w : σ) (n : Nat)
    (st : GenState σ) (hrun : genRun h s n (genInit w) = some st) (hdone : st.loc = Loc.done) :
    st.packs.length = 24
    ∧ (∀ pack ∈ st.packs, pack.length = 15 ∧ okPack s pack = some true)
    ∧ 1 ≤ st.draftAttempts
    ∧ st.drawnIn = List.replicate 24 (List.replicate 15 st.draftAttempts)
    ∧ okDraft s st.packs = true := by
  obtain ⟨hp, hd, hprow, _, _, hfin⟩ := genInv_run h s n _ st (genInv_init s w) hrun
  obtain ⟨⟨hpos, hval⟩, hok⟩ := hfin hdone
  refine ⟨hp, ?_, hpos, ?_, hok⟩
  · intro pack hpack
    refine ⟨hprow pack hpack, ?_⟩
    obtain ⟨k, hk, rfl⟩ := List.getElem_of_mem hpack
    have := (hval k (by omega)).1
    rwa [List.getD_eq_getElem?_getD, List.getElem?_eq_getElem hk] at this
  · rw [List.eq_replicate_iff]
    refine ⟨hd, fun row hrow => ?_⟩
    obtain ⟨k, hk, rfl⟩ := List.getElem_of_mem hrow
    have := (hval k (by omega)).2
    rwa [List.getD_eq_getElem?_getD, List.getElem?_eq_getElem hk] at this

/-- C4 at hoppers that never run out of foil basic lands, under the default
settings: the loop ends after 26 steps and its result is validated. -/
theorem genLoop_result_validated_witness :
    genRun endlessHoppers defaultSettings 26 (genInit ()) = some endlessFinal
    ∧ endlessFinal.loc = Loc.done
    ∧ (∀ pack ∈ endlessFinal.packs, pack.length = 15 ∧ okPack defaultSettings pack = some true)
    ∧ okDraft defaultSettings endlessFinal.packs = true :=
  have hrun : genRun endlessHoppers defaultSettings 26 (genInit ()) = some endlessFinal := by
    decide!
  ⟨hrun, rfl,
    (genLoop_result_validated endlessHoppers defaultSettings () 26 endlessFinal hrun rfl).2.1,
    (genLoop_result_validated endlessHoppers defaultSettings () 26 endlessFinal hrun rfl).2.2.2.2⟩

/-- When a `Pop` reports exhaustion while pack `i` is drawn, the next state
of the loop is the same whatever the two validators are: it is at the head of
the outer loop, not after the `break`. The step after it applies
`resetHoppers` to the hoppers, restarts the drawing at pack 0 and has
`draftAttempts` exactly one more than before; `packAttempts` counted the
abandoned draw. -/
theorem genStepWith_exhausted {σ : Type} (h : Hoppers σ) (st : GenState σ) (i : Nat)
    (hloc : st.loc = Loc.draw i) (hi : i < 24)
    (hex : (drawCards h 15 0 st.hoppers).2.2 = true) :
    ∃ st₁ st₂ : GenState σ,
      (∀ okP okD, genStepWith h okP okD st = some st₁)
      ∧ st₁.loc = Loc.reset
      ∧ st₁.hoppers = (drawCards h 15 0 st.hoppers).2.1
      ∧ st₁.draftAttempts = st.draftAttempts
      ∧ st₁.packAttempts = st.packAttempts + 1
      ∧ (∀ okP okD, genStepWith h okP okD st₁ = some st₂)
      ∧ st₂.loc = Loc.draw 0
      ∧ st₂.hoppers = h.resetHoppers (drawCards h 15 0 st.hoppers).2.1
      ∧ st₂.draftAttempts = st.draftAttempts + 1
      ∧ st₂.packAttempts = st.packAttempts + 1
      ∧ ∀ s, genRun h s 2 st = some st₂ := by
  rcases hdc : drawCards h 15 0 st.hoppers with ⟨cards, w, resetDraft⟩
  rw [hdc] at hex
  simp only [] at hex
  subst hex
  have h1 : ∀ okP okD, genStepWith h okP okD st
      = some { st with
          loc := Loc.reset, hoppers := w, packAttempts := st.packAttempts + 1,
          packs := st.packs.set i (writeRow (st.packs.getD i []) cards),
          drawnIn := st.drawnIn.set i
            (writeRow (st.drawnIn.getD i []) (List.replicate cards.length st.draftAttempts)) } := by
    intro okP okD
    unfold genStepWith
    rw [hloc]
    simp only [hi, if_true, hdc]
  have h2 : ∀ okP okD, genStepWith h okP okD
      { st with
          loc := Loc.reset, hoppers := w, packAttempts := st.packAttempts + 1,
          packs := st.packs.set i (writeRow (st.packs.getD i []) cards),
          drawnIn := st.drawnIn.set i
            (writeRow (st.drawnIn.getD i []) (List.replicate cards.length st.draftAttempts)) }
      = some { st with
          loc := Loc.draw 0, hoppers := h.resetHoppers w, packAttempts := st.packAttempts + 1,
          draftAttempts := st.draftAttempts + 1,
          packs := st.packs.set i (writeRow (st.packs.getD i []) cards),
          drawnIn := st.drawnIn.set i
            (writeRow (st.drawnIn.getD i []) (List.replicate cards.length st.draftAttempts)) } := by
    intro okP okD
    rfl
  refine ⟨_, _, h1, rfl, rfl, rfl, rfl, h2, rfl, rfl, rfl, rfl, fun s => ?_⟩
  have e1 : genRun h s 2 st = (match genStep h s st with
    | none => none
    | some st => genRun h s 1 st) := rfl
  rw [e1, genStep, h1]
  have e2 : ∀ x : GenState σ, genRun h s 1 x = (match genStep h s x with
    | none => none
    | some st => genRun h s 0 st) := fun _ => rfl
  simp only [e2, genStep, h2]
  rfl

/-! ### The rating bounds of `okPack` -/

theorem okPackCard_ratings (s : Settings) (st : PackTally) (card : Card) :
    (okPackCard s st card).ratings
      = if excluded s card = false ∧ card.Rarity = "common"
        then st.ratings ++ [card.Rating] else st.ratings := by
  unfold okPackCard
  cases hex : excluded s card with
  | true => simp
  | false =>
    simp only [Bool.false_eq_true, if_false, true_and]
    split_ifs
    · simp [okPackCommon, (okPackCount_colorHash st card).2.2]
    · rw [(okPackUncommon_frame s _ card).2.2.2, (okPackCount_colorHash st card).2.2]
    · exact (okPackCount_colorHash st card).2.2

theorem foldl_okPackCard_ratings (s : Settings) (cards : List Card) (st : PackTally) :
    (cards.foldl (okPackCard s) st).ratings
      = st.ratings ++ (eligibleCommons s cards).map Card.Rating := by
  induction cards generalizing st with
  | nil => simp [eligibleCommons, eligible]
  | cons card rest ih =>
    rw [List.foldl_cons, ih, okPackCard_ratings, eligibleCommons_cons]
    split_ifs <;> simp

/-- The ratings `okPack` averages are those of the eligible commons, in pack
order. -/
theorem okPackLoop_ratings (s : Settings) (pack : Pack) :
    (okPackLoop s pack).ratings = (eligibleCommons s pack).map Card.Rating := by
  unfold okPackLoop
  rw [foldl_okPackCard_ratings]
  rfl

theorem okPackLoop_mean (s : Settings) (pack : Pack) (hne : eligibleCommons s pack ≠ []) :
    mean (okPackLoop s pack).ratings = some (meanRating s pack) := by
  rw [okPackLoop_ratings, mean_eq _ (by simpa using hne)]
  simp [meanRating]

/-- The function `okPack` returns unless a zero-padding loop is entered with
more than five counts. -/
theorem okPack_returns (s : Settings) (pack : Pack)
    (hc : s.AbortMissingCommonColor = true → (colorSymbols s pack).dedup.length ≤ 5)
    (hi : s.AbortMissingCommonColorIdentity = true →
      (colorIdentitySymbols s pack).dedup.length ≤ 5) :
    ∃ b, okPack s pack = some b := by
  unfold okPack okPackVerdict
  simp only [abortMissing_eq, okPackLoop_colors_length, okPackLoop_colorIdentities_length]
  split_ifs with h1 h2 h3 h4 h5 h6
  · exact ⟨_, rfl⟩
  · have := hi h3.1; omega
  · exact ⟨_, rfl⟩
  · have := hc h1.1; omega
  · exact ⟨_, rfl⟩
  · have := hi h5.1; omega
  · exact ⟨_, rfl⟩

theorem okPack_eq_some_false (s : Settings) (pack : Pack) (hne : okPack s pack ≠ some true)
    (hc : s.AbortMissingCommonColor = true → (colorSymbols s pack).dedup.length ≤ 5)
    (hi : s.AbortMissingCommonColorIdentity = true →
      (colorIdentitySymbols s pack).dedup.length ≤ 5) :
    okPack s pack = some false := by
  obtain ⟨b, hb⟩ := okPack_returns s pack hc hi
  cases b with
  | false => exact hb
  | true => exact absurd hb hne

theorem okPack_true_caps (s : Settings) (pack : Pack) (hok : okPack s pack = some true) :
    okPackCaps s true (stdev (okPackLoop s pack).colorHash.values)
      (stdev (okPackLoop s pack).colorIdentityHash.values)
      (mean (okPackLoop s pack).ratings) = true := by
  unfold okPack at hok
  simp only [] at hok
  rw [okPackVerdict_eq_some_true_iff] at hok
  exact hok.2.2.2

/-! ### Termination of `okPack` -/

theorem dedup_length_le_of_subset (syms alphabet : List Char)
    (hsub : ∀ x ∈ syms, x ∈ alphabet) : syms.dedup.length ≤ alphabet.length :=
  (List.subperm_of_subset (List.nodup_dedup syms)
    (fun x hx => hsub x (List.mem_dedup.1 hx))).length_le

/-- C20. On a pack whose commons take their `Color` and `ColorIdentity`
symbols from an alphabet of at most five symbols `okPack` returns, for every
settings value: when a zero-padding loop is entered the number of counts is
below 5, and the loop ends after `5 - n` appends, at most 5, with exactly
five counts. -/
theorem okPack_terminates (s : Settings) (pack : Pack) (alphabet : List Char)
    (hA : alphabet.length ≤ 5)
    (hcol : ∀ c ∈ pack, c.Rarity = "common" → ∀ x ∈ c.Color.data, x ∈ alphabet)
    (hid : ∀ c ∈ pack, c.Rarity = "common" → ∀ x ∈ c.ColorIdentity.data, x ∈ alphabet) :
    (∃ b, okPack s pack = some b)
    ∧ (s.AbortMissingCommonColor = true →
        (okPackLoop s pack).colorHash.values.length ≠ 5 →
        (okPackLoop s pack).colorHash.values.length < 5
        ∧ ∃ r, padLoop (5 - (okPackLoop s pack).colorHash.values.length)
                (okPackLoop s pack).colorHash.values = some r
            ∧ r.length = 5)
    ∧ (s.AbortMissingCommonColorIdentity = true →
        (okPackLoop s pack).colorIdentityHash.values.length ≠ 5 →
        (okPackLoop s pack).colorIdentityHash.values.length < 5
        ∧ ∃ r, padLoop (5 - (okPackLoop s pack).colorIdentityHash.values.length)
                (okPackLoop s pack).colorIdentityHash.values = some r
            ∧ r.length = 5) := by
  have hc : (colorSymbols s pack).dedup.length ≤ 5 := by
    refine le_trans (dedup_length_le_of_subset _ alphabet ?_) hA
    intro y hy
    obtain ⟨c, hcp, _, hr, hyc⟩ := (mem_colorSymbols s pack y).1 hy
    exact hcol c hcp hr y hyc
  have hi : (colorIdentitySymbols s pack).dedup.length ≤ 5 := by
    refine le_trans (dedup_length_le_of_subset _ alphabet ?_) hA
    intro y hy
    obtain ⟨c, hcp, _, hr, hyc⟩ := (mem_colorIdentitySymbols s pack y).1 hy
    exact hid c hcp hr y hyc
  refine ⟨okPack_returns s pack (fun _ => hc) (fun _ => hi), ?_, ?_⟩
  · intro _ hne
    rw [← okPackLoop_colors_length] at hc
    have hlt : (okPackLoop s pack).colorHash.values.length < 5 := by omega
    refine ⟨hlt, _, padLoop_of_lt _ _ hlt (le_refl _), ?_⟩
    simp only [List.length_append, List.length_replicate]
    omega
  · intro _ hne
    rw [← okPackLoop_colorIdentities_length] at hi
    have hlt : (okPackLoop s pack).colorIdentityHash.values.length < 5 := by omega
    refine ⟨hlt, _, padLoop_of_lt _ _ hlt (le_refl _), ?_⟩
    simp only [List.length_append, List.length_replicate]
    omega

/-- C20 at `packThreeColors`, whose commons use W, U and B, with both
`AbortMissing` flags on and the alphabet W, U, B, R, G: `okPack` returns, and
the padding of its three colour counts ends with five counts. -/
theorem okPack_terminates_witness :
    (∃ b, okPack bothAbortMissing packThreeColors = some b)
    ∧ (okPackLoop bothAbortMissing packThreeColors).colorHash.values.length < 5
    ∧ ∃ r, padLoop (5 - (okPackLoop bothAbortMissing packThreeColors).colorHash.values.length)
            (okPackLoop bothAbortMissing packThreeColors).colorHash.values = some r
        ∧ r.length = 5 :=
  ⟨(okPack_terminates bothAbortMissing packThreeColors ['W', 'U', 'B', 'R', 'G']
      (by decide) (by decide) (by decide)).1,
    (okPack_terminates bothAbortMissing packThreeColors ['W', 'U', 'B', 'R', 'G']
      (by decide) (by decide) (by decide)).2.1 rfl (by decide!)⟩

/-! ### Redrawing a rejected pack -/

/-- A step of the generation loop from the head of the inner loop with
`i < 24` draws pack `i` from the hoppers as they are: whatever the step leads
to, `packs` is the array with pack `i` redrawn, the hoppers are the ones the
draw left, `packAttempts` is one more and `draftAttempts` is unchanged. -/
theorem genStep_draw {σ : Type} (h : Hoppers σ) (s : Settings) (st st' : GenState σ) (i : Nat)
    (hloc : st.loc = Loc.draw i) (hi : i < 24) (hstep : genStep h s st = some st') :
    st'.packs = drawnPacks h st i
    ∧ st'.hoppers = (drawCards h 15 0 st.hoppers).2.1
    ∧ st'.packAttempts = st.packAttempts + 1
    ∧ st'.draftAttempts = st.draftAttempts := by
  unfold genStep genStepWith at hstep
  rw [hloc] at hstep
  simp only [hi, if_true] at hstep
  unfold drawnPacks
  rcases hdc : drawCards h 15 0 st.hoppers with ⟨cards, w, resetDraft⟩
  rw [hdc] at hstep
  simp only [] at hstep
  cases resetDraft with
  | true =>
    simp only [if_true, Option.some.injEq] at hstep
    subst hstep
    exact ⟨rfl, rfl, rfl, rfl⟩
  | false =>
    simp only [Bool.false_eq_true, if_false] at hstep
    cases hok : okPack s ((st.packs.set i (writeRow (st.packs.getD i []) cards)).getD i [])
      with
    | none => rw [hok] at hstep; simp at hstep
    | some b =>
      rw [hok] at hstep
      cases b <;>
        · simp only [Option.some.injEq] at hstep
          subst hstep
          exact ⟨rfl, rfl, rfl, rfl⟩

/-- C19. When no hopper reports exhaustion while pack `i` is drawn and
`okPack` rejects the pack, the loop is back at the head of the inner loop
with the same `i`: the other packs are unchanged, the hoppers are the ones
the draw left (no `resetHoppers`), `draftAttempts` is unchanged and
`packAttempts` is one more. The step after that draws pack `i` again, from
those hoppers. -/
theorem genStep_pack_rejected {σ : Type} (h : Hoppers σ) (s : Settings) (st : GenState σ)
    (i : Nat) (hloc : st.loc = Loc.draw i) (hi : i < 24)
    (hex : (drawCards h 15 0 st.hoppers).2.2 = false)
    (hrej : okPack s ((drawnPacks h st i).getD i []) = some false) :
    ∃ st' : GenState σ, genStep h s st = some st'
      ∧ st'.loc = Loc.draw i
      ∧ st'.packs = drawnPacks h st i
      ∧ (∀ k, k ≠ i → st'.packs.getD k [] = st.packs.getD k [])
      ∧ st'.hoppers = (drawCards h 15 0 st.hoppers).2.1
      ∧ st'.draftAttempts = st.draftAttempts
      ∧ st'.packAttempts = st.packAttempts + 1
      ∧ ∀ st'' : GenState σ, genStep h s st' = some st'' →
          st''.packs = drawnPacks h st' i
          ∧ (∀ k, k ≠ i → st''.packs.getD k [] = st.packs.getD k [])
          ∧ st''.hoppers = (drawCards h 15 0 st'.hoppers).2.1
          ∧ st''.draftAttempts = st.draftAttempts
          ∧ st''.packAttempts = st.packAttempts + 2 := by
  have hkeep : ∀ (x : GenState σ) (k : Nat), k ≠ i →
      (drawnPacks h x i).getD k [] = x.packs.getD k [] := by
    intro x k hk
    unfold drawnPacks
    exact getD_set_of_ne _ _ _ _ _ (fun e => hk e.symm)
  have hstep : genStep h s st
      = some { st with
          loc := Loc.draw i, hoppers := (drawCards h 15 0 st.hoppers).2.1,
          packAttempts := st.packAttempts + 1,
          packs := drawnPacks h st i,
          drawnIn := st.drawnIn.set i (writeRow (st.drawnIn.getD i [])
            (List.replicate (drawCards h 15 0 st.hoppers).1.length st.draftAttempts)) } := by
    unfold drawnPacks at hrej ⊢
    unfold genStep genStepWith
    rw [hloc]
    simp only [hi, if_true]
    rcases hdc : drawCards h 15 0 st.hoppers with ⟨cards, w, resetDraft⟩
    rw [hdc] at hex hrej
    simp only [] at hex hrej ⊢
    subst hex
    simp only [Bool.false_eq_true, if_false, hrej]
  refine ⟨_, hstep, rfl, rfl, fun k hk => hkeep st k hk, rfl, rfl, rfl, ?_⟩
  intro st'' hnext
  obtain ⟨hp, hw, hpa, hda⟩ := genStep_draw h s _ st'' i rfl hi hnext
  refine ⟨hp, ?_, hw, hda, ?_⟩
  · intro k hk
    rw [hp, hkeep _ k hk]
    exact hkeep st k hk
  · rw [hpa]

/-- C19 at hoppers that deal non-foil basic lands only: pack 0 of the first
attempt holds 15 copies of one card, `okPack` rejects it under the default
settings, and the loop stays at pack 0 with `draftAttempts = 1` and
`packAttempts = 1`. -/
theorem genStep_pack_rejected_witness :
    okPack defaultSettings ((drawnPacks plainsHoppers firstDrawState 0).getD 0 []) = some false
    ∧ ∃ st' : GenState Unit, genStep plainsHoppers defaultSettings firstDrawState = some st'
      ∧ st'.loc = Loc.draw 0
      ∧ st'.draftAttempts = 1
      ∧ st'.packAttempts = 1 :=
  have hrej : okPack defaultSettings ((drawnPacks plainsHoppers firstDrawState 0).getD 0 [])
      = some false := by decide!
  ⟨hrej,
    match genStep_pack_rejected plainsHoppers defaultSettings firstDrawState 0 rfl (by decide)
      (by decide) hrej with
    | ⟨st', h1, h2, _, _, _, h6, h7, _⟩ => ⟨st', h1, h2, h6, h7⟩⟩

/-! ### The rule on the colour identities of uncommons -/

theorem stringSort_eq_of_perm (a b : String) (h : a.data.Perm b.data) :
    stringSort a = stringSort b := by
  unfold stringSort
  congr 1
  apply List.eq_of_perm_of_sorted (r := fun x y : Char => x ≤ y)
  · exact (List.perm_insertionSort _ a.data).trans
      (h.trans (List.perm_insertionSort _ b.data).symm)
  · exact List.sorted_insertionSort _ a.data
  · exact List.sorted_insertionSort _ b.data

theorem utf8Len_perm {l₁ l₂ : List Char} (h : l₁.Perm l₂) :
    String.utf8Len l₁ = String.utf8Len l₂ := by
  induction h with
  | nil => rfl
  | cons x _ ih => simp [String.utf8Len_cons, ih]
  | swap x y l => simp [String.utf8Len_cons]; omega
  | trans _ _ ih₁ ih₂ => exact ih₁.trans ih₂

/-- Sorting the runes of a string keeps its length in bytes. -/
theorem stringSort_utf8ByteSize (a : String) : (stringSort a).utf8ByteSize = a.utf8ByteSize := by
  unfold stringSort
  rw [String.utf8ByteSize_mk, utf8Len_perm (List.perm_insertionSort _ a.data)]
  cases a
  simp

theorem GoMap.lookup_le_lookup_incr (m : GoMap String Int) (k key : String) :
    m.lookup key ≤ (m.incr k).lookup key := by
  by_cases h : k = key
  · subst h
    rw [GoMap.lookup_incr_self]
    omega
  · rw [GoMap.lookup_incr_of_ne _ h]

theorem okPackCount_uncommonColorIdentities (st : PackTally) (card : Card) :
    (okPackCount st card).uncommonColorIdentities = st.uncommonColorIdentities := by
  unfold okPackCount
  simp only []
  split_ifs <;> rfl

theorem okPackUncommon_uncommonColorIdentities (s : Settings) (st : PackTally) (card : Card)
    (hflag : s.AbortDuplicateThreeColorIdentityUncommons = true) :
    (okPackUncommon s st card).uncommonColorIdentities
      = st.uncommonColorIdentities.incr (stringSort card.ColorIdentity) := by
  unfold okPackUncommon
  simp only [hflag, if_true]
  split_ifs <;> rfl

/-- What an accepted uncommon says about the count of its sorted identity. -/
theorem okPackUncommon_passes (s : Settings) (st : PackTally) (card : Card)
    (hflag : s.AbortDuplicateThreeColorIdentityUncommons = true)
    (h : (okPackUncommon s st card).passes = true) :
    ¬ ((st.uncommonColorIdentities.incr (stringSort card.ColorIdentity)).lookup
          (stringSort card.ColorIdentity) > 1
        ∧ (stringSort card.ColorIdentity).utf8ByteSize = 3)
    ∧ ¬ ((st.uncommonColorIdentities.incr (stringSort card.ColorIdentity)).lookup
          (stringSort card.ColorIdentity) ≥ 3) := by
  unfold okPackUncommon at h
  simp only [hflag, if_true] at h
  split_ifs at h
  exact ⟨by assumption, by assumption⟩

theorem okPackCard_uncommonColorIdentities_le (s : Settings) (st : PackTally) (card : Card)
    (key : String) :
    st.uncommonColorIdentities.lookup key
      ≤ (okPackCard s st card).uncommonColorIdentities.lookup key := by
  unfold okPackCard
  split_ifs with h1 h2 h3
  · exact le_refl _
  · simp only [okPackCommon]
    rw [okPackCount_uncommonColorIdentities]
  · cases hflag : s.AbortDuplicateThreeColorIdentityUncommons with
    | true =>
      rw [okPackUncommon_uncommonColorIdentities s _ card hflag,
        okPackCount_uncommonColorIdentities]
      exact GoMap.lookup_le_lookup_incr _ _ _
    | false =>
      rw [okPackUncommon_of_flag_off s _ card hflag, okPackCount_uncommonColorIdentities]
  · rw [okPackCount_uncommonColorIdentities]

theorem okPackCard_passes_mono (s : Settings) (st : PackTally) (card : Card)
    (h : (okPackCard s st card).passes = true) : st.passes = true := by
  cases hex : excluded s card with
  | true => rwa [okPackCard_of_excluded s st card hex] at h
  | false => exact (okPackCard_passes_true s st card hex h).1

theorem foldl_okPackCard_passes_mono (s : Settings) (cards : List Card) (st : PackTally)
    (h : (cards.foldl (okPackCard s) st).passes = true) : st.passes = true := by
  induction cards generalizing st with
  | nil => exact h
  | cons card rest ih => exact okPackCard_passes_mono s st card (ih _ h)

theorem foldl_okPackCard_uncommonColorIdentities_le (s : Settings) (cards : List Card)
    (st : PackTally) (key : String) :
    st.uncommonColorIdentities.lookup key
      ≤ (cards.foldl (okPackCard s) st).uncommonColorIdentities.lookup key := by
  induction cards generalizing st with
  | nil => exact le_refl _
  | cons card rest ih =>
    exact le_trans (okPackCard_uncommonColorIdentities_le s st card key) (ih _)

/-- An eligible uncommon under the rule: its sorted identity is counted, and
if `passes` is still true the new count is 1, or it is 2 and the sorted
identity is not three bytes long. -/
theorem okPackCard_uncommon (s : Settings) (st : PackTally) (card : Card)
    (hflag : s.AbortDuplicateThreeColorIdentityUncommons = true)
    (hex : excluded s card = false) (hr : card.Rarity = "uncommon") :
    (okPackCard s st card).uncommonColorIdentities.lookup (stringSort card.ColorIdentity)
      = st.uncommonColorIdentities.lookup (stringSort card.ColorIdentity) + 1
    ∧ ((okPackCard s st card).passes = true →
        ¬ (st.uncommonColorIdentities.lookup (stringSort card.ColorIdentity) + 1 > 1
            ∧ (stringSort card.ColorIdentity).utf8ByteSize = 3)
        ∧ ¬ (st.uncommonColorIdentities.lookup (stringSort card.ColorIdentity) + 1 ≥ 3)) := by
  have hne : ¬ card.Rarity = "common" := by rw [hr]; decide
  unfold okPackCard
  simp only [hex, Bool.false_eq_true, if_false, if_neg hne, if_pos hr]
  constructor
  · rw [okPackUncommon_uncommonColorIdentities s _ card hflag, GoMap.lookup_incr_self,
      okPackCount_uncommonColorIdentities]
  · intro hp
    have := okPackUncommon_passes s _ card hflag hp
    rwa [GoMap.lookup_incr_self, okPackCount_uncommonColorIdentities] at this

theorem okPackLoop_append_cons (s : Settings) (pre rest : List Card) (card : Card)
    (st : PackTally) :
    (pre ++ card :: rest).foldl (okPackCard s) st
      = rest.foldl (okPackCard s) (okPackCard s (pre.foldl (okPackCard s) st) card) := by
  rw [List.foldl_append, List.foldl_cons]

theorem init_uncommonColorIdentities_le (s : Settings) (cards : List Card) (key : String) :
    0 ≤ (cards.foldl (okPackCard s) PackTally.init).uncommonColorIdentities.lookup key := by
  have := foldl_okPackCard_uncommonColorIdentities_le s cards PackTally.init key
  simpa [PackTally.init, GoMap.lookup] using this

/-- Two eligible uncommons whose identities are permutations of one another
and three bytes long make `passes` false under the rule. -/
theorem okPackLoop_passes_false_of_two_uncommons (s : Settings) (pre mid post : List Card)
    (c₁ c₂ : Card) (hflag : s.AbortDuplicateThreeColorIdentityUncommons = true)
    (h₁ : excluded s c₁ = false) (h₂ : excluded s c₂ = false)
    (hr₁ : c₁.Rarity = "uncommon") (hr₂ : c₂.Rarity = "uncommon")
    (hperm : c₁.ColorIdentity.data.Perm c₂.ColorIdentity.data)
    (hbytes : c₂.ColorIdentity.utf8ByteSize = 3) :
    (okPackLoop s (pre ++ c₁ :: (mid ++ c₂ :: post))).passes = false := by
  cases hp : (okPackLoop s (pre ++ c₁ :: (mid ++ c₂ :: post))).passes with
  | false => rfl
  | true =>
    exfalso
    unfold okPackLoop at hp
    rw [okPackLoop_append_cons, okPackLoop_append_cons] at hp
    have hp4 := foldl_okPackCard_passes_mono s post _ hp
    have hkey := stringSort_eq_of_perm _ _ hperm
    have h0 := init_uncommonColorIdentities_le s pre (stringSort c₂.ColorIdentity)
    have hc1 := (okPackCard_uncommon s (pre.foldl (okPackCard s) PackTally.init) c₁ hflag h₁
      hr₁).1
    rw [hkey] at hc1
    have hmid := foldl_okPackCard_uncommonColorIdentities_le s mid
      (okPackCard s (pre.foldl (okPackCard s) PackTally.init) c₁) (stringSort c₂.ColorIdentity)
    have hc2 := ((okPackCard_uncommon s _ c₂ hflag h₂ hr₂).2 hp4).1
    apply hc2
    refine ⟨by omega, ?_⟩
    rw [stringSort_utf8ByteSize]
    exact hbytes

/-- Three eligible uncommons whose identities are permutations of one
another make `passes` false under the rule. -/
theorem okPackLoop_passes_false_of_three_uncommons (s : Settings)
    (pre mid₁ mid₂ post : List Card) (c₁ c₂ c₃ : Card)
    (hflag : s.AbortDuplicateThreeColorIdentityUncommons = true)
    (h₁ : excluded s c₁ = false) (h₂ : excluded s c₂ = false) (h₃ : excluded s c₃ = false)
    (hr₁ : c₁.Rarity = "uncommon") (hr₂ : c₂.Rarity = "uncommon")
    (hr₃ : c₃.Rarity = "uncommon")
    (hperm₁ : c₁.ColorIdentity.data.Perm c₃.ColorIdentity.data)
    (hperm₂ : c₂.ColorIdentity.data.Perm c₃.ColorIdentity.data) :
    (okPackLoop s (pre ++ c₁ :: (mid₁ ++ c₂ :: (mid₂ ++ c₃ :: post)))).passes = false := by
  cases hp : (okPackLoop s (pre ++ c₁ :: (mid₁ ++ c₂ :: (mid₂ ++ c₃ :: post)))).passes with
  | false => rfl
  | true =>
    exfalso
    unfold okPackLoop at hp
    rw [okPackLoop_append_cons, okPackLoop_append_cons, okPackLoop_append_cons] at hp
    have hp6 := foldl_okPackCard_passes_mono s post _ hp
    have hkey₁ := stringSort_eq_of_perm _ _ hperm₁
    have hkey₂ := stringSort_eq_of_perm _ _ hperm₂
    have h0 := init_uncommonColorIdentities_le s pre (stringSort c₃.ColorIdentity)
    have hc1 := (okPackCard_uncommon s (pre.foldl (okPackCard s) PackTally.init) c₁ hflag h₁
      hr₁).1
    rw [hkey₁] at hc1
    have hm1 := foldl_okPackCard_uncommonColorIdentities_le s mid₁
      (okPackCard s (pre.foldl (okPackCard s) PackTally.init) c₁) (stringSort c₃.ColorIdentity)
    have hc2 := (okPackCard_uncommon s (mid₁.foldl (okPackCard s)
      (okPackCard s (pre.foldl (okPackCard s) PackTally.init) c₁)) c₂ hflag h₂ hr₂).1
    rw [hkey₂] at hc2
    have hm2 := foldl_okPackCard_uncommonColorIdentities_le s mid₂
      (okPackCard s (mid₁.foldl (okPackCard s)
        (okPackCard s (pre.foldl (okPackCard s) PackTally.init) c₁)) c₂)
      (stringSort c₃.ColorIdentity)
    have hc3 := ((okPackCard_uncommon s _ c₃ hflag h₃ hr₃).2 hp6).2
    apply hc3
    omega

theorem okPackCard_eraseUncommonIdentity (s : Settings)
    (hflag : s.AbortDuplicateThreeColorIdentityUncommons = false) (st : PackTally)
    (card : Card) :
    okPackCard s st (eraseUncommonIdentity card) = okPackCard s st card := by
  unfold eraseUncommonIdentity
  split_ifs with hr
  · have hne : ¬ card.Rarity = "common" := by rw [hr]; decide
    unfold okPackCard
    simp only [excluded, hne, hr, if_false, if_true, okPackUncommon_of_flag_off s _ _ hflag]
    rfl
  · rfl

theorem okPackLoop_eraseUncommonIdentity (s : Settings)
    (hflag : s.AbortDuplicateThreeColorIdentityUncommons = false) (pack : Pack) :
    okPackLoop s (pack.map eraseUncommonIdentity) = okPackLoop s pack := by
  unfold okPackLoop
  rw [List.foldl_map]
  congr 1
  funext st card
  exact okPackCard_eraseUncommonIdentity s hflag st card

theorem okPack_of_passes_false (s : Settings) (pack : Pack)
    (hp : (okPackLoop s pack).passes = false) :
    okPack s pack ≠ some true
    ∧ ((s.AbortMissingCommonColor = true → (colorSymbols s pack).dedup.length ≤ 5) →
       (s.AbortMissingCommonColorIdentity = true →
          (colorIdentitySymbols s pack).dedup.length ≤ 5) →
       okPack s pack = some false) := by
  have hno : okPack s pack ≠ some true := by
    unfold okPack
    simp only [hp]
    exact okPackVerdict_of_passes_false s _ _ _
  exact ⟨hno, fun hc hi => okPack_eq_some_false s pack hno hc hi⟩

/-- With `AbortDuplicateThreeColorIdentityUncommons` on, `okPack` does not
return true, and returns false whenever it returns, on a pack in which two
eligible uncommons have `ColorIdentity` strings that are permutations of one
another and three bytes long, or three eligible uncommons have `ColorIdentity`
strings that are permutations of one another. With the flag off, two packs
that differ only in the `ColorIdentity` of their uncommons get the same
result. -/
theorem okPack_uncommon_rule_cases (s : Settings) :
    (s.AbortDuplicateThreeColorIdentityUncommons = true →
      (∀ (pre mid post : List Card) (c₁ c₂ : Card),
        excluded s c₁ = false → excluded s c₂ = false →
        c₁.Rarity = "uncommon" → c₂.Rarity = "uncommon" →
        c₁.ColorIdentity.data.Perm c₂.ColorIdentity.data →
        c₂.ColorIdentity.utf8ByteSize = 3 →
        okPack s (pre ++ c₁ :: (mid ++ c₂ :: post)) ≠ some true
        ∧ ((s.AbortMissingCommonColor = true →
              (colorSymbols s (pre ++ c₁ :: (mid ++ c₂ :: post))).dedup.length ≤ 5) →
           (s.AbortMissingCommonColorIdentity = true →
              (colorIdentitySymbols s (pre ++ c₁ :: (mid ++ c₂ :: post))).dedup.length ≤ 5) →
           okPack s (pre ++ c₁ :: (mid ++ c₂ :: post)) = some false))
      ∧ (∀ (pre mid₁ mid₂ post : List Card) (c₁ c₂ c₃ : Card),
        excluded s c₁ = false → excluded s c₂ = false → excluded s c₃ = false →
        c₁.Rarity = "uncommon" → c₂.Rarity = "uncommon" → c₃.Rarity = "uncommon" →
        c₁.ColorIdentity.data.Perm c₃.ColorIdentity.data →
        c₂.ColorIdentity.data.Perm c₃.ColorIdentity.data →
        okPack s (pre ++ c₁ :: (mid₁ ++ c₂ :: (mid₂ ++ c₃ :: post))) ≠ some true
        ∧ ((s.AbortMissingCommonColor = true →
              (colorSymbols s
                (pre ++ c₁ :: (mid₁ ++ c₂ :: (mid₂ ++ c₃ :: post)))).dedup.length ≤ 5) →
           (s.AbortMissingCommonColorIdentity = true →
              (colorIdentitySymbols s
                (pre ++ c₁ :: (mid₁ ++ c₂ :: (mid₂ ++ c₃ :: post)))).dedup.length ≤ 5) →
           okPack s (pre ++ c₁ :: (mid₁ ++ c₂ :: (mid₂ ++ c₃ :: post))) = some false)))
    ∧ (s.AbortDuplicateThreeColorIdentityUncommons = false →
      ∀ pack pack' : Pack,
        pack'.map eraseUncommonIdentity = pack.map eraseUncommonIdentity →
        okPack s pack' = okPack s pack) := by
  refine ⟨fun hflag => ⟨?_, ?_⟩, fun hflag pack pack' heq => ?_⟩
  · intro pre mid post c₁ c₂ h₁ h₂ hr₁ hr₂ hperm hbytes
    exact okPack_of_passes_false s _
      (okPackLoop_passes_false_of_two_uncommons s pre mid post c₁ c₂ hflag h₁ h₂ hr₁ hr₂
        hperm hbytes)
  · intro pre mid₁ mid₂ post c₁ c₂ c₃ h₁ h₂ h₃ hr₁ hr₂ hr₃ hperm₁ hperm₂
    exact okPack_of_passes_false s _
      (okPackLoop_passes_false_of_three_uncommons s pre mid₁ mid₂ post c₁ c₂ c₃ hflag
        h₁ h₂ h₃ hr₁ hr₂ hr₃ hperm₁ hperm₂)
  · unfold okPack
    rw [← okPackLoop_eraseUncommonIdentity s hflag pack,
      ← okPackLoop_eraseUncommonIdentity s hflag pack', heq]

/-! ### The log output does not change the verdicts -/

theorem okPackCountV_fst (s : Settings) (st : PackTally) (log : List String) (card : Card) :
    (okPackCountV s st log card).1 = okPackCount st card := by
  unfold okPackCountV okPackCount
  simp only []
  split_ifs <;> rfl

theorem okPackUncommonV_fst (s : Settings) (st : PackTally) (log : List String) (card : Card) :
    (okPackUncommonV s st log card).1 = okPackUncommon s st card := by
  unfold okPackUncommonV okPackUncommon okPackAllSameV okPackTripletV
  simp only []
  split_ifs <;> rfl

theorem okPackCardV_fst (s : Settings) (x : PackTally × List String) (card : Card) :
    (okPackCardV s x card).1 = okPackCard s x.1 card := by
  unfold okPackCardV okPackCard
  simp only []
  split_ifs
  · rfl
  · simp only [okPackCountV_fst]
  · rw [okPackUncommonV_fst, okPackCountV_fst]
  · exact okPackCountV_fst s x.1 x.2 card

theorem foldl_okPackCardV_fst (s : Settings) (cards : List Card) (x : PackTally × List String) :
    (cards.foldl (okPackCardV s) x).1 = cards.foldl (okPackCard s) x.1 := by
  induction cards generalizing x with
  | nil => rfl
  | cons card rest ih => rw [List.foldl_cons, List.foldl_cons, ih, okPackCardV_fst]

theorem abortMissingV_fst (s : Settings) (flag passes : Bool) (colors : List ℚ)
    (log : List String) (format : String) :
    (abortMissingV s flag passes colors log format).map Prod.fst
      = abortMissing flag passes colors := by
  unfold abortMissingV abortMissing
  split_ifs
  · cases padZeros colors <;> rfl
  · rfl

theorem capV_fst (s : Settings) (exceeded passes : Bool) (log : List String) (format : String) :
    (capV s exceeded passes log format).1 = if exceeded = true then false else passes := by
  unfold capV
  split_ifs <;> rfl

theorem ratingCapV_fst (s : Settings) (ratingMean : Option ℚ) (passes : Bool)
    (log : List String) :
    (ratingCapV s ratingMean passes log).1
      = if s.PackCommonRatingMax ≠ 0 ∧ floatGt ratingMean s.PackCommonRatingMax = true
        then false
        else if s.PackCommonRatingMin ≠ 0 ∧ floatLt ratingMean s.PackCommonRatingMin = true
        then false else passes := by
  unfold ratingCapV
  split_ifs <;> rfl

theorem returnV_fst (s : Settings) (passes : Bool) (log : List String) (yes no : String) :
    (returnV s passes log yes no).1 = passes := by
  unfold returnV
  split_ifs <;> rfl

theorem okPackCapsV_fst (s : Settings) (passes : Bool)
    (colorStdev colorIdentityStdev : Option Root) (ratingMean : Option ℚ) (log : List String) :
    (okPackCapsV s passes colorStdev colorIdentityStdev ratingMean log).1
      = okPackCaps s passes colorStdev colorIdentityStdev ratingMean := by
  unfold okPackCapsV okPackCaps
  simp only [returnV_fst, ratingCapV_fst, capV_fst, decide_eq_true_eq]

/-- The boolean of `okPack` with its log is the boolean of `okPack`. -/
theorem okPackV_fst (s : Settings) (pack : Pack) :
    (okPackV s pack).map Prod.fst = okPack s pack := by
  unfold okPackV okPack okPackVerdict okPackLoop
  simp only [foldl_okPackCardV_fst]
  rw [← abortMissingV_fst s s.AbortMissingCommonColor _ _
    (pack.foldl (okPackCardV s) (PackTally.init, [])).2 "a color is missing among commons"]
  cases h1 : abortMissingV s s.AbortMissingCommonColor
      (pack.foldl (okPackCard s) PackTally.init).passes
      (pack.foldl (okPackCard s) PackTally.init).colorHash.values
      (pack.foldl (okPackCardV s) (PackTally.init, [])).2
      "a color is missing among commons" with
  | none => rfl
  | some r1 =>
    obtain ⟨⟨passes, colors⟩, log⟩ := r1
    simp only [Option.map_some']
    rw [← abortMissingV_fst s s.AbortMissingCommonColorIdentity passes _ log
      "a color identity is missing among commons"]
    cases h2 : abortMissingV s s.AbortMissingCommonColorIdentity passes
        (pack.foldl (okPackCard s) PackTally.init).colorIdentityHash.values log
        "a color identity is missing among commons" with
    | none => rfl
    | some r2 =>
      obtain ⟨⟨passes', colorIdentities⟩, log'⟩ := r2
      simp only [Option.map_some', okPackCapsV_fst]

theorem overMaxV_fst (s : Settings) (max qty : Int) (st : DraftTally) (log : List String) :
    (overMaxV s max qty st log).1
      = if overMax max qty = true then { st with passes := false } else st := by
  unfold overMaxV
  split_ifs <;> rfl

theorem okDraftCardV_fst (s : Settings) (x : DraftTally × List String) (card : Card) :
    (okDraftCardV s x card).1 = okDraftCard s x.1 card := by
  unfold okDraftCardV okDraftCard okDraftTally
  simp only []
  split_ifs <;> simp only [overMaxV_fst] <;> split_ifs <;> rfl

theorem foldl_okDraftCardV_fst (s : Settings) (cards : List Card)
    (x : DraftTally × List String) :
    (cards.foldl (okDraftCardV s) x).1 = cards.foldl (okDraftCard s) x.1 := by
  induction cards generalizing x with
  | nil => rfl
  | cons card rest ih => rw [List.foldl_cons, List.foldl_cons, ih, okDraftCardV_fst]

theorem foldl_foldl_okDraftCardV_fst (s : Settings) (packs : Draft)
    (x : DraftTally × List String) :
    (packs.foldl (fun x pack => pack.foldl (okDraftCardV s) x) x).1
      = packs.foldl (fun st pack => pack.foldl (okDraftCard s) st) x.1 := by
  induction packs generalizing x with
  | nil => rfl
  | cons pack rest ih => rw [List.foldl_cons, List.foldl_cons, ih, foldl_okDraftCardV_fst]

/-- The boolean of `okDraft` with its log is the boolean of `okDraft`. -/
theorem okDraftV_fst (s : Settings) (packs : Draft) :
    (okDraftV s packs).1 = okDraft s packs := by
  unfold okDraftV okDraft okDraftVerdict okDraftLoop
  simp only [returnV_fst, capV_fst, foldl_foldl_okDraftCardV_fst, decide_eq_true_eq]

/-- C14. `Verbose` has no effect on the outcome of validation: for two
settings values that differ only in `Verbose`, `okPack` returns the same
boolean (or does not return in either case) and `okDraft` returns the same
boolean; the flag only decides which lines are logged. -/
theorem verbose_no_effect (s : Settings) (v : Bool) (pack : Pack) (packs : Draft) :
    (okPackV { s with Verbose := v } pack).map Prod.fst = (okPackV s pack).map Prod.fst
    ∧ (okDraftV { s with Verbose := v } packs).1 = (okDraftV s packs).1
    ∧ (okPackV s pack).map Prod.fst = okPack s pack
    ∧ (okDraftV s packs).1 = okDraft s packs := by
  refine ⟨?_, ?_, okPackV_fst s pack, okDraftV_fst s packs⟩
  · rw [okPackV_fst, okPackV_fst]
    rfl
  · rw [okDraftV_fst, okDraftV_fst]
    rfl

/-- C14 at the pack `packTwoWUB` with the rule on uncommons on, and at a
draft with seven copies of `C1`: with `Verbose` on and off the validators log
different lines and return the same boolean. -/
theorem verbose_no_effect_witness :
    okPackV uncommonRuleOn packTwoWUB = some (false, [])
    ∧ okPackV { uncommonRuleOn with Verbose := true } packTwoWUB
        = some (false, ["found more than one uncommon %s card", "color stdev:\t%f",
            "color identity stdev:\t%f", "rating mean:\t%f", "pack fails :("])
    ∧ okDraftV defaultSettings (draftWithC1 7) = (false, [])
    ∧ (okDraftV { defaultSettings with Verbose := true } (draftWithC1 7)).1 = false
    ∧ (okPackV { uncommonRuleOn with Verbose := true } packTwoWUB).map Prod.fst
        = (okPackV uncommonRuleOn packTwoWUB).map Prod.fst :=
  ⟨by decide!, by decide!, by decide!, by decide!,
    (verbose_no_effect uncommonRuleOn true packTwoWUB []).1⟩

/-! ### The partition of the catalog -/

theorem addToBucket_of_known (set : CardSet) (card : Card)
    (h : card.Rarity ∈ knownRarities) :
    addToBucket set card = some (set.append { bucketsOf [card] with All := [] }) := by
  simp only [knownRarities, List.mem_cons, List.mem_singleton, List.not_mem_nil, or_false] at h
  rcases h with h | h | h | h | h <;>
    simp [addToBucket, h, CardSet.append, bucketsOf, List.filter_cons]

theorem addToBucket_of_unknown (set : CardSet) (card : Card)
    (h : card.Rarity ∉ knownRarities) : addToBucket set card = none := by
  simp only [knownRarities, List.mem_cons, List.mem_singleton, List.not_mem_nil, or_false,
    not_or] at h
  simp [addToBucket, h]

theorem bucketsOf_append (l₁ l₂ : List Card) :
    bucketsOf (l₁ ++ l₂) = (bucketsOf l₁).append (bucketsOf l₂) := by
  simp [bucketsOf, CardSet.append]

theorem CardSet.append_assoc (a b c : CardSet) : (a.append b).append c = a.append (b.append c) := by
  simp [CardSet.append]

theorem CardSet.append_empty (a : CardSet) : a.append (bucketsOf []) = a := by
  simp [CardSet.append, bucketsOf]

theorem CardSet.empty_append (a : CardSet) : CardSet.empty.append a = a := by
  simp [CardSet.append, CardSet.empty]

theorem partitionCard_of_known (s : Settings) (sets : CardSet × CardSet) (card : Card)
    (h : card.Rarity ∈ knownRarities) :
    partitionCard s sets card
      = some (sets.1.append (bucketsOf ([card].filter (fun c => !(toDfc s c)))),
              sets.2.append (bucketsOf ([card].filter (toDfc s)))) := by
  unfold partitionCard
  cases hd : toDfc s card with
  | true =>
    have hd' : (s.DfcMode && card.Dfc) = true := hd
    simp only [hd', if_true, addToBucket_of_known _ card h]
    simp [List.filter_cons, hd, CardSet.append, bucketsOf]
  | false =>
    have hd' : (s.DfcMode && card.Dfc) = false := hd
    simp only [hd', Bool.false_eq_true, if_false, addToBucket_of_known _ card h]
    simp [List.filter_cons, hd, CardSet.append, bucketsOf]

/-- The partitioning loop over cards of known rarity, from any pair of sets. -/
theorem partitionCards_of_known (s : Settings) (cards : List Card) (sets : CardSet × CardSet)
    (h : ∀ c ∈ cards, c.Rarity ∈ knownRarities) :
    partitionCards s cards sets
      = some (sets.1.append (bucketsOf (cards.filter (fun c => !(toDfc s c)))),
              sets.2.append (bucketsOf (cards.filter (toDfc s)))) := by
  induction cards generalizing sets with
  | nil => simp [partitionCards, CardSet.append_empty]
  | cons card rest ih =>
    have hc := h card (List.mem_cons_self _ _)
    have hrest : ∀ c ∈ rest, c.Rarity ∈ knownRarities :=
      fun c hcm => h c (List.mem_cons_of_mem _ hcm)
    rw [partitionCards, partitionCard_of_known s sets card hc]
    simp only []
    rw [ih _ hrest, CardSet.append_assoc, CardSet.append_assoc, ← bucketsOf_append,
      ← bucketsOf_append, ← List.filter_append, ← List.filter_append]
    rfl

/-- The partitioning loop ends in the `return` of the `default` case as soon
as a card has a label that is none of the five. -/
theorem partitionCards_of_unknown (s : Settings) (cards : List Card) (sets : CardSet × CardSet)
    (h : ∃ c ∈ cards, c.Rarity ∉ knownRarities) : partitionCards s cards sets = none := by
  induction cards generalizing sets with
  | nil => obtain ⟨c, hc, _⟩ := h; simp at hc
  | cons card rest ih =>
    rw [partitionCards]
    by_cases hk : card.Rarity ∈ knownRarities
    · rw [partitionCard_of_known s sets card hk]
      simp only []
      apply ih
      obtain ⟨c, hc, hcr⟩ := h
      rcases List.mem_cons.1 hc with rfl | hc'
      · exact absurd hk hcr
      · exact ⟨c, hc', hcr⟩
    · have : partitionCard s sets card = none := by
        unfold partitionCard
        split_ifs <;> simp [addToBucket_of_unknown _ card hk]
      rw [this]

theorem buckets_perm_of_known (cards : List Card) (h : ∀ c ∈ cards, c.Rarity ∈ knownRarities) :
    (bucketsOf cards).buckets.Perm cards := by
  induction cards with
  | nil => simp [bucketsOf, CardSet.buckets]
  | cons card rest ih =>
    have hrest := ih (fun c hc => h c (List.mem_cons_of_mem _ hc))
    have hc := h card (List.mem_cons_self _ _)
    simp only [knownRarities, List.mem_cons, List.mem_singleton, List.not_mem_nil,
      or_false] at hc
    simp only [bucketsOf, CardSet.buckets] at hrest ⊢
    rcases hc with hc | hc | hc | hc | hc
    · simp only [List.filter_cons, hc, decide_True, if_true,
        show ¬ ("mythic" = "rare") by decide, show ¬ ("mythic" = "uncommon") by decide,
        show ¬ ("mythic" = "common") by decide, show ¬ ("mythic" = "basic") by decide,
        decide_False, Bool.false_eq_true, if_false, List.cons_append]
      exact hrest.cons card
    · simp only [List.filter_cons, hc, decide_True, if_true,
        show ¬ ("rare" = "mythic") by decide, show ¬ ("rare" = "uncommon") by decide,
        show ¬ ("rare" = "common") by decide, show ¬ ("rare" = "basic") by decide,
        decide_False, Bool.false_eq_true, if_false, List.cons_append]
      refine List.Perm.trans ?_ (hrest.cons card)
      simp only [List.append_assoc]
      exact List.perm_middle
    · simp only [List.filter_cons, hc, decide_True, if_true,
        show ¬ ("uncommon" = "mythic") by decide, show ¬ ("uncommon" = "rare") by decide,
        show ¬ ("uncommon" = "common") by decide, show ¬ ("uncommon" = "basic") by decide,
        decide_False, Bool.false_eq_true, if_false, List.cons_append]
      refine List.Perm.trans ?_ (hrest.cons card)
      simp only [List.append_assoc]
      rw [← List.append_assoc]
      exact List.perm_middle.trans (by simp)
    · simp only [List.filter_cons, hc, decide_True, if_true,
        show ¬ ("common" = "mythic") by decide, show ¬ ("common" = "rare") by decide,
        show ¬ ("common" = "uncommon") by decide, show ¬ ("common" = "basic") by decide,
        decide_False, Bool.false_eq_true, if_false, List.cons_append]
      refine List.Perm.trans ?_ (hrest.cons card)
      simp only [List.append_assoc]
      rw [← List.append_assoc, ← List.append_assoc]
      exact List.perm_middle.trans (by simp)
    · simp only [List.filter_cons, hc, decide_True, if_true,
        show ¬ ("basic" = "mythic") by decide, show ¬ ("basic" = "rare") by decide,
        show ¬ ("basic" = "uncommon") by decide, show ¬ ("basic" = "common") by decide,
        decide_False, Bool.false_eq_true, if_false, List.cons_append]
      refine List.Perm.trans ?_ (hrest.cons card)
      exact List.perm_middle

/-- C15. For a catalog whose rarities are all among mythic, rare, uncommon,
common and basic, the partitioning loop ends with `allCards` and `dfcCards`
such that: `dfcCards.All` is the cards with `DfcMode` on and `Dfc` set and
`allCards.All` the others, in input order; each bucket of a set is the cards
of its `All` with the label of the bucket, in input order, so the five
buckets together are a permutation of `All`; in `DfcMode` no Dfc card is in
`allCards`; with `DfcMode` off `dfcCards` is empty; and the two `All` lists
together are a permutation of the input. -/
theorem partition_buckets (s : Settings) (cards : List Card)
    (h : ∀ c ∈ cards, c.Rarity ∈ knownRarities) :
    partitionCards s cards (CardSet.empty, CardSet.empty)
      = some (bucketsOf (cards.filter (fun c => !(toDfc s c))),
              bucketsOf (cards.filter (toDfc s)))
    ∧ (bucketsOf (cards.filter (fun c => !(toDfc s c)))).buckets.Perm
        (cards.filter (fun c => !(toDfc s c)))
    ∧ (bucketsOf (cards.filter (toDfc s))).buckets.Perm (cards.filter (toDfc s))
    ∧ (s.DfcMode = true →
        ∀ c, c ∈ (bucketsOf (cards.filter (fun c => !(toDfc s c)))).All
          ∨ c ∈ (bucketsOf (cards.filter (fun c => !(toDfc s c)))).buckets → c.Dfc = false)
    ∧ (s.DfcMode = false → bucketsOf (cards.filter (toDfc s)) = CardSet.empty)
    ∧ (cards.filter (fun c => !(toDfc s c)) ++ cards.filter (toDfc s)).Perm cards := by
  have hall : ∀ c ∈ cards.filter (fun c => !(toDfc s c)), c.Rarity ∈ knownRarities :=
    fun c hc => h c (List.mem_of_mem_filter hc)
  have hdfc : ∀ c ∈ cards.filter (toDfc s), c.Rarity ∈ knownRarities :=
    fun c hc => h c (List.mem_of_mem_filter hc)
  refine ⟨?_, buckets_perm_of_known _ hall, buckets_perm_of_known _ hdfc, ?_, ?_, ?_⟩
  · rw [partitionCards_of_known s cards _ h]
    simp only [CardSet.empty_append]
  · intro hmode c hc
    have hmem : c ∈ cards.filter (fun c => !(toDfc s c)) := by
      rcases hc with hc | hc
      · exact hc
      · exact (buckets_perm_of_known _ hall).mem_iff.1 hc
    have := (List.mem_filter.1 hmem).2
    simpa [toDfc, hmode] using this
  · intro hmode
    have : cards.filter (toDfc s) = [] := by
      rw [List.filter_eq_nil_iff]
      intro c _
      simp [toDfc, hmode]
    rw [this]
    rfl
  · have := List.filter_append_perm (toDfc s) cards
    refine List.Perm.trans (List.perm_append_comm) ?_
    simpa using this

/-- C15 at a catalog of six cards, two of them Dfc, in `DfcMode`. -/
theorem partition_buckets_witness :
    partitionCards dfcSettings smallCatalog (CardSet.empty, CardSet.empty)
      = some (bucketsOf (smallCatalog.filter (fun c => !(toDfc dfcSettings c))),
              bucketsOf (smallCatalog.filter (toDfc dfcSettings)))
    ∧ (smallCatalog.filter (toDfc dfcSettings)).map Card.ID = ["R1", "C2"]
    ∧ (smallCatalog.filter (fun c => !(toDfc dfcSettings c))).map Card.ID
        = ["M1", "U1", "C1", "Plains"] :=
  ⟨(partition_buckets dfcSettings smallCatalog (by decide)).1, by decide, by decide⟩

/-! ### The end of `main` -/

/-- C16. If a card of the catalog has a rarity label other than mythic, rare,
uncommon, common and basic, `main` returns from the partitioning loop: no
step of the generation loop is taken (no hopper built, no pack drawn, no
validator run, both counters 0), no statement is executed on the database,
nothing is committed, and this holds however many steps the loop would be
allowed. -/
theorem main_aborts_on_unknown_rarity {σ δ ρ : Type} (mk : CardSet → CardSet → Hoppers σ)
    (tx : Tx δ ρ) (s : Settings) (name : String) (cards : List Card) (fuel : Nat) (w : σ)
    (db : δ) (h : ∃ c ∈ cards, c.Rarity ∉ knownRarities) :
    partitionCards s cards (CardSet.empty, CardSet.empty) = none
    ∧ mainFrom mk tx s name cards fuel w db
      = some { exit := MainExit.rarityError, hoppers := w, db := tx.rollback db,
               packAttempts := 0, draftAttempts := 0, committed := false } := by
  have hp := partitionCards_of_unknown s cards (CardSet.empty, CardSet.empty) h
  refine ⟨hp, ?_⟩
  unfold mainFrom
  rw [hp]

/-- C16 at a catalog whose second card has the label `special`: `main`
returns from the partitioning loop, with the hoppers untouched. -/
theorem main_aborts_on_unknown_rarity_witness :
    mainFrom (fun _ _ => endlessHoppers) countingTx defaultSettings "untitled draft"
        [mkCard "C1" "common" "W", mkCard "X1" "special" "U"] 1000 () 7
      = some { exit := MainExit.rarityError, hoppers := (), db := countingTx.rollback 7,
               packAttempts := 0, draftAttempts := 0, committed := false } :=
  (main_aborts_on_unknown_rarity (fun _ _ => endlessHoppers) countingTx defaultSettings
    "untitled draft" [mkCard "C1" "common" "W", mkCard "X1" "special" "U"] 1000 () 7
    ⟨mkCard "X1" "special" "U", by simp, by decide⟩).2

/-- When `main` reaches its last line, it has called `tx.Commit()` exactly
when `Simulate` is on. -/
theorem mainFrom_committed {σ δ ρ : Type} (mk : CardSet → CardSet → Hoppers σ)
    (tx : Tx δ ρ) (s : Settings) (name : String) (cards : List Card) (fuel : Nat) (w : σ)
    (db : δ) (r : MainEnd σ δ) (h : mainFrom mk tx s name cards fuel w db = some r) :
    r.committed = (decide (r.exit = MainExit.finished) && s.Simulate) := by
  unfold mainFrom at h
  cases hp : partitionCards s cards (CardSet.empty, CardSet.empty) with
  | none =>
    rw [hp] at h
    simp only [Option.some.injEq] at h
    subst h
    rfl
  | some sets =>
    obtain ⟨allCards, dfcCards⟩ := sets
    rw [hp] at h
    simp only [] at h
    cases hg : genRun (mk allCards dfcCards) s fuel (genInit w) with
    | none => rw [hg] at h; simp at h
    | some st =>
      rw [hg] at h
      simp only [] at h
      split_ifs at h with h1 h2 h3
      · simp only [Option.some.injEq] at h
        subst h
        rfl
      · simp only [Option.some.injEq] at h
        subst h
        simp [h3]
      · simp only [Option.some.injEq] at h
        subst h
        simp [h3]

/-- C18, the code at its default settings and with `Simulate` on. With hoppers
that never run out and a transaction whose statements all succeed, `main`
reaches its last line in both cases; with `Simulate = false` it has not
called `tx.Commit()` and the deferred rollback undoes the insertions, with
`Simulate = true` it has called `tx.Commit()`. -/
theorem main_commit_inverted :
    defaultSettings.Simulate = false
    ∧ mainFrom (fun _ _ => endlessHoppers) countingTx defaultSettings "untitled draft"
        smallCatalog 26 () 0
      = some { exit := MainExit.finished, hoppers := (), db := 0,
               packAttempts := 24, draftAttempts := 1, committed := false }
    ∧ simulateSettings.Simulate = true
    ∧ mainFrom (fun _ _ => endlessHoppers) countingTx simulateSettings "untitled draft"
        smallCatalog 26 () 0
      = some { exit := MainExit.finished, hoppers := (), db := 401,
               packAttempts := 24, draftAttempts := 1, committed := true } :=
  ⟨rfl, by decide!, rfl, by decide!⟩

/-! ### The hopper graph builder -/

theorem refSlot_eq_none (hopdef : HopperDef) (k : Nat)
    (h : ∀ r, hopdef.Refs[k]? = some r → r < 0 ∨ 14 < r) : refSlot hopdef k = none := by
  unfold refSlot
  cases hr : hopdef.Refs[k]? with
  | none => rfl
  | some r =>
    have := h r hr
    simp only []
    rw [if_neg]
    omega

theorem refSlot_eq_some (hopdef : HopperDef) (k : Nat) (r : Int)
    (hr : hopdef.Refs[k]? = some r) (h0 : 0 ≤ r) (h14 : r ≤ 14) :
    refSlot hopdef k = some r.toNat := by
  unfold refSlot
  rw [hr]
  simp only []
  rw [if_pos]
  omega

theorem buildHopper_pointer {η ω : Type} (mk : HopperMakers η ω) (allCards dfcCards : CardSet)
    (i : Nat) (hopdef : HopperDef) (hoppers : List (Option η)) (w : ω)
    (hk : hopdef.Kind = "Pointer") :
    buildHopper mk allCards dfcCards i hopdef hoppers w
      = match refSlot hopdef 0 with
        | none => none
        | some r => if i < 15 then some (hoppers.set i (hoppers.getD r none), w) else none := by
  simp [buildHopper, hk]

theorem buildHopper_foil {η ω : Type} (mk : HopperMakers η ω) (allCards dfcCards : CardSet)
    (i : Nat) (hopdef : HopperDef) (hoppers : List (Option η)) (w : ω)
    (hk : hopdef.Kind = "FoilHopper") :
    buildHopper mk allCards dfcCards i hopdef hoppers w
      = match refSlot hopdef 0, refSlot hopdef 1, refSlot hopdef 2 with
        | some r₀, some r₁, some r₂ =>
          assignSlot hoppers i (mk.MakeFoilHopper r₀ r₁ r₂ (foilLists allCards) w)
        | _, _, _ => none := by
  simp [buildHopper, hk]

theorem resetHoppersFrom_cons {η ω : Type} (mk : HopperMakers η ω)
    (allCards dfcCards : CardSet) (d : HopperDef) (rest : List HopperDef) (i : Nat)
    (hoppers : List (Option η)) (w : ω) :
    resetHoppersFrom mk allCards dfcCards i (d :: rest) hoppers w
      = match buildHopper mk allCards dfcCards i d hoppers w with
        | none => none
        | some (hs, w₁) => resetHoppersFrom mk allCards dfcCards (i + 1) rest hs w₁ := rfl

theorem resetHoppersFrom_append {η ω : Type} (mk : HopperMakers η ω)
    (allCards dfcCards : CardSet) (pre post : List HopperDef) (i : Nat)
    (hoppers : List (Option η)) (w : ω) :
    resetHoppersFrom mk allCards dfcCards i (pre ++ post) hoppers w
      = match resetHoppersFrom mk allCards dfcCards i pre hoppers w with
        | none => none
        | some (hs, w₁) => resetHoppersFrom mk allCards dfcCards (i + pre.length) post hs w₁ := by
  induction pre generalizing i hoppers w with
  | nil => simp [resetHoppersFrom]
  | cons d pre ih =>
    rw [List.cons_append, resetHoppersFrom_cons, resetHoppersFrom_cons]
    cases hb : buildHopper mk allCards dfcCards i d hoppers w with
    | none => rfl
    | some r =>
      obtain ⟨hs, w₁⟩ := r
      simp only []
      rw [ih, List.length_cons]
      have : i + 1 + pre.length = i + (pre.length + 1) := by omega
      rw [this]

/-- An entry on which the loop body panics whatever the array holds makes the
whole build panic. -/
theorem resetHoppers_eq_none {η ω : Type} (mk : HopperMakers η ω) (allCards dfcCards : CardSet)
    (pre rest : List HopperDef) (d : HopperDef) (hoppers : List (Option η)) (w : ω)
    (h : ∀ (hs : List (Option η)) (w₁ : ω),
      buildHopper mk allCards dfcCards pre.length d hs w₁ = none) :
    resetHoppers mk allCards dfcCards (pre ++ d :: rest) hoppers w = none := by
  unfold resetHoppers
  rw [resetHoppersFrom_append]
  cases hp : resetHoppersFrom mk allCards dfcCards 0 pre hoppers w with
  | none => rfl
  | some r =>
    obtain ⟨hs, w₁⟩ := r
    simp only [resetHoppersFrom, Nat.zero_add, h hs w₁]

theorem assignSlot_frame {η ω : Type} (hoppers hs : List (Option η)) (i : Nat) (made : η × ω)
    (w₁ : ω) (h : assignSlot hoppers i made = some (hs, w₁)) (k : Nat) (hk : k ≠ i) :
    hs.getD k none = hoppers.getD k none := by
  unfold assignSlot at h
  split_ifs at h
  simp only [Option.some.injEq, Prod.mk.injEq] at h
  rw [← h.1]
  exact getD_set_of_ne _ _ _ _ _ (fun e => hk e.symm)

/-- The loop body for the entry at index `i` leaves every other slot as it is. -/
theorem buildHopper_frame {η ω : Type} (mk : HopperMakers η ω) (allCards dfcCards : CardSet)
    (i : Nat) (hopdef : HopperDef) (hoppers hs : List (Option η)) (w w₁ : ω)
    (h : buildHopper mk allCards dfcCards i hopdef hoppers w = some (hs, w₁))
    (k : Nat) (hk : k ≠ i) : hs.getD k none = hoppers.getD k none := by
  unfold buildHopper at h
  by_cases h1 : hopdef.Kind = "BasicLandHopper"
  · rw [if_pos h1] at h
    exact assignSlot_frame _ _ _ _ _ h k hk
  rw [if_neg h1] at h
  by_cases h2 : hopdef.Kind = "Pointer"
  · rw [if_pos h2] at h
    cases hr : refSlot hopdef 0 with
    | none => rw [hr] at h; simp at h
    | some r =>
      rw [hr] at h
      simp only [] at h
      split_ifs at h
      simp only [Option.some.injEq, Prod.mk.injEq] at h
      rw [← h.1]
      exact getD_set_of_ne _ _ _ _ _ (fun e => hk e.symm)
  rw [if_neg h2] at h
  by_cases h3 : hopdef.Kind = "FoilHopper"
  · rw [if_pos h3] at h
    cases hr₀ : refSlot hopdef 0 with
    | none => rw [hr₀] at h; simp at h
    | some r₀ =>
      cases hr₁ : refSlot hopdef 1 with
      | none => rw [hr₀, hr₁] at h; simp at h
      | some r₁ =>
        cases hr₂ : refSlot hopdef 2 with
        | none => rw [hr₀, hr₁, hr₂] at h; simp at h
        | some r₂ =>
          rw [hr₀, hr₁, hr₂] at h
          exact assignSlot_frame _ _ _ _ _ h k hk
  rw [if_neg h3] at h
  cases ha : normalHopperArgs allCards dfcCards hopdef.Kind with
  | none =>
    rw [ha] at h
    simp only [Option.some.injEq, Prod.mk.injEq] at h
    rw [← h.1]
  | some args =>
    obtain ⟨refillable, lists⟩ := args
    rw [ha] at h
    exact assignSlot_frame _ _ _ _ _ h k hk

/-- The build of the entries before index `i + n` leaves the slots from
`i + n` on as the previous build left them. -/
theorem resetHoppersFrom_frame {η ω : Type} (mk : HopperMakers η ω)
    (allCards dfcCards : CardSet) (defs : List HopperDef) (i : Nat)
    (hoppers hs : List (Option η)) (w w₁ : ω)
    (h : resetHoppersFrom mk allCards dfcCards i defs hoppers w = some (hs, w₁))
    (k : Nat) (hk : i + defs.length ≤ k) : hs.getD k none = hoppers.getD k none := by
  induction defs generalizing i hoppers w with
  | nil =>
    simp only [resetHoppersFrom, Option.some.injEq, Prod.mk.injEq] at h
    rw [← h.1]
  | cons d rest ih =>
    rw [resetHoppersFrom_cons] at h
    cases hb : buildHopper mk allCards dfcCards i d hoppers w with
    | none => rw [hb] at h; simp at h
    | some r =>
      obtain ⟨hs₁, w₂⟩ := r
      rw [hb] at h
      simp only [] at h
      simp only [List.length_cons] at hk
      rw [ih (i + 1) hs₁ w₂ h (by omega)]
      exact buildHopper_frame mk allCards dfcCards i d hoppers hs₁ w w₂ hb k (by omega)

/-- C17, as amended. `resetHoppers` makes no check of its own on references.
A `Pointer` or `FoilHopper` entry with a reference that is missing or out of
range (`r < 0` or `r > 14`) stops the build with a run-time panic. A
reference in range is accepted whether or not it points to an earlier slot:
a `Pointer` slot `i` is given whatever slot `r` holds at that moment, which
for `r ≥ i` is what the previous build left there, and a `FoilHopper` is
built on the three slots named. -/
theorem resetHoppers_references {η ω : Type} (mk : HopperMakers η ω)
    (allCards dfcCards : CardSet) (pre rest : List HopperDef) (d : HopperDef)
    (hoppers : List (Option η)) (w : ω) :
    ((d.Kind = "Pointer" ∧ (∀ r, d.Refs[0]? = some r → r < 0 ∨ 14 < r)
        ∨ d.Kind = "FoilHopper" ∧ ∃ k < 3, ∀ r, d.Refs[k]? = some r → r < 0 ∨ 14 < r) →
      resetHoppers mk allCards dfcCards (pre ++ d :: rest) hoppers w = none)
    ∧ (∀ (hs : List (Option η)) (w₁ : ω),
        resetHoppers mk allCards dfcCards pre hoppers w = some (hs, w₁) → pre.length < 15 →
        (∀ k, pre.length ≤ k → hs.getD k none = hoppers.getD k none)
        ∧ (∀ r, d.Kind = "Pointer" → d.Refs[0]? = some r → 0 ≤ r → r ≤ 14 →
            buildHopper mk allCards dfcCards pre.length d hs w₁
              = some (hs.set pre.length (hs.getD r.toNat none), w₁))
        ∧ (∀ r₀ r₁ r₂, d.Kind = "FoilHopper" →
            d.Refs[0]? = some r₀ → d.Refs[1]? = some r₁ → d.Refs[2]? = some r₂ →
            0 ≤ r₀ → r₀ ≤ 14 → 0 ≤ r₁ → r₁ ≤ 14 → 0 ≤ r₂ → r₂ ≤ 14 →
            buildHopper mk allCards dfcCards pre.length d hs w₁
              = some (hs.set pre.length (some (mk.MakeFoilHopper r₀.toNat r₁.toNat r₂.toNat
                    (foilLists allCards) w₁).1),
                  (mk.MakeFoilHopper r₀.toNat r₁.toNat r₂.toNat
                    (foilLists allCards) w₁).2))) := by
  refine ⟨?_, ?_⟩
  · intro hbad
    apply resetHoppers_eq_none
    intro hs w₁
    rcases hbad with ⟨hk, hr⟩ | ⟨hk, k, hk3, hr⟩
    · rw [buildHopper_pointer mk allCards dfcCards _ d hs w₁ hk, refSlot_eq_none d 0 hr]
    · rw [buildHopper_foil mk allCards dfcCards _ d hs w₁ hk]
      have hnone := refSlot_eq_none d k hr
      have hk' : k = 0 ∨ k = 1 ∨ k = 2 := by omega
      rcases hk' with rfl | rfl | rfl
      · rw [hnone]
      · rw [hnone]
        cases refSlot d 0 <;> rfl
      · rw [hnone]
        cases refSlot d 0 <;> cases refSlot d 1 <;> rfl
  · intro hs w₁ hpre hlt
    refine ⟨?_, ?_, ?_⟩
    · intro k hk
      exact resetHoppersFrom_frame mk allCards dfcCards pre 0 hoppers hs w w₁ hpre k
        (by omega)
    · intro r hk hr h0 h14
      rw [buildHopper_pointer mk allCards dfcCards _ d hs w₁ hk, refSlot_eq_some d 0 r hr h0 h14]
      simp only [hlt, if_true]
    · intro r₀ r₁ r₂ hk hr₀ hr₁ hr₂ h0 h0' h1 h1' h2 h2'
      rw [buildHopper_foil mk allCards dfcCards _ d hs w₁ hk, refSlot_eq_some d 0 r₀ hr₀ h0 h0',
        refSlot_eq_some d 1 r₁ hr₁ h1 h1', refSlot_eq_some d 2 r₂ hr₂ h2 h2']
      simp only [assignSlot, hlt, if_true]

/-- C17, as amended, at a `Pointer` entry with the reference 15 after two
`CubeHopper` entries: the build panics. -/
theorem resetHoppers_references_witness :
    resetHoppers countingMakers CardSet.empty CardSet.empty
      (List.replicate 2 { Kind := "CubeHopper", Refs := [] }
        ++ { Kind := "Pointer", Refs := [15] } :: List.replicate 12 { Kind := "CubeHopper", Refs := [] })
      (List.replicate 15 none) 0 = none :=
  (resetHoppers_references countingMakers CardSet.empty CardSet.empty
    (List.replicate 2 { Kind := "CubeHopper", Refs := [] })
    (List.replicate 12 { Kind := "CubeHopper", Refs := [] })
    { Kind := "Pointer", Refs := [15] } (List.replicate 15 none) 0).1
    (Or.inl ⟨rfl, by intro r hr; simp at hr; omega⟩)

/-- C17 as stated fails. In a list of 15 entries, a `Pointer` at position 0
with the reference 1 (a later slot) or 0 (itself) does not stop the build:
it ends normally and leaves slot 0 nil. A `FoilHopper` at position 0 with the
references 1, 2, 3 does not stop it either: slot 0 gets a hopper. -/
theorem resetHoppers_accepts_forward_reference :
    ({ Kind := "Pointer", Refs := [1] } :: fourteenCubes).length = 15
    ∧ resetHoppers countingMakers CardSet.empty CardSet.empty
        ({ Kind := "Pointer", Refs := [1] } :: fourteenCubes) (List.replicate 15 none) 0
      = some (none :: (List.range 14).map some, 14)
    ∧ resetHoppers countingMakers CardSet.empty CardSet.empty
        ({ Kind := "Pointer", Refs := [0] } :: fourteenCubes) (List.replicate 15 none) 0
      = some (none :: (List.range 14).map some, 14)
    ∧ resetHoppers countingMakers CardSet.empty CardSet.empty
        ({ Kind := "FoilHopper", Refs := [1, 2, 3] } :: fourteenCubes) (List.replicate 15 none) 0
      = some ((List.range 15).map some, 15) :=
  ⟨rfl, by decide, by decide, by decide⟩

/-! ### The order in which the counts are read out -/

theorem abortMissing_perm (flag passes : Bool) {colors colors' : List ℚ}
    (h : colors'.Perm colors) :
    (abortMissing flag passes colors').map (fun x => (x.1, stdev x.2))
      = (abortMissing flag passes colors).map (fun x => (x.1, stdev x.2)) := by
  simp only [abortMissing_eq, h.length_eq]
  split_ifs
  · simp only [Option.map_some', Option.some.injEq, Prod.mk.injEq, true_and]
    exact stdev_perm (h.append_right _)
  · rfl
  · simp only [Option.map_some', Option.some.injEq, Prod.mk.injEq, true_and]
    exact stdev_perm h

/-- The end of `okPack` gives the same result on the counts read out of the
two maps in any order. -/
theorem okPackVerdict_perm (s : Settings) (passes : Bool)
    {colors colors' colorIdentities colorIdentities' : List ℚ} (ratings : List ℚ)
    (hc : colors'.Perm colors) (hi : colorIdentities'.Perm colorIdentities) :
    okPackVerdict s passes colors' colorIdentities' ratings
      = okPackVerdict s passes colors colorIdentities ratings := by
  have h1 := abortMissing_perm s.AbortMissingCommonColor passes hc
  unfold okPackVerdict
  cases ha : abortMissing s.AbortMissingCommonColor passes colors with
  | none =>
    rw [ha] at h1
    cases ha' : abortMissing s.AbortMissingCommonColor passes colors' with
    | none => rfl
    | some x => rw [ha'] at h1; simp at h1
  | some x =>
    obtain ⟨p, cs⟩ := x
    rw [ha] at h1
    cases ha' : abortMissing s.AbortMissingCommonColor passes colors' with
    | none => rw [ha'] at h1; simp at h1
    | some x' =>
      obtain ⟨p', cs'⟩ := x'
      rw [ha'] at h1
      simp only [Option.map_some', Option.some.injEq, Prod.mk.injEq] at h1
      obtain ⟨hp, hs⟩ := h1
      subst hp
      simp only []
      have h2 := abortMissing_perm s.AbortMissingCommonColorIdentity p' hi
      cases hb : abortMissing s.AbortMissingCommonColorIdentity p' colorIdentities with
      | none =>
        rw [hb] at h2
        cases hb' : abortMissing s.AbortMissingCommonColorIdentity p' colorIdentities' with
        | none => rfl
        | some y => rw [hb'] at h2; simp at h2
      | some y =>
        obtain ⟨q, ds⟩ := y
        rw [hb] at h2
        cases hb' : abortMissing s.AbortMissingCommonColorIdentity p' colorIdentities' with
        | none => rw [hb'] at h2; simp at h2
        | some y' =>
          obtain ⟨q', ds'⟩ := y'
          rw [hb'] at h2
          simp only [Option.map_some', Option.some.injEq, Prod.mk.injEq] at h2
          obtain ⟨hq, ht⟩ := h2
          subst hq
          simp only [hs, ht]

/-- The end of `okDraft` gives the same result on the counts read out of the
two maps in any order. -/
theorem okDraftVerdict_perm (s : Settings) (passes : Bool)
    {colors colors' colorIdentities colorIdentities' : List ℚ}
    (hc : colors'.Perm colors) (hi : colorIdentities'.Perm colorIdentities) :
    okDraftVerdict s passes colors' colorIdentities'
      = okDraftVerdict s passes colors colorIdentities := by
  unfold okDraftVerdict
  rw [stdev_perm hc, stdev_perm hi]

/-- C21. In exact arithmetic `mean` and `stdev` do not change under a
permutation of their input; on a non-empty list `mean` is the sum over the
length and `stdev` is the non-negative square root of the mean of the squared
deviations from that mean; so `okPack` and `okDraft` return the same verdict
whatever the order in which the counts are read out of the tally maps. -/
theorem stats_order_independent (s : Settings) (pack : Pack) (packs : Draft) :
    (∀ l l' : List ℚ, l'.Perm l → mean l' = mean l ∧ stdev l' = stdev l)
    ∧ (∀ l : List ℚ, l ≠ [] →
        mean l = some (l.sum / (l.length : ℚ))
        ∧ stdev l = some ⟨popVariance l⟩
        ∧ 0 ≤ popVariance l
        ∧ ∀ t : ℚ, stdevGt (stdev l) t = true
            ↔ (t : ℝ) < Real.sqrt ((popVariance l : ℚ) : ℝ))
    ∧ (∀ colors colorIdentities : List ℚ,
        colors.Perm (okPackLoop s pack).colorHash.values →
        colorIdentities.Perm (okPackLoop s pack).colorIdentityHash.values →
        okPackVerdict s (okPackLoop s pack).passes colors colorIdentities
            (okPackLoop s pack).ratings
          = okPack s pack)
    ∧ (∀ colors colorIdentities : List ℚ,
        colors.Perm (okDraftLoop s packs).colorHash.values →
        colorIdentities.Perm (okDraftLoop s packs).colorIdentityHash.values →
        okDraftVerdict s (okDraftLoop s packs).passes colors colorIdentities
          = okDraft s packs) := by
  refine ⟨fun l l' h => ⟨mean_perm h, stdev_perm h⟩, fun l hl => ?_, ?_, ?_⟩
  · refine ⟨mean_eq l hl, stdev_eq l hl, popVariance_nonneg l, fun t => ?_⟩
    rw [stdev_eq l hl]
    exact Root.gt_iff ⟨popVariance l⟩ t
  · intro colors colorIdentities hc hi
    exact okPackVerdict_perm s _ _ hc hi
  · intro colors colorIdentities hc hi
    exact okDraftVerdict_perm s _ hc hi

/-- C21 at the counts 3, 1, 1 read in two orders, and at `packThreeColors`
under the cap 9/10 with its colour counts read in reverse. -/
theorem stats_order_independent_witness :
    mean [1, 3, 1] = mean [3, 1, 1]
    ∧ stdev [1, 3, 1] = stdev [3, 1, 1]
    ∧ stdev [3, 1, 1] = some ⟨8 / 9⟩
    ∧ okPackVerdict { noRules with PackCommonColorStdevMax := 9 / 10 }
        (okPackLoop { noRules with PackCommonColorStdevMax := 9 / 10 } packThreeColors).passes
        (okPackLoop { noRules with PackCommonColorStdevMax := 9 / 10 }
          packThreeColors).colorHash.values.reverse
        (okPackLoop { noRules with PackCommonColorStdevMax := 9 / 10 }
          packThreeColors).colorIdentityHash.values.reverse
        (okPackLoop { noRules with PackCommonColorStdevMax := 9 / 10 } packThreeColors).ratings
      = okPack { noRules with PackCommonColorStdevMax := 9 / 10 } packThreeColors :=
  ⟨((stats_order_independent noRules [] []).1 [3, 1, 1] [1, 3, 1] (by decide!)).1,
    ((stats_order_independent noRules [] []).1 [3, 1, 1] [1, 3, 1] (by decide!)).2,
    by decide!,
    (stats_order_independent { noRules with PackCommonColorStdevMax := 9 / 10 }
      packThreeColors []).2.2.1 _ _ (List.reverse_perm _) (List.reverse_perm _)⟩

/-! ### The pack ids of `generateEmptyDraft` -/

theorem insertPacksLog_fst {δ ρ : Type} (tx : Tx δ ρ) (seatIds : List Int)
    (pairs : List (Nat × Nat)) (packIds : List Int) (db : δ) :
    (insertPacksLog tx seatIds pairs packIds db).1 = insertPacks tx seatIds pairs packIds db := by
  induction pairs generalizing packIds db with
  | nil => rfl
  | cons p rest ih =>
    obtain ⟨i, j⟩ := p
    simp only [insertPacksLog, insertPacks]
    rcases h : tx.exec "INSERT INTO packs (seat, original_seat, round) VALUES (?, ?, ?)"
        [SqlArg.int (seatIds.getD i 0), SqlArg.int (seatIds.getD i 0), SqlArg.int j] db
      with ⟨_ | res, db1⟩
    · rfl
    · simp only []
      by_cases hj : j ≠ 0
      · rw [if_pos hj, if_pos hj]
        by_cases he : (tx.lastInsertId res).2 = true
        · rw [if_pos he, if_pos he]
        · rw [if_neg he, if_neg he]
          exact ih _ _
      · rw [if_neg hj, if_neg hj]
        exact ih _ _

theorem generateEmptyDraftLog_fst {δ ρ : Type} (tx : Tx δ ρ) (name : String) (db : δ) :
    (generateEmptyDraftLog tx name db).1 = generateEmptyDraft tx name db := by
  unfold generateEmptyDraftLog generateEmptyDraft
  rcases h : tx.exec "INSERT INTO drafts (name) VALUES (?);" [SqlArg.text name] db
    with ⟨_ | res, db1⟩
  · rfl
  · simp only []
    by_cases he : (tx.lastInsertId res).2 = true
    · rw [if_pos he, if_pos he]
    · rw [if_neg he, if_neg he]
      rcases h3 : insertSeats tx (tx.lastInsertId res).1 (List.range 8) (List.replicate 8 0) db1
        with ⟨_ | seatIds, db2⟩
      · rfl
      · exact insertPacksLog_fst tx seatIds seatRounds _ db2

/-- A run of the pack loops that ends without an error made one assignment
for each pair of the loops with a round other than 0, in the order of the
loops, at the index `3 * i + (j - 1)`, of the id of the row inserted for that
pair; the array returned is the array at the start with those assignments
made. -/
theorem insertPacksLog_ok {δ ρ : Type} (tx : Tx δ ρ) (seatIds : List Int)
    (pairs : List (Nat × Nat)) (packIds : List Int) (db : δ)
    (h : (insertPacksLog tx seatIds pairs packIds db).1.1.2 = false) :
    (insertPacksLog tx seatIds pairs packIds db).2.map (fun s => (s.seat, s.round))
        = pairs.filter (fun p => decide (p.2 ≠ 0))
    ∧ (∀ s ∈ (insertPacksLog tx seatIds pairs packIds db).2,
        s.index = 3 * s.seat + (s.round - 1) ∧ s.id = (tx.lastInsertId s.res).1
        ∧ ∃ db0, (tx.exec "INSERT INTO packs (seat, original_seat, round) VALUES (?, ?, ?)"
            [SqlArg.int (seatIds.getD s.seat 0), SqlArg.int (seatIds.getD s.seat 0),
             SqlArg.int s.round] db0).1 = some s.res)
    ∧ (insertPacksLog tx seatIds pairs packIds db).1.1.1
        = (insertPacksLog tx seatIds pairs packIds db).2.foldl
            (fun P s => P.set s.index s.id) packIds := by
  induction pairs generalizing packIds db with
  | nil => exact ⟨rfl, fun s hs => absurd hs (List.not_mem_nil s), rfl⟩
  | cons p rest ih =>
    obtain ⟨i, j⟩ := p
    simp only [insertPacksLog] at h ⊢
    revert h
    rcases hx : tx.exec "INSERT INTO packs (seat, original_seat, round) VALUES (?, ?, ?)"
        [SqlArg.int (seatIds.getD i 0), SqlArg.int (seatIds.getD i 0), SqlArg.int j] db
      with ⟨_ | res, db1⟩
    · intro h
      simp at h
    · simp only []
      by_cases hj : j ≠ 0
      · rw [if_pos hj]
        by_cases he : (tx.lastInsertId res).2 = true
        · rw [if_pos he]
          intro h
          simp at h
        · rw [if_neg he]
          intro h
          obtain ⟨h1, h2, h3⟩ := ih _ _ h
          refine ⟨?_, ?_, ?_⟩
          · simp only [List.map_cons, h1]
            rw [List.filter_cons_of_pos (by simpa using hj)]
          · intro s hs
            rcases List.mem_cons.1 hs with rfl | hs
            · exact ⟨rfl, rfl, db, by rw [hx]⟩
            · exact h2 s hs
          · simp only [List.foldl_cons]
            exact h3
      · rw [if_neg hj]
        intro h
        obtain ⟨h1, h2, h3⟩ := ih _ _ h
        refine ⟨?_, h2, h3⟩
        rw [h1, List.filter_cons_of_neg (by simpa using hj)]

theorem insertPacks_length {δ ρ : Type} (tx : Tx δ ρ) (seatIds : List Int)
    (pairs : List (Nat × Nat)) (packIds : List Int) (db : δ) :
    (insertPacks tx seatIds pairs packIds db).1.1.length = packIds.length := by
  induction pairs generalizing packIds db with
  | nil => rfl
  | cons p rest ih =>
    obtain ⟨i, j⟩ := p
    simp only [insertPacks]
    rcases hx : tx.exec "INSERT INTO packs (seat, original_seat, round) VALUES (?, ?, ?)"
        [SqlArg.int (seatIds.getD i 0), SqlArg.int (seatIds.getD i 0), SqlArg.int j] db
      with ⟨_ | res, db1⟩
    · rfl
    · simp only []
      by_cases hj : j ≠ 0
      · rw [if_pos hj]
        by_cases he : (tx.lastInsertId res).2 = true
        · rw [if_pos he]
          exact List.length_set _ _ _
        · rw [if_neg he, ih]
          exact List.length_set _ _ _
      · rw [if_neg hj]
        exact ih _ _

/-- The array that `generateEmptyDraft` returns has 24 entries. -/
theorem generateEmptyDraft_length {δ ρ : Type} (tx : Tx δ ρ) (name : String) (db : δ) :
    (generateEmptyDraft tx name db).1.1.length = 24 := by
  unfold generateEmptyDraft
  rcases h : tx.exec "INSERT INTO drafts (name) VALUES (?);" [SqlArg.text name] db
    with ⟨_ | res, db1⟩
  · exact List.length_replicate _ _
  · simp only []
    by_cases he : (tx.lastInsertId res).2 = true
    · rw [if_pos he]
      exact List.length_replicate _ _
    · rw [if_neg he]
      rcases h3 : insertSeats tx (tx.lastInsertId res).1 (List.range 8) (List.replicate 8 0) db1
        with ⟨_ | seatIds, db2⟩
      · exact List.length_replicate _ _
      · simp only []
        rw [insertPacks_length]
        exact List.length_replicate _ _

theorem insertSeats_succeeds {δ ρ : Type} (tx : Tx δ ρ) (hs : tx.Succeeds) (draftID : Int)
    (l : List Nat) (seatIds : List Int) (db : δ) :
    (insertSeats tx draftID l seatIds db).1 ≠ none := by
  induction l generalizing seatIds db with
  | nil => simp [insertSeats]
  | cons i rest ih =>
    simp only [insertSeats]
    have hx := hs.1 "INSERT INTO seats (position, draft) VALUES (?, ?)"
      [SqlArg.int i, SqlArg.int draftID] db
    revert hx
    rcases tx.exec "INSERT INTO seats (position, draft) VALUES (?, ?)"
        [SqlArg.int i, SqlArg.int draftID] db with ⟨_ | res, db1⟩
    · intro hx
      exact absurd rfl hx
    · intro _
      simp only []
      rw [if_neg (by rw [hs.2 res]; exact Bool.false_ne_true)]
      exact ih _ _

theorem insertPacks_succeeds {δ ρ : Type} (tx : Tx δ ρ) (hs : tx.Succeeds) (seatIds : List Int)
    (pairs : List (Nat × Nat)) (packIds : List Int) (db : δ) :
    (insertPacks tx seatIds pairs packIds db).1.2 = false := by
  induction pairs generalizing packIds db with
  | nil => rfl
  | cons p rest ih =>
    obtain ⟨i, j⟩ := p
    simp only [insertPacks]
    have hx := hs.1 "INSERT INTO packs (seat, original_seat, round) VALUES (?, ?, ?)"
        [SqlArg.int (seatIds.getD i 0), SqlArg.int (seatIds.getD i 0), SqlArg.int j] db
    revert hx
    rcases tx.exec "INSERT INTO packs (seat, original_seat, round) VALUES (?, ?, ?)"
        [SqlArg.int (seatIds.getD i 0), SqlArg.int (seatIds.getD i 0), SqlArg.int j] db
      with ⟨_ | res, db1⟩
    · intro hx
      exact absurd rfl hx
    · intro _
      simp only []
      by_cases hj : j ≠ 0
      · rw [if_pos hj, if_neg (by rw [hs.2 res]; exact Bool.false_ne_true)]
        exact ih _ _
      · rw [if_neg hj]
        exact ih _ _

/-- With a transaction on which every statement succeeds, `generateEmptyDraft`
returns without an error. -/
theorem generateEmptyDraft_succeeds {δ ρ : Type} (tx : Tx δ ρ) (hs : tx.Succeeds)
    (name : String) (db : δ) : (generateEmptyDraft tx name db).1.2 = false := by
  unfold generateEmptyDraft
  have hx := hs.1 "INSERT INTO drafts (name) VALUES (?);" [SqlArg.text name] db
  revert hx
  rcases tx.exec "INSERT INTO drafts (name) VALUES (?);" [SqlArg.text name] db
    with ⟨_ | res, db1⟩
  · intro hx
    exact absurd rfl hx
  · intro _
    simp only []
    rw [if_neg (by rw [hs.2 res]; exact Bool.false_ne_true)]
    have h3 := insertSeats_succeeds tx hs (tx.lastInsertId res).1 (List.range 8)
      (List.replicate 8 0) db1
    revert h3
    rcases insertSeats tx (tx.lastInsertId res).1 (List.range 8) (List.replicate 8 0) db1
      with ⟨_ | seatIds, db2⟩
    · intro h3
      exact absurd rfl h3
    · intro _
      exact insertPacks_succeeds tx hs seatIds seatRounds _ db2

theorem getD_foldl_set_of_not_mem {ρ : Type} (stores : List (PackStore ρ)) (P : List Int)
    (k : Nat) (hk : k ∉ stores.map (fun s => s.index)) :
    (stores.foldl (fun P s => P.set s.index s.id) P).getD k 0 = P.getD k 0 := by
  induction stores generalizing P with
  | nil => rfl
  | cons a rest ih =>
    simp only [List.map_cons, List.mem_cons, not_or] at hk
    rw [List.foldl_cons, ih _ hk.2]
    exact getD_set_of_ne P a.index k a.id 0 (fun e => hk.1 e.symm)

theorem length_foldl_set {ρ : Type} (stores : List (PackStore ρ)) (P : List Int) :
    (stores.foldl (fun P s => P.set s.index s.id) P).length = P.length := by
  induction stores generalizing P with
  | nil => rfl
  | cons a rest ih => rw [List.foldl_cons, ih, List.length_set]

/-- After assignments at indices that are all different, the entry at the
index of one of them is the id it stored. -/
theorem getD_foldl_set {ρ : Type} (stores : List (PackStore ρ)) (P : List Int)
    (s : PackStore ρ) (hs : s ∈ stores) (hnd : (stores.map (fun s => s.index)).Nodup)
    (hlt : s.index < P.length) :
    (stores.foldl (fun P s => P.set s.index s.id) P).getD s.index 0 = s.id := by
  induction stores generalizing P with
  | nil => exact absurd hs (List.not_mem_nil s)
  | cons a rest ih =>
    rw [List.map_cons, List.nodup_cons] at hnd
    rw [List.foldl_cons]
    rcases List.mem_cons.1 hs with rfl | hs
    · rw [getD_foldl_set_of_not_mem rest _ _ hnd.1]
      exact getD_set_self P s.index s.id 0 hlt
    · exact ih _ hs hnd.2 (by rw [List.length_set]; exact hlt)

theorem seatRounds_indices :
    (seatRounds.filter (fun p => decide (p.2 ≠ 0))).map (fun p => 3 * p.1 + (p.2 - 1))
      = List.range 24 := by
  decide

theorem seatRounds_bounds :
    ∀ p ∈ seatRounds.filter (fun p => decide (p.2 ≠ 0)), p.1 < 8 ∧ 1 ≤ p.2 ∧ p.2 ≤ 3 := by
  decide

/-! ### float64 arithmetic -/

theorem log2Aux_spec (fuel n : ℕ) (h1 : n ≤ fuel) (h0 : n ≠ 0) :
    2 ^ Float64.log2Aux fuel n ≤ n ∧ n < 2 ^ (Float64.log2Aux fuel n + 1) := by
  induction fuel generalizing n with
  | zero => omega
  | succ fuel ih =>
    unfold Float64.log2Aux
    split_ifs with h2
    · have h := ih (n / 2) (by omega) (by omega)
      rw [pow_succ] at h
      rw [pow_succ, pow_succ]
      omega
    · simp
      omega

/-- The function `log2` gives the position of the leading bit. -/
theorem log2_spec (n : ℕ) (h0 : n ≠ 0) :
    2 ^ Float64.log2 n ≤ n ∧ n < 2 ^ (Float64.log2 n + 1) :=
  log2Aux_spec n n le_rfl h0

theorem ilog2_natCast (n : ℕ) (h0 : n ≠ 0) :
    Float64.ilog2 (n : ℚ) = (Float64.log2 n : ℤ) := by
  unfold Float64.ilog2
  have h1 : Float64.log2 1 = 0 := rfl
  simp only [Rat.num_natCast, Rat.den_natCast, Int.natAbs_ofNat, h1, Nat.cast_zero, sub_zero]
  rw [if_pos]
  rw [zpow_natCast, abs_of_nonneg (by positivity)]
  exact_mod_cast (log2_spec n h0).1

theorem roundEven_intCast (z : ℤ) : Float64.roundEven (z : ℚ) = z := by
  unfold Float64.roundEven
  simp

/-- A natural number below `2 ^ 53` is a float64 value. -/
theorem nearest_natCast (n : ℕ) (h : n < 2 ^ 53) :
    Float64.nearest (n : ℚ) = Float64.fin n := by
  by_cases h0 : n = 0
  · subst h0
    simp [Float64.nearest]
  unfold Float64.nearest
  rw [if_neg (by exact_mod_cast h0)]
  have hl := log2_spec n h0
  have hk : Float64.log2 n ≤ 52 := by
    by_contra hc
    have : 2 ^ 53 ≤ 2 ^ Float64.log2 n := Nat.pow_le_pow_right (by norm_num) (by omega)
    omega
  rw [ilog2_natCast n h0]
  have he : max ((Float64.log2 n : ℤ) - 52) (-1074) = -((52 - Float64.log2 n : ℕ) : ℤ) := by
    omega
  have hr : Float64.roundTo (-((52 - Float64.log2 n : ℕ) : ℤ)) (n : ℚ) = n := by
    unfold Float64.roundTo
    rw [zpow_neg, zpow_natCast, div_inv_eq_mul]
    have hz : ((n : ℚ) * 2 ^ (52 - Float64.log2 n))
        = (((n * 2 ^ (52 - Float64.log2 n) : ℕ) : ℤ) : ℚ) := by
      push_cast
      ring
    rw [hz, roundEven_intCast]
    push_cast
    field_simp
  simp only [he, hr]
  rw [if_neg]
  rw [abs_of_nonneg (by positivity), not_le]
  calc (n : ℚ) < 2 ^ 53 := by exact_mod_cast h
    _ ≤ 2 ^ 1024 := pow_le_pow_right₀ (by norm_num) (by norm_num)

theorem ofNat_eq (n : ℕ) (h : n < 2 ^ 53) : Float64.ofNat n = Float64.fin n :=
  nearest_natCast n h

theorem roundEven_nonneg (x : ℚ) (h : 0 ≤ x) : 0 ≤ Float64.roundEven x := by
  unfold Float64.roundEven
  have hf : 0 ≤ ⌊x⌋ := Int.floor_nonneg.2 h
  simp only []
  split_ifs <;> omega

theorem roundTo_nonneg (e : ℤ) (q : ℚ) (h : 0 ≤ q) : 0 ≤ Float64.roundTo e q := by
  unfold Float64.roundTo
  have h1 : 0 ≤ q / 2 ^ e := div_nonneg h (by positivity)
  have h2 := roundEven_nonneg _ h1
  have h3 : (0 : ℚ) ≤ (Float64.roundEven (q / 2 ^ e) : ℚ) := by exact_mod_cast h2
  exact mul_nonneg h3 (by positivity)

theorem round53_nonneg (q : ℚ) (h : 0 ≤ q) : 0 ≤ Float64.round53 q := by
  unfold Float64.round53
  split_ifs
  · exact le_rfl
  · exact roundTo_nonneg _ q h

theorem nearest_ne_nan (q : ℚ) : Float64.nearest q ≠ Float64.nan := by
  unfold Float64.nearest
  simp only []
  split_ifs <;> simp

theorem nearest_nonneg (q : ℚ) (h : 0 ≤ q) : (Float64.nearest q).NonNeg := by
  unfold Float64.nearest
  simp only []
  split_ifs
  · exact le_rfl
  · simpa [Float64.NonNeg] using h
  · exact roundTo_nonneg _ q h

theorem nonNeg_ne_nan (a : Float64) (h : a.NonNeg) : a ≠ Float64.nan := by
  rintro rfl
  exact h

theorem add_nonNeg (a b : Float64) (ha : a.NonNeg) (hb : b.NonNeg) : (a.add b).NonNeg := by
  cases a with
  | nan => exact absurd ha id
  | inf s =>
    cases b with
    | nan => exact absurd hb id
    | inf t =>
      have hs : s = false := ha
      have ht : t = false := hb
      subst hs ht
      simp [Float64.add, Float64.NonNeg]
    | fin y => exact ha
  | fin x =>
    cases b with
    | nan => exact absurd hb id
    | inf t => exact hb
    | fin y => exact nearest_nonneg _ (add_nonneg ha hb)

theorem pow2_nonNeg (a : Float64) (h : a ≠ Float64.nan) : a.pow2.NonNeg := by
  cases a with
  | nan => exact absurd rfl h
  | inf s => rfl
  | fin x => exact nearest_nonneg _ (round53_nonneg _ (mul_self_nonneg x))

theorem div_fin_nonNeg (a : Float64) (y : ℚ) (ha : a.NonNeg) (hy : 0 < y) :
    (a.div (Float64.fin y)).NonNeg := by
  cases a with
  | nan => exact absurd ha id
  | inf s =>
    have hs : s = false := ha
    subst hs
    simp [Float64.div, Float64.NonNeg, not_lt.2 hy.le]
  | fin x =>
    simp only [Float64.div, if_neg hy.ne']
    exact nearest_nonneg _ (div_nonneg ha hy.le)

theorem div_fin_ne_nan (a : Float64) (y : ℚ) (ha : a ≠ Float64.nan) (hy : y ≠ 0) :
    a.div (Float64.fin y) ≠ Float64.nan := by
  cases a with
  | nan => exact absurd rfl ha
  | inf s => simp [Float64.div]
  | fin x =>
    simp only [Float64.div, if_neg hy]
    exact nearest_ne_nan _

theorem sqrt_ne_nan (a : Float64) (ha : a.NonNeg) : a.sqrt ≠ Float64.nan := by
  cases a with
  | nan => exact absurd ha id
  | inf s =>
    have hs : s = false := ha
    subst hs
    simp [Float64.sqrt]
  | fin x =>
    have hx : ¬ x < 0 := not_lt.2 ha
    simp only [Float64.sqrt, if_neg hx]
    split_ifs
    · simp
    · exact nearest_ne_nan _

theorem add_fin_ne_nan (a : Float64) (y : ℚ) (ha : a ≠ Float64.nan) :
    a.add (Float64.fin y) ≠ Float64.nan := by
  cases a with
  | nan => exact absurd rfl ha
  | inf s => simp [Float64.add]
  | fin x => exact nearest_ne_nan _

theorem sub_fin_ne_nan (y : ℚ) (b : Float64) (hb : b ≠ Float64.nan) :
    (Float64.fin y).sub b ≠ Float64.nan := by
  cases b with
  | nan => exact absurd rfl hb
  | inf s => simp [Float64.sub, Float64.neg, Float64.add]
  | fin x => exact nearest_ne_nan _

theorem foldl_add_fin_ne_nan (l : List ℚ) (a : Float64) (ha : a ≠ Float64.nan) :
    (l.map Float64.fin).foldl (fun sum val => Float64.add sum val) a ≠ Float64.nan := by
  induction l generalizing a with
  | nil => exact ha
  | cons y rest ih => exact ih _ (add_fin_ne_nan a y ha)

/-- The function `mean` does not return NaN on a list of finite values that
is not empty. -/
theorem float_mean_ne_nan (l : List ℚ) (h0 : l ≠ []) (hlen : l.length < 2 ^ 53) :
    Float64.mean (l.map Float64.fin) ≠ Float64.nan := by
  unfold Float64.mean
  simp only [List.length_map]
  rw [ofNat_eq _ hlen]
  apply div_fin_ne_nan
  · exact foldl_add_fin_ne_nan l _ (by simp)
  · exact_mod_cast (List.length_pos.2 h0).ne'

theorem foldl_add_pow2_nonNeg (l : List ℚ) (avg a : Float64) (havg : avg ≠ Float64.nan)
    (ha : a.NonNeg) :
    ((l.map Float64.fin).foldl
      (fun sum val => Float64.add sum (Float64.pow2 (Float64.sub val avg))) a).NonNeg := by
  induction l generalizing a with
  | nil => exact ha
  | cons y rest ih =>
    exact ih _ (add_nonNeg _ _ ha (pow2_nonNeg _ (sub_fin_ne_nan y avg havg)))

/-- The function `stdev` does not return NaN on a list of finite values that
is not empty. -/
theorem float_stdev_ne_nan (l : List ℚ) (h0 : l ≠ []) (hlen : l.length < 2 ^ 53) :
    Float64.stdev (l.map Float64.fin) ≠ Float64.nan := by
  unfold Float64.stdev
  simp only [List.length_map]
  rw [ofNat_eq _ hlen]
  apply sqrt_ne_nan
  apply div_fin_nonNeg
  · exact foldl_add_pow2_nonNeg l _ _ (float_mean_ne_nan l h0 hlen) (le_refl (0 : ℚ))
  · exact_mod_cast List.length_pos.2 h0

theorem float_le_iff_not_gt (a : Float64) (t : ℚ) (ha : a ≠ Float64.nan) :
    a.le t = true ↔ a.gt t = false := by
  cases a with
  | nan => exact absurd rfl ha
  | inf s => cases s <;> simp [Float64.le, Float64.gt]
  | fin x => simp [Float64.le, Float64.gt]

theorem float_ge_iff_not_lt (a : Float64) (t : ℚ) (ha : a ≠ Float64.nan) :
    a.ge t = true ↔ a.lt t = false := by
  cases a with
  | nan => exact absurd rfl ha
  | inf s => cases s <;> simp [Float64.ge, Float64.lt]
  | fin x => simp [Float64.ge, Float64.lt]

theorem float_gt_mono (a : Float64) {t t' : ℚ} (h : t ≤ t') (hgt : a.gt t' = true) :
    a.gt t = true := by
  cases a with
  | nan => exact hgt
  | inf s => exact hgt
  | fin x =>
    simp only [Float64.gt, decide_eq_true_eq] at hgt ⊢
    exact lt_of_le_of_lt h hgt

/-! ### The end of `okPack` in float64 arithmetic -/

theorem float_okPackCaps_false (s : Settings) (colorStdev colorIdentityStdev ratingMean : Float64) :
    Float64.okPackCaps s false colorStdev colorIdentityStdev ratingMean = false := by
  unfold Float64.okPackCaps
  simp

theorem float_okPackCaps_true_iff (s : Settings)
    (colorStdev colorIdentityStdev ratingMean : Float64) :
    Float64.okPackCaps s true colorStdev colorIdentityStdev ratingMean = true
      ↔ ¬ (s.PackCommonColorStdevMax ≠ 0 ∧ colorStdev.gt s.PackCommonColorStdevMax = true)
        ∧ ¬ (s.PackCommonColorIdentityStdevMax ≠ 0
              ∧ colorIdentityStdev.gt s.PackCommonColorIdentityStdevMax = true)
        ∧ ¬ (s.PackCommonRatingMax ≠ 0 ∧ ratingMean.gt s.PackCommonRatingMax = true)
        ∧ ¬ (s.PackCommonRatingMin ≠ 0 ∧ ratingMean.lt s.PackCommonRatingMin = true) := by
  unfold Float64.okPackCaps
  simp only []
  split_ifs <;> simp_all

theorem float_okPackVerdict_eq_some_true_iff (s : Settings) (passes : Bool)
    (colors colorIdentities ratings : List ℚ) :
    Float64.okPackVerdict s passes colors colorIdentities ratings = some true
      ↔ passes = true
        ∧ (s.AbortMissingCommonColor = true → colors.length = 5)
        ∧ (s.AbortMissingCommonColorIdentity = true → colorIdentities.length = 5)
        ∧ Float64.okPackCaps s true (Float64.stdev (colors.map Float64.fin))
            (Float64.stdev (colorIdentities.map Float64.fin))
            (Float64.mean (ratings.map Float64.fin)) = true := by
  unfold Float64.okPackVerdict
  rw [abortMissing_eq]
  by_cases h1 : s.AbortMissingCommonColor = true ∧ colors.length ≠ 5
  · rw [if_pos h1]
    have hno : ¬ (s.AbortMissingCommonColor = true → colors.length = 5) := fun h => h1.2 (h h1.1)
    split_ifs
    · simp only [abortMissing_eq]
      split_ifs <;> simp [float_okPackCaps_false, hno]
    · simp [hno]
  · rw [if_neg h1]
    have hyes : s.AbortMissingCommonColor = true → colors.length = 5 := by
      intro hf
      by_contra hne
      exact h1 ⟨hf, hne⟩
    simp only [abortMissing_eq]
    by_cases h2 : s.AbortMissingCommonColorIdentity = true ∧ colorIdentities.length ≠ 5
    · rw [if_pos h2]
      have hno : ¬ (s.AbortMissingCommonColorIdentity = true → colorIdentities.length = 5) :=
        fun h => h2.2 (h h2.1)
      split_ifs <;> simp [float_okPackCaps_false, hno]
    · rw [if_neg h2]
      have hyes2 : s.AbortMissingCommonColorIdentity = true → colorIdentities.length = 5 := by
        intro hf
        by_contra hne
        exact h2 ⟨hf, hne⟩
      cases passes with
      | false => simp [float_okPackCaps_false]
      | true =>
        simp only [Option.some.injEq, true_and]
        exact ⟨fun h => ⟨hyes, hyes2, h⟩, fun h => h.2.2⟩

/-- The end of `okPack` returns unless a zero-padding loop is entered with
more than five counts, in float64 arithmetic as in exact arithmetic. -/
theorem float_okPackVerdict_returns (s : Settings) (passes : Bool)
    (colors colorIdentities ratings : List ℚ)
    (hc : s.AbortMissingCommonColor = true → colors.length ≤ 5)
    (hi : s.AbortMissingCommonColorIdentity = true → colorIdentities.length ≤ 5) :
    ∃ b, Float64.okPackVerdict s passes colors colorIdentities ratings = some b := by
  unfold Float64.okPackVerdict
  simp only [abortMissing_eq]
  split_ifs with h1 h2 h3 h4 h5 h6
  · exact ⟨_, rfl⟩
  · have := hi h3.1; omega
  · exact ⟨_, rfl⟩
  · have := hc h1.1; omega
  · exact ⟨_, rfl⟩
  · have := hi h5.1; omega
  · exact ⟨_, rfl⟩

theorem float_okPack_eq_some_false (s : Settings) (pack : Pack)
    (colors colorIdentities : List ℚ)
    (hne : Float64.okPack s pack colors colorIdentities ≠ some true)
    (hc : s.AbortMissingCommonColor = true → colors.length ≤ 5)
    (hi : s.AbortMissingCommonColorIdentity = true → colorIdentities.length ≤ 5) :
    Float64.okPack s pack colors colorIdentities = some false := by
  obtain ⟨b, hb⟩ := float_okPackVerdict_returns s (okPackLoop s pack).passes colors
    colorIdentities (okPackLoop s pack).ratings hc hi
  have hb' : Float64.okPack s pack colors colorIdentities = some b := hb
  cases b with
  | false => exact hb'
  | true => exact absurd hb' hne

theorem float_okPack_true_caps (s : Settings) (pack : Pack) (colors colorIdentities : List ℚ)
    (hok : Float64.okPack s pack colors colorIdentities = some true) :
    Float64.okPackCaps s true (Float64.stdev (colors.map Float64.fin))
      (Float64.stdev (colorIdentities.map Float64.fin)) (Float64.meanRating s pack) = true := by
  unfold Float64.okPack at hok
  simp only [] at hok
  rw [float_okPackVerdict_eq_some_true_iff, okPackLoop_ratings, List.map_map] at hok
  exact hok.2.2.2

/-- With the four float64 thresholds of `okPack` at 0 no float64 comparison
is made, and the two embeddings of `okPack` agree on every read-out of the
maps. -/
theorem float_okPack_eq_of_caps_off (s : Settings) (pack : Pack)
    (colors colorIdentities : List ℚ)
    (hc : colors.Perm (okPackLoop s pack).colorHash.values)
    (hi : colorIdentities.Perm (okPackLoop s pack).colorIdentityHash.values)
    (hcs : s.PackCommonColorStdevMax = 0) (hcis : s.PackCommonColorIdentityStdevMax = 0)
    (hmin : s.PackCommonRatingMin = 0) (hmax : s.PackCommonRatingMax = 0) :
    Float64.okPack s pack colors colorIdentities = okPack s pack := by
  unfold Float64.okPack okPack Float64.okPackVerdict okPackVerdict
  simp only [abortMissing_eq, hc.length_eq, hi.length_eq]
  split_ifs <;> simp [Float64.okPackCaps, okPackCaps, hcs, hcis, hmin, hmax]

theorem eligibleCommons_length_le (s : Settings) (pack : Pack) :
    (eligibleCommons s pack).length ≤ pack.length := by
  unfold eligibleCommons eligible
  exact le_trans (List.length_filter_le _ _) (List.length_filter_le _ _)

theorem float_meanRating_ne_nan (s : Settings) (pack : Pack)
    (hne : eligibleCommons s pack ≠ []) (hlen : pack.length < 2 ^ 53) :
    Float64.meanRating s pack ≠ Float64.nan := by
  unfold Float64.meanRating
  have h := float_mean_ne_nan ((eligibleCommons s pack).map Card.Rating)
    (by simpa using hne)
    (by rw [List.length_map]; exact lt_of_le_of_lt (eligibleCommons_length_le s pack) hlen)
  rw [List.map_map] at h
  exact h

/-! ### The rating bounds of `okPack` in float64 arithmetic -/

/-- C12, as amended. The minimum bound is enforced whatever
`PackCommonRatingMax` is: in every evaluation of `okPack`, whatever the two
maps yield, a pack whose float64 mean rating (the value `mean` computes: the
running sum of the ratings of the eligible commons in pack order, each
addition and the division rounded to the nearest float64) is below a nonzero
`PackCommonRatingMin` is not accepted, and is rejected whenever `okPack`
returns. The `else if` leaves the minimum test out only when the maximum test
has already rejected the pack. -/
theorem okPack_rating_min_enforced (s : Settings) (pack : Pack)
    (colors colorIdentities : List ℚ) (hmin : s.PackCommonRatingMin ≠ 0)
    (hlow : (Float64.meanRating s pack).lt s.PackCommonRatingMin = true) :
    Float64.okPack s pack colors colorIdentities ≠ some true
    ∧ ((s.AbortMissingCommonColor = true → colors.length ≤ 5) →
       (s.AbortMissingCommonColorIdentity = true → colorIdentities.length ≤ 5) →
       Float64.okPack s pack colors colorIdentities = some false) := by
  have hno : Float64.okPack s pack colors colorIdentities ≠ some true := by
    intro hok
    have hcaps := float_okPack_true_caps s pack colors colorIdentities hok
    rw [float_okPackCaps_true_iff] at hcaps
    exact hcaps.2.2.2 ⟨hmin, hlow⟩
  exact ⟨hno, fun hc hi => float_okPack_eq_some_false s pack colors colorIdentities hno hc hi⟩

/-- C12, as amended, at `packThreeColors`, whose commons have the float64
mean rating 2, with the minimum 3 and the maximum 5: the pack is rejected. -/
theorem okPack_rating_min_enforced_witness :
    Float64.meanRating ratingBetween3And5 packThreeColors = Float64.fin 2
    ∧ Float64.okPack ratingBetween3And5 packThreeColors [3, 1, 1] [3, 1, 1] = some false :=
  ⟨by decide!,
    (okPack_rating_min_enforced ratingBetween3And5 packThreeColors [3, 1, 1] [3, 1, 1]
      (by decide) (by decide!)).2 (by intro h; exact absurd h (by decide))
      (by intro h; exact absurd h (by decide))⟩

/-- C12 as stated fails: the commons of the 15-card pack `packThreeColors`
are all rated 2 and `mean` returns 2 for them; with the nonzero maximum 5 and
the minimum 3 `okPack` rejects the pack, and with the same maximum and no
minimum it accepts it, so the rejection is on account of the minimum bound.
The colour caps are off, so the order in which the counts 3, 1, 1 are read
out of the maps plays no part. -/
theorem okPack_rejects_on_minimum :
    packThreeColors.length = 15
    ∧ (okPackLoop ratingBetween3And5 packThreeColors).colorHash.values = [3, 1, 1]
    ∧ (okPackLoop ratingBetween3And5 packThreeColors).colorIdentityHash.values = [3, 1, 1]
    ∧ Float64.meanRating ratingBetween3And5 packThreeColors = Float64.fin 2
    ∧ ratingBetween3And5.PackCommonRatingMax = 5
    ∧ ratingBetween3And5.PackCommonRatingMin = 3
    ∧ Float64.okPack ratingBetween3And5 packThreeColors [3, 1, 1] [3, 1, 1] = some false
    ∧ ratingAtMost5 = { ratingBetween3And5 with PackCommonRatingMin := 0 }
    ∧ Float64.okPack ratingAtMost5 packThreeColors [3, 1, 1] [3, 1, 1] = some true :=
  ⟨rfl, by decide!, by decide!, by decide!, rfl, rfl, by decide!, rfl, by decide!⟩

/-- C13, as amended. For every pack with at least one eligible common that
`okPack` accepts, in whatever order the maps were read: the float64 value
that `mean` computes for the ratings of the eligible commons (running sum in
pack order, each addition and the division rounded to the nearest float64) is
not NaN, is at least a nonzero `PackCommonRatingMin` and at most a nonzero
`PackCommonRatingMax`. -/
theorem okPack_accepted_rating_bounds (s : Settings) (pack : Pack)
    (colors colorIdentities : List ℚ)
    (hne : eligibleCommons s pack ≠ []) (hlen : pack.length < 2 ^ 53)
    (hok : Float64.okPack s pack colors colorIdentities = some true) :
    Float64.meanRating s pack ≠ Float64.nan
    ∧ (s.PackCommonRatingMin ≠ 0 →
        (Float64.meanRating s pack).ge s.PackCommonRatingMin = true)
    ∧ (s.PackCommonRatingMax ≠ 0 →
        (Float64.meanRating s pack).le s.PackCommonRatingMax = true) := by
  have hnan := float_meanRating_ne_nan s pack hne hlen
  have hcaps := float_okPack_true_caps s pack colors colorIdentities hok
  rw [float_okPackCaps_true_iff] at hcaps
  obtain ⟨_, _, hmax, hmin⟩ := hcaps
  refine ⟨hnan, fun h0 => ?_, fun h0 => ?_⟩
  · rw [float_ge_iff_not_lt _ _ hnan]
    cases hlt : (Float64.meanRating s pack).lt s.PackCommonRatingMin with
    | false => rfl
    | true => exact absurd ⟨h0, hlt⟩ hmin
  · rw [float_le_iff_not_gt _ _ hnan]
    cases hgt : (Float64.meanRating s pack).gt s.PackCommonRatingMax with
    | false => rfl
    | true => exact absurd ⟨h0, hgt⟩ hmax

/-- C13, as amended, at `packThreeColors` (float64 mean rating 2) with the
minimum 1 and the maximum 3: the pack is accepted and the mean lies between
the bounds. -/
theorem okPack_accepted_rating_bounds_witness :
    Float64.okPack ratingBetween1And3 packThreeColors [3, 1, 1] [3, 1, 1] = some true
    ∧ Float64.meanRating ratingBetween1And3 packThreeColors = Float64.fin 2
    ∧ (Float64.meanRating ratingBetween1And3 packThreeColors).ge
        ratingBetween1And3.PackCommonRatingMin = true
    ∧ (Float64.meanRating ratingBetween1And3 packThreeColors).le
        ratingBetween1And3.PackCommonRatingMax = true :=
  ⟨by decide!, by decide!,
    (okPack_accepted_rating_bounds ratingBetween1And3 packThreeColors [3, 1, 1] [3, 1, 1]
      (by decide) (by decide) (by decide!)).2.1 (by decide!),
    (okPack_accepted_rating_bounds ratingBetween1And3 packThreeColors [3, 1, 1] [3, 1, 1]
      (by decide) (by decide) (by decide!)).2.2 (by decide!)⟩

/-- C13 as stated fails: the three commons of the 15-card pack
`packRatedTenths` are rated 0.1, 0.2 and 0.3 (float64 values); their mean is
below the float64 value 0.2, the minimum of `ratingAtLeastFifth`; yet `mean`
returns 0.20000000000000004, which is not below the minimum, and `okPack`
accepts the pack. The counts read out of the maps are 1, 1, 1 in every
order. -/
theorem okPack_accepts_below_minimum :
    packRatedTenths.length = 15
    ∧ (eligibleCommons ratingAtLeastFifth packRatedTenths).map Card.Rating
        = [3602879701896397 / 36028797018963968, 3602879701896397 / 18014398509481984,
           5404319552844595 / 18014398509481984]
    ∧ (∀ q ∈ [(3602879701896397 / 36028797018963968 : ℚ),
          3602879701896397 / 18014398509481984, 5404319552844595 / 18014398509481984],
        Float64.nearest q = Float64.fin q)
    ∧ ratingAtLeastFifth.PackCommonRatingMin = 3602879701896397 / 18014398509481984
    ∧ meanRating ratingAtLeastFifth packRatedTenths
        < ratingAtLeastFifth.PackCommonRatingMin
    ∧ Float64.meanRating ratingAtLeastFifth packRatedTenths
        = Float64.fin (7205759403792795 / 36028797018963968)
    ∧ (okPackLoop ratingAtLeastFifth packRatedTenths).colorHash.values = [1, 1, 1]
    ∧ (okPackLoop ratingAtLeastFifth packRatedTenths).colorIdentityHash.values = [1, 1, 1]
    ∧ Float64.okPack ratingAtLeastFifth packRatedTenths [1, 1, 1] [1, 1, 1] = some true :=
  ⟨rfl, by decide!, by decide!, rfl, by decide!, by decide!, by decide!, by decide!, by decide!⟩

/-! ### The colour caps of `okPack` in float64 arithmetic -/

theorem dedup_chars_length_lt (l : List Char) : l.dedup.length < 2 ^ 53 := by
  have hinj : Function.Injective (fun c : Char => c.val.toNat) := by
    intro a b h
    exact Char.ext (UInt32.ext h)
  have hnd : (l.dedup.map (fun c : Char => c.val.toNat)).Nodup :=
    (List.nodup_dedup l).map hinj
  have hsub : (l.dedup.map (fun c : Char => c.val.toNat)) ⊆ List.range (2 ^ 32) := by
    intro x hx
    obtain ⟨c, _, rfl⟩ := List.mem_map.1 hx
    exact List.mem_range.2 (UInt32.toNat_lt _)
  have h := (List.subperm_of_subset hnd hsub).length_le
  rw [List.length_map, List.length_range] at h
  calc l.dedup.length ≤ 2 ^ 32 := h
    _ < 2 ^ 53 := by norm_num

theorem perSymbolCounts_length (syms : List Char) :
    (perSymbolCounts syms).length = syms.dedup.length := by
  simp [perSymbolCounts]

/-- The function `stdev` does not return NaN on the counts of a tally in
which a symbol occurs, in whatever order they are read. -/
theorem float_stdev_counts_ne_nan (syms : List Char) (counts : List ℚ)
    (hp : counts.Perm (perSymbolCounts syms)) (hne : syms ≠ []) :
    Float64.stdev (counts.map Float64.fin) ≠ Float64.nan := by
  apply float_stdev_ne_nan
  · intro h0
    rw [h0] at hp
    exact perSymbolCounts_ne_nil syms hne hp.nil_eq.symm
  · rw [hp.length_eq, perSymbolCounts_length]
    exact dedup_chars_length_lt syms

theorem float_okPackColorStdev_eq (s : Settings) (colors : List ℚ) :
    Float64.okPackColorStdev s colors
      = if s.AbortMissingCommonColor = true ∧ colors.length ≠ 5 then
          if colors.length < 5 then
            some (Float64.stdev
              ((colors ++ List.replicate (5 - colors.length) 0).map Float64.fin))
          else none
        else some (Float64.stdev (colors.map Float64.fin)) := by
  unfold Float64.okPackColorStdev
  simp only [abortMissing_eq]
  split_ifs <;> rfl

theorem float_okPackColorIdentityStdev_eq (s : Settings) (colorIdentities : List ℚ) :
    Float64.okPackColorIdentityStdev s colorIdentities
      = if s.AbortMissingCommonColorIdentity = true ∧ colorIdentities.length ≠ 5 then
          if colorIdentities.length < 5 then
            some (Float64.stdev
              ((colorIdentities ++ List.replicate (5 - colorIdentities.length) 0).map
                Float64.fin))
          else none
        else some (Float64.stdev (colorIdentities.map Float64.fin)) := by
  unfold Float64.okPackColorIdentityStdev
  simp only [abortMissing_eq]
  split_ifs <;> rfl

/-- When only the colour cap can be on, `okPack` accepts a pack without
repeated eligible ID exactly when the float64 value of `stdev` on the counts
read out of `colorHash` is not greater than a nonzero cap. -/
theorem float_okPack_of_only_color_cap (s : Settings) (pack : Pack)
    (colors colorIdentities : List ℚ)
    (hcis : s.PackCommonColorIdentityStdevMax = 0)
    (hmin : s.PackCommonRatingMin = 0) (hmax : s.PackCommonRatingMax = 0)
    (hac : s.AbortMissingCommonColor = false) (haci : s.AbortMissingCommonColorIdentity = false)
    (hau : s.AbortDuplicateThreeColorIdentityUncommons = false)
    (hnd : ((eligible s pack).map Card.ID).Nodup) :
    Float64.okPack s pack colors colorIdentities = some true
      ↔ ¬ (s.PackCommonColorStdevMax ≠ 0
            ∧ (Float64.stdev (colors.map Float64.fin)).gt s.PackCommonColorStdevMax = true) := by
  unfold Float64.okPack
  simp only []
  rw [float_okPackVerdict_eq_some_true_iff, float_okPackCaps_true_iff]
  simp [hcis, hmin, hmax, hac, haci, okPackLoop_passes_of_nodup s hau pack hnd]

theorem float_okPack_of_only_colorIdentity_cap (s : Settings) (pack : Pack)
    (colors colorIdentities : List ℚ)
    (hcs : s.PackCommonColorStdevMax = 0)
    (hmin : s.PackCommonRatingMin = 0) (hmax : s.PackCommonRatingMax = 0)
    (hac : s.AbortMissingCommonColor = false) (haci : s.AbortMissingCommonColorIdentity = false)
    (hau : s.AbortDuplicateThreeColorIdentityUncommons = false)
    (hnd : ((eligible s pack).map Card.ID).Nodup) :
    Float64.okPack s pack colors colorIdentities = some true
      ↔ ¬ (s.PackCommonColorIdentityStdevMax ≠ 0
            ∧ (Float64.stdev (colorIdentities.map Float64.fin)).gt
                s.PackCommonColorIdentityStdevMax = true) := by
  unfold Float64.okPack
  simp only []
  rw [float_okPackVerdict_eq_some_true_iff, float_okPackCaps_true_iff]
  simp [hcs, hmin, hmax, hac, haci, okPackLoop_passes_of_nodup s hau pack hnd]

/-- C8, as amended. In an evaluation of `okPack` that reads the counts
`colors` out of `colorHash`, the value compared against
`PackCommonColorStdevMax` is the float64 result of `stdev` on one count per
colour symbol that occurs among the eligible commons, each count at least 1,
in the order read: a colour that does not occur contributes no count. Zeros
are appended, up to five counts, only when `AbortMissingCommonColor` is on
and fewer than five symbols occur, and then the pack is not accepted, and is
rejected when the block on the colour identities ends. A value above a
nonzero cap means the pack is not accepted; with the flag off, every other
rule off and no repeated eligible ID the pack is accepted exactly when the
value is not above a nonzero cap. -/
theorem okPack_color_stdev (s : Settings) (pack : Pack) (colors colorIdentities : List ℚ)
    (hc : colors.Perm (okPackLoop s pack).colorHash.values) :
    colors.Perm (perSymbolCounts (colorSymbols s pack))
    ∧ (∀ x ∈ colors, 1 ≤ x)
    ∧ Float64.okPackColorStdev s colors
        = (if s.AbortMissingCommonColor = true ∧ colors.length ≠ 5 then
            if colors.length < 5 then
              some (Float64.stdev
                ((colors ++ List.replicate (5 - colors.length) 0).map Float64.fin))
            else none
          else some (Float64.stdev (colors.map Float64.fin)))
    ∧ (s.AbortMissingCommonColor = true → colors.length ≠ 5 →
        Float64.okPack s pack colors colorIdentities ≠ some true
        ∧ (colors.length < 5 →
            (s.AbortMissingCommonColorIdentity = true → colorIdentities.length ≤ 5) →
            Float64.okPack s pack colors colorIdentities = some false))
    ∧ (∀ v, Float64.okPackColorStdev s colors = some v → s.PackCommonColorStdevMax ≠ 0 →
        v.gt s.PackCommonColorStdevMax = true →
        Float64.okPack s pack colors colorIdentities ≠ some true)
    ∧ (s.AbortMissingCommonColor = false → s.PackCommonColorIdentityStdevMax = 0 →
        s.PackCommonRatingMin = 0 → s.PackCommonRatingMax = 0 →
        s.AbortMissingCommonColorIdentity = false →
        s.AbortDuplicateThreeColorIdentityUncommons = false →
        ((eligible s pack).map Card.ID).Nodup →
        (Float64.okPack s pack colors colorIdentities = some true
          ↔ ¬ (s.PackCommonColorStdevMax ≠ 0
                ∧ (Float64.stdev (colors.map Float64.fin)).gt
                    s.PackCommonColorStdevMax = true))) := by
  have hp := hc.trans (okPackLoop_colors_perm s pack)
  have hflag : s.AbortMissingCommonColor = true → colors.length ≠ 5 →
      Float64.okPack s pack colors colorIdentities ≠ some true := by
    intro hf hlen hok
    unfold Float64.okPack at hok
    simp only [] at hok
    rw [float_okPackVerdict_eq_some_true_iff] at hok
    exact hlen (hok.2.1 hf)
  refine ⟨hp, fun x hx => one_le_of_mem_perSymbolCounts _ x (hp.subset hx),
    float_okPackColorStdev_eq s colors, fun hf hlen => ⟨hflag hf hlen, fun hlt hci => ?_⟩,
    fun v hv h0 hgt hok => ?_, ?_⟩
  · exact float_okPack_eq_some_false s pack colors colorIdentities (hflag hf hlen)
      (fun _ => hlt.le) hci
  · have hok' := hok
    unfold Float64.okPack at hok
    simp only [] at hok
    rw [float_okPackVerdict_eq_some_true_iff, float_okPackCaps_true_iff] at hok
    rw [float_okPackColorStdev_eq, if_neg (fun h => h.2 (hok.2.1 h.1))] at hv
    rw [Option.some.injEq] at hv
    subst hv
    exact hok.2.2.2.1 ⟨h0, hgt⟩
  · intro hac hcis hmin hmax haci hau hnd
    exact float_okPack_of_only_color_cap s pack colors colorIdentities hcis hmin hmax hac haci
      hau hnd

/-- C8, as amended, at the tally W:3, U:1, B:1 of `packThreeColors` with
every other rule disabled: in each of the three orders of the counts `stdev`
returns 0.9428090415820634, the float64 value nearest to the square root of
8/9; the pack fails under the cap 0.9 and passes under the cap 1. -/
theorem okPack_color_stdev_witness :
    (okPackLoop noRules packThreeColors).colorHash.values = [3, 1, 1]
    ∧ (∀ colors : List ℚ, colors.Perm [3, 1, 1] →
        Float64.okPackColorStdev noRules colors
          = some (Float64.fin (4246034448350515 / 4503599627370496)))
    ∧ Float64.nearest (8106479329266893 / 9007199254740992)
        = Float64.fin (8106479329266893 / 9007199254740992)
    ∧ Float64.okPack
        { noRules with PackCommonColorStdevMax := 8106479329266893 / 9007199254740992 }
        packThreeColors [3, 1, 1] [3, 1, 1] = some false
    ∧ Float64.okPack { noRules with PackCommonColorStdevMax := 1 }
        packThreeColors [3, 1, 1] [3, 1, 1] = some true := by
  have hall : ∀ colors ∈ ([3, 1, 1] : List ℚ).permutations,
      Float64.stdev (colors.map Float64.fin)
        = Float64.fin (4246034448350515 / 4503599627370496) := by decide!
  have hv : (okPackLoop noRules packThreeColors).colorHash.values = [3, 1, 1] := by decide!
  refine ⟨hv, fun colors hp => ?_, by decide!, by decide!, by decide!⟩
  rw [(okPack_color_stdev noRules packThreeColors colors [3, 1, 1]
      (by rw [hv]; exact hp)).2.2.1]
  rw [if_neg (by intro h; exact absurd h.1 (by decide))]
  rw [hall colors (List.mem_permutations.2 hp)]

/-- C8 as stated fails: the eligible commons of the 15-card pack
`packThreeColors` tally W:3, U:1, B:1 and no red or green; on the five counts
3, 1, 1, 0, 0 `stdev` returns 1.0954451150103321 in every order, which
exceeds 1, yet with `PackCommonColorStdevMax = 1` and every other rule
disabled `okPack` accepts the pack, in whatever order it reads the three
counts out of each map. -/
theorem okPack_three_colors_accepted :
    packThreeColors.length = 15
    ∧ (okPackLoop { noRules with PackCommonColorStdevMax := 1 } packThreeColors).colorHash
        = [('W', 3), ('U', 1), ('B', 1)]
    ∧ (okPackLoop { noRules with PackCommonColorStdevMax := 1 }
          packThreeColors).colorIdentityHash = [('W', 3), ('U', 1), ('B', 1)]
    ∧ (∀ l ∈ ([3, 1, 1, 0, 0] : List ℚ).permutations,
        Float64.stdev (l.map Float64.fin)
          = Float64.fin (2466723105882681 / 2251799813685248)
        ∧ (Float64.stdev (l.map Float64.fin)).gt 1 = true)
    ∧ (∀ colors ∈ ([3, 1, 1] : List ℚ).permutations,
        ∀ colorIdentities ∈ ([3, 1, 1] : List ℚ).permutations,
          Float64.okPack { noRules with PackCommonColorStdevMax := 1 } packThreeColors
            colors colorIdentities = some true) :=
  ⟨rfl, by decide!, by decide!, by decide!, by decide!⟩

/-- C9, as amended. In an evaluation of `okPack` that reads the counts
`colors` and `colorIdentities` out of the two maps, the verdict is monotone
in the colour cap: accepted with `PackCommonColorStdevMax = t > 0`, the pack
is accepted with every `t' ≥ t` on the same read-out, the other settings
fixed; and with every other optional rule disabled, no repeated eligible ID
and at least one coloured eligible common, the pack is accepted exactly when
the float64 value that `stdev` returns for the counts in the order read,
which is not NaN, is at most `t`. The same holds for
`PackCommonColorIdentityStdevMax` and the colour-identity tally. -/
theorem okPack_threshold_monotone (s : Settings) (pack : Pack)
    (colors colorIdentities : List ℚ) (t t' : ℚ)
    (hc : colors.Perm (okPackLoop s pack).colorHash.values)
    (hi : colorIdentities.Perm (okPackLoop s pack).colorIdentityHash.values)
    (ht : 0 < t) (htt : t ≤ t') :
    (Float64.okPack { s with PackCommonColorStdevMax := t } pack colors colorIdentities
        = some true →
      Float64.okPack { s with PackCommonColorStdevMax := t' } pack colors colorIdentities
        = some true)
    ∧ (colorSymbols s pack ≠ [] → s.PackCommonColorIdentityStdevMax = 0 →
        s.PackCommonRatingMin = 0 → s.PackCommonRatingMax = 0 →
        s.AbortMissingCommonColor = false → s.AbortMissingCommonColorIdentity = false →
        s.AbortDuplicateThreeColorIdentityUncommons = false →
        ((eligible s pack).map Card.ID).Nodup →
        Float64.okPackColorStdev { s with PackCommonColorStdevMax := t } colors
          = some (Float64.stdev (colors.map Float64.fin))
        ∧ Float64.stdev (colors.map Float64.fin) ≠ Float64.nan
        ∧ (Float64.okPack { s with PackCommonColorStdevMax := t } pack colors colorIdentities
            = some true
          ↔ (Float64.stdev (colors.map Float64.fin)).le t = true))
    ∧ (Float64.okPack { s with PackCommonColorIdentityStdevMax := t } pack colors
          colorIdentities = some true →
      Float64.okPack { s with PackCommonColorIdentityStdevMax := t' } pack colors
          colorIdentities = some true)
    ∧ (colorIdentitySymbols s pack ≠ [] → s.PackCommonColorStdevMax = 0 →
        s.PackCommonRatingMin = 0 → s.PackCommonRatingMax = 0 →
        s.AbortMissingCommonColor = false → s.AbortMissingCommonColorIdentity = false →
        s.AbortDuplicateThreeColorIdentityUncommons = false →
        ((eligible s pack).map Card.ID).Nodup →
        Float64.okPackColorIdentityStdev { s with PackCommonColorIdentityStdevMax := t }
            colorIdentities
          = some (Float64.stdev (colorIdentities.map Float64.fin))
        ∧ Float64.stdev (colorIdentities.map Float64.fin) ≠ Float64.nan
        ∧ (Float64.okPack { s with PackCommonColorIdentityStdevMax := t } pack colors
              colorIdentities = some true
          ↔ (Float64.stdev (colorIdentities.map Float64.fin)).le t = true)) := by
  have ht0 : t ≠ 0 := ne_of_gt ht
  refine ⟨?_, ?_, ?_, ?_⟩
  · intro h
    unfold Float64.okPack at h ⊢
    simp only [] at h ⊢
    rw [float_okPackVerdict_eq_some_true_iff, float_okPackCaps_true_iff] at h ⊢
    obtain ⟨h1, h2, h3, h4, h5, h6, h7⟩ := h
    refine ⟨h1, h2, h3, ?_, h5, h6, h7⟩
    rintro ⟨_, hgt⟩
    exact h4 ⟨ht0, float_gt_mono _ htt hgt⟩
  · intro hne hcis hmin hmax hac haci hau hnd
    have hnan : Float64.stdev (colors.map Float64.fin) ≠ Float64.nan :=
      float_stdev_counts_ne_nan (colorSymbols s pack) colors
        (hc.trans (okPackLoop_colors_perm s pack)) hne
    refine ⟨?_, hnan, ?_⟩
    · rw [float_okPackColorStdev_eq, if_neg]
      rintro ⟨hf, _⟩
      rw [show ({ s with PackCommonColorStdevMax := t } : Settings).AbortMissingCommonColor
        = s.AbortMissingCommonColor from rfl, hac] at hf
      exact Bool.false_ne_true hf
    · rw [float_okPack_of_only_color_cap { s with PackCommonColorStdevMax := t } pack colors
        colorIdentities hcis hmin hmax hac haci hau hnd, float_le_iff_not_gt _ _ hnan]
      simp only [ne_eq, ht0, not_false_eq_true, true_and, Bool.not_eq_true]
  · intro h
    unfold Float64.okPack at h ⊢
    simp only [] at h ⊢
    rw [float_okPackVerdict_eq_some_true_iff, float_okPackCaps_true_iff] at h ⊢
    obtain ⟨h1, h2, h3, h4, h5, h6, h7⟩ := h
    refine ⟨h1, h2, h3, h4, ?_, h6, h7⟩
    rintro ⟨_, hgt⟩
    exact h5 ⟨ht0, float_gt_mono _ htt hgt⟩
  · intro hne hcs hmin hmax hac haci hau hnd
    have hnan : Float64.stdev (colorIdentities.map Float64.fin) ≠ Float64.nan :=
      float_stdev_counts_ne_nan (colorIdentitySymbols s pack) colorIdentities
        (hi.trans (okPackLoop_colorIdentities_perm s pack)) hne
    refine ⟨?_, hnan, ?_⟩
    · rw [float_okPackColorIdentityStdev_eq, if_neg]
      rintro ⟨hf, _⟩
      rw [show ({ s with PackCommonColorIdentityStdevMax := t } :
        Settings).AbortMissingCommonColorIdentity
          = s.AbortMissingCommonColorIdentity from rfl, haci] at hf
      exact Bool.false_ne_true hf
    · rw [float_okPack_of_only_colorIdentity_cap
        { s with PackCommonColorIdentityStdevMax := t } pack colors colorIdentities
        hcs hmin hmax hac haci hau hnd, float_le_iff_not_gt _ _ hnan]
      simp only [ne_eq, ht0, not_false_eq_true, true_and, Bool.not_eq_true]

/-- C9, as amended, at `packThreeColors` with every other rule disabled, the
counts read as 3, 1, 1, `t = 1` and `t' = 2`: accepted under the cap 1, hence
under the cap 2, and the value of `stdev` is at most 1. -/
theorem okPack_threshold_monotone_witness :
    (0 : ℚ) < 1 ∧ (1 : ℚ) ≤ 2
    ∧ Float64.okPack { noRules with PackCommonColorStdevMax := 2 } packThreeColors
        [3, 1, 1] [3, 1, 1] = some true
    ∧ (Float64.stdev (([3, 1, 1] : List ℚ).map Float64.fin)).le 1 = true :=
  ⟨by norm_num, by norm_num,
    (okPack_threshold_monotone noRules packThreeColors [3, 1, 1] [3, 1, 1] 1 2
      (by decide!) (by decide!) (by norm_num) (by norm_num)).1 (by decide!),
    ((okPack_threshold_monotone noRules packThreeColors [3, 1, 1] [3, 1, 1] 1 2
      (by decide!) (by decide!) (by norm_num) (by norm_num)).2.1
      (by decide) rfl rfl rfl rfl rfl rfl (by decide)).2.2.1 (by decide!)⟩

/-- C9 as stated fails: the eligible commons of the 15-card pack
`packTwoWhite` tally W:2, U:1, B:1, R:1, G:1; the colour cap is the float64
value 0.4 and every other rule is disabled. Read in the order of insertion,
2, 1, 1, 1, 1, the counts give `stdev` = 0.4000000000000001 and the pack is
rejected; read from the second entry on, 1, 1, 1, 1, 2, they give 0.4 and the
pack is accepted. So an evaluation accepts with the cap `t` and another
rejects with the cap `t' = t`. -/
theorem okPack_verdict_depends_on_order :
    packTwoWhite.length = 15
    ∧ (okPackLoop colorCapTwoFifths packTwoWhite).colorHash
        = [('W', 2), ('U', 1), ('B', 1), ('R', 1), ('G', 1)]
    ∧ (okPackLoop colorCapTwoFifths packTwoWhite).colorIdentityHash.values = [2, 1, 1, 1, 1]
    ∧ ([2, 1, 1, 1, 1] : List ℚ).rotate 1 = [1, 1, 1, 1, 2]
    ∧ Float64.nearest colorCapTwoFifths.PackCommonColorStdevMax
        = Float64.fin colorCapTwoFifths.PackCommonColorStdevMax
    ∧ Float64.stdev (([2, 1, 1, 1, 1] : List ℚ).map Float64.fin)
        = Float64.fin (7205759403792795 / 18014398509481984)
    ∧ Float64.stdev (([1, 1, 1, 1, 2] : List ℚ).map Float64.fin)
        = Float64.fin (3602879701896397 / 9007199254740992)
    ∧ Float64.okPack colorCapTwoFifths packTwoWhite [2, 1, 1, 1, 1] [2, 1, 1, 1, 1]
        = some false
    ∧ Float64.okPack colorCapTwoFifths packTwoWhite [1, 1, 1, 1, 2] [2, 1, 1, 1, 1]
        = some true :=
  ⟨rfl, by decide!, by decide!, by decide, by decide!, by decide!, by decide!, by decide!,
    by decide!⟩

/-! ### The seats and the packs of `generateEmptyDraft` -/

theorem insertSeats_length {δ ρ : Type} (tx : Tx δ ρ) (draftID : Int) (l : List Nat)
    (seatIds₀ seatIds : List Int) (db db' : δ)
    (h : insertSeats tx draftID l seatIds₀ db = (some seatIds, db')) :
    seatIds.length = seatIds₀.length := by
  induction l generalizing seatIds₀ db with
  | nil =>
    simp only [insertSeats, Prod.mk.injEq, Option.some.injEq] at h
    rw [← h.1]
  | cons i rest ih =>
    simp only [insertSeats] at h
    revert h
    rcases tx.exec "INSERT INTO seats (position, draft) VALUES (?, ?)"
        [SqlArg.int i, SqlArg.int draftID] db with ⟨_ | res, db1⟩
    · intro h
      simp at h
    · simp only []
      by_cases he : (tx.lastInsertId res).2 = true
      · rw [if_pos he]
        intro h
        simp at h
      · rw [if_neg he]
        intro h
        rw [ih _ _ h, List.length_set]

theorem insertSeats_getD_of_not_mem {δ ρ : Type} (tx : Tx δ ρ) (draftID : Int) (l : List Nat)
    (seatIds₀ seatIds : List Int) (db db' : δ)
    (h : insertSeats tx draftID l seatIds₀ db = (some seatIds, db')) (k : Nat) (hk : k ∉ l) :
    seatIds.getD k 0 = seatIds₀.getD k 0 := by
  induction l generalizing seatIds₀ db with
  | nil =>
    simp only [insertSeats, Prod.mk.injEq, Option.some.injEq] at h
    rw [← h.1]
  | cons i rest ih =>
    simp only [List.mem_cons, not_or] at hk
    simp only [insertSeats] at h
    revert h
    rcases tx.exec "INSERT INTO seats (position, draft) VALUES (?, ?)"
        [SqlArg.int i, SqlArg.int draftID] db with ⟨_ | res, db1⟩
    · intro h
      simp at h
    · simp only []
      by_cases he : (tx.lastInsertId res).2 = true
      · rw [if_pos he]
        intro h
        simp at h
      · rw [if_neg he]
        intro h
        rw [ih _ _ h hk.2]
        exact getD_set_of_ne seatIds₀ i k _ 0 (fun e => hk.1 e.symm)

/-- A run of the seat loop that ends without an error leaves in `seatIds[i]`,
for each position `i` of the loop, the id of the row inserted for the
position `i` and the draft `draftID`. -/
theorem insertSeats_ok {δ ρ : Type} (tx : Tx δ ρ) (draftID : Int) (l : List Nat)
    (seatIds₀ seatIds : List Int) (db db' : δ)
    (h : insertSeats tx draftID l seatIds₀ db = (some seatIds, db'))
    (hnd : l.Nodup) (hlt : ∀ i ∈ l, i < seatIds₀.length) :
    ∀ i ∈ l, ∃ db₀ res,
      (tx.exec "INSERT INTO seats (position, draft) VALUES (?, ?)"
        [SqlArg.int i, SqlArg.int draftID] db₀).1 = some res
      ∧ seatIds.getD i 0 = (tx.lastInsertId res).1 := by
  induction l generalizing seatIds₀ db with
  | nil => intro i hi; exact absurd hi (List.not_mem_nil i)
  | cons i rest ih =>
    rw [List.nodup_cons] at hnd
    simp only [insertSeats] at h
    revert h
    rcases hx : tx.exec "INSERT INTO seats (position, draft) VALUES (?, ?)"
        [SqlArg.int i, SqlArg.int draftID] db with ⟨_ | res, db1⟩
    · intro h
      simp at h
    · simp only []
      by_cases he : (tx.lastInsertId res).2 = true
      · rw [if_pos he]
        intro h
        simp at h
      · rw [if_neg he]
        intro h k hk
        rcases List.mem_cons.1 hk with rfl | hk
        · refine ⟨db, res, by rw [hx], ?_⟩
          rw [insertSeats_getD_of_not_mem tx draftID rest _ _ _ _ h k hnd.1]
          exact getD_set_self seatIds₀ k _ 0 (hlt k (List.mem_cons_self _ _))
        · exact ih _ _ h hnd.2
            (fun j hj => by
              rw [List.length_set]
              exact hlt j (List.mem_cons_of_mem _ hj)) k hk

/-- A run of `generateEmptyDraft` that ends without an error went through the
pack loops, from the array of 24 zeros, with the array `seatIds` that the
seat loop built. -/
theorem generateEmptyDraftLog_ok {δ ρ : Type} (tx : Tx δ ρ) (name : String) (db : δ)
    (h : (generateEmptyDraftLog tx name db).1.1.2 = false) :
    ∃ draftID seatIds db₁,
      generateEmptyDraftSeats tx name db = some (draftID, seatIds, db₁)
      ∧ generateEmptyDraftLog tx name db
          = insertPacksLog tx seatIds seatRounds (List.replicate 24 0) db₁
      ∧ seatIds.length = 8
      ∧ ∀ i : Nat, i < 8 → ∃ db₀ res,
          (tx.exec "INSERT INTO seats (position, draft) VALUES (?, ?)"
            [SqlArg.int i, SqlArg.int draftID] db₀).1 = some res
          ∧ seatIds.getD i 0 = (tx.lastInsertId res).1 := by
  unfold generateEmptyDraftLog at h ⊢
  unfold generateEmptyDraftSeats
  revert h
  rcases tx.exec "INSERT INTO drafts (name) VALUES (?);" [SqlArg.text name] db
    with ⟨_ | res, db1⟩
  · intro h
    simp at h
  · simp only []
    by_cases he : (tx.lastInsertId res).2 = true
    · rw [if_pos he]
      intro h
      simp at h
    · rw [if_neg he, if_neg he]
      rcases hs : insertSeats tx (tx.lastInsertId res).1 (List.range 8) (List.replicate 8 0) db1
        with ⟨_ | seatIds, db2⟩
      · intro h
        simp at h
      · intro _
        refine ⟨_, seatIds, db2, rfl, rfl, ?_, fun i hi => ?_⟩
        · rw [insertSeats_length tx _ _ _ _ _ _ hs, List.length_replicate]
        · exact insertSeats_ok tx _ _ _ _ _ _ hs (List.nodup_range 8)
            (fun j hj => by
              rw [List.length_replicate]
              exact List.mem_range.1 hj) i (List.mem_range.2 hi)

/-- C22. In `generateEmptyDraft` the index `3*i + (j-1)`, for seats `i` in
0..7 and rounds `j` in 1..3, lies in 0..23 and maps those 24 pairs one to one
onto 0..23, index `k` coming from seat `k/3` and round `(k mod 3)+1`. The
array returned has 24 entries; with a transaction on which every statement
succeeds the function returns without an error. In a run that returns
without an error, with `seatIds` the array that the seat loop built
(`seatIds[i]` is the id of the row inserted for position `i`): entry `k` of
the array returned is the id of a row inserted into `packs` with the seat
`seatIds[k/3]` and the round `(k mod 3)+1`; the assignments to the array were
made at the indices 0, 1, .., 23, each once, every one for a seat `i` below 8
and a round `j` from 1 to 3 (never round 0), at the index `3*i + (j-1)`, of
the id of the row inserted with the seat `seatIds[i]` and the round `j`. -/
theorem generateEmptyDraft_pack_index {δ ρ : Type} (tx : Tx δ ρ) (name : String) (db : δ) :
    (∀ i j, i < 8 → 1 ≤ j → j ≤ 3 → packIndex i j < 24)
    ∧ (∀ i j i' j', i < 8 → 1 ≤ j → j ≤ 3 → i' < 8 → 1 ≤ j' → j' ≤ 3 →
        packIndex i j = packIndex i' j' → i = i' ∧ j = j')
    ∧ (∀ k, k < 24 →
        k / 3 < 8 ∧ 1 ≤ k % 3 + 1 ∧ k % 3 + 1 ≤ 3 ∧ packIndex (k / 3) (k % 3 + 1) = k)
    ∧ (generateEmptyDraftLog tx name db).1 = generateEmptyDraft tx name db
    ∧ (generateEmptyDraft tx name db).1.1.length = 24
    ∧ (tx.Succeeds → (generateEmptyDraft tx name db).1.2 = false)
    ∧ ((generateEmptyDraft tx name db).1.2 = false →
        ∃ draftID seatIds db₁,
          generateEmptyDraftSeats tx name db = some (draftID, seatIds, db₁)
          ∧ seatIds.length = 8
          ∧ (∀ i : Nat, i < 8 → ∃ db₀ res,
              (tx.exec "INSERT INTO seats (position, draft) VALUES (?, ?)"
                [SqlArg.int i, SqlArg.int draftID] db₀).1 = some res
              ∧ seatIds.getD i 0 = (tx.lastInsertId res).1)
          ∧ (∀ k : Nat, k < 24 → ∃ db₀ res,
              (tx.exec "INSERT INTO packs (seat, original_seat, round) VALUES (?, ?, ?)"
                [SqlArg.int (seatIds.getD (k / 3) 0), SqlArg.int (seatIds.getD (k / 3) 0),
                 SqlArg.int ((k % 3 + 1 : Nat) : Int)] db₀).1 = some res
              ∧ (generateEmptyDraft tx name db).1.1.getD k 0 = (tx.lastInsertId res).1)
          ∧ (generateEmptyDraftLog tx name db).2.map (fun s => s.index) = List.range 24
          ∧ ∀ s ∈ (generateEmptyDraftLog tx name db).2,
              s.seat < 8 ∧ 1 ≤ s.round ∧ s.round ≤ 3
              ∧ s.index = packIndex s.seat s.round
              ∧ s.seat = s.index / 3 ∧ s.round = s.index % 3 + 1
              ∧ s.id = (tx.lastInsertId s.res).1
              ∧ (∃ db₀,
                  (tx.exec "INSERT INTO packs (seat, original_seat, round) VALUES (?, ?, ?)"
                    [SqlArg.int (seatIds.getD s.seat 0), SqlArg.int (seatIds.getD s.seat 0),
                     SqlArg.int s.round] db₀).1 = some s.res)
              ∧ (generateEmptyDraft tx name db).1.1.getD s.index 0 = s.id) := by
  refine ⟨?_, ?_, ?_, generateEmptyDraftLog_fst tx name db, generateEmptyDraft_length tx name db,
    fun hs => generateEmptyDraft_succeeds tx hs name db, ?_⟩
  · intro i j hi h1 h3
    unfold packIndex
    omega
  · intro i j i' j' hi h1 h3 hi' h1' h3' h
    unfold packIndex at h
    omega
  · intro k hk
    unfold packIndex
    omega
  · intro herr
    have hfst := generateEmptyDraftLog_fst tx name db
    rw [← hfst] at herr ⊢
    obtain ⟨draftID, seatIds, db1, hseats, hrun, hlen8, hseat⟩ :=
      generateEmptyDraftLog_ok tx name db herr
    rw [hrun] at herr ⊢
    obtain ⟨h1, h2, h3⟩ := insertPacksLog_ok tx seatIds seatRounds _ db1 herr
    have hidx : (insertPacksLog tx seatIds seatRounds (List.replicate 24 0) db1).2.map
        (fun s => s.index) = List.range 24 := by
      rw [← seatRounds_indices, ← h1, List.map_map]
      exact List.map_congr_left (fun s hs => (h2 s hs).1)
    have hstore : ∀ s ∈ (insertPacksLog tx seatIds seatRounds (List.replicate 24 0) db1).2,
        s.seat < 8 ∧ 1 ≤ s.round ∧ s.round ≤ 3
        ∧ s.index = packIndex s.seat s.round
        ∧ s.seat = s.index / 3 ∧ s.round = s.index % 3 + 1
        ∧ s.id = (tx.lastInsertId s.res).1
        ∧ (∃ db₀,
            (tx.exec "INSERT INTO packs (seat, original_seat, round) VALUES (?, ?, ?)"
              [SqlArg.int (seatIds.getD s.seat 0), SqlArg.int (seatIds.getD s.seat 0),
               SqlArg.int s.round] db₀).1 = some s.res)
        ∧ (insertPacksLog tx seatIds seatRounds (List.replicate 24 0) db1).1.1.1.getD
            s.index 0 = s.id := by
      intro s hs
      have hb := seatRounds_bounds (s.seat, s.round)
        (by rw [← h1]; exact List.mem_map_of_mem (fun s => (s.seat, s.round)) hs)
      simp only [] at hb
      obtain ⟨hi, hj⟩ := h2 s hs
      have hlt : s.index < 24 := by omega
      refine ⟨hb.1, hb.2.1, hb.2.2, hi, by omega, by omega, hj.1, hj.2, ?_⟩
      rw [h3]
      exact getD_foldl_set _ _ s hs (by rw [hidx]; exact List.nodup_range 24)
        (by rw [List.length_replicate]; exact hlt)
    refine ⟨draftID, seatIds, db1, hseats, hlen8, hseat, fun k hk => ?_, hidx, hstore⟩
    have hmem : k ∈ (insertPacksLog tx seatIds seatRounds (List.replicate 24 0) db1).2.map
        (fun s => s.index) := by
      rw [hidx]
      exact List.mem_range.2 hk
    obtain ⟨s, hs, rfl⟩ := List.mem_map.1 hmem
    obtain ⟨_, _, _, _, hseat', hround', hid, ⟨db0, hdb⟩, hget⟩ := hstore s hs
    refine ⟨db0, s.res, ?_, ?_⟩
    · rw [← hseat', ← hround']
      exact hdb
    · rw [hget, hid]

/-- C22 with a transaction that records its statements: the draft is row 1,
the seat of position `i` is row `i + 2`, the pack of seat `i` and round `j`
is row `10 + 4 * i + j`, inserted with the seat id `i + 2` twice and the
round `j`; entry `k` of the array returned is the row of seat `k / 3` and
round `k mod 3 + 1`, and the rows of the rounds 0 (10, 14, 18, ..) are not in
it. -/
theorem generateEmptyDraft_pack_index_witness :
    (generateEmptyDraft recordingTx "draft" []).1
      = ((List.range 24).map (fun k => ((10 + 4 * (k / 3) + (k % 3 + 1) : Nat) : Int)), false)
    ∧ (generateEmptyDraft recordingTx "draft" []).2
      = [("INSERT INTO drafts (name) VALUES (?);", [SqlArg.text "draft"])]
        ++ (List.range 8).map (fun i =>
            ("INSERT INTO seats (position, draft) VALUES (?, ?)",
              [SqlArg.int (i : Nat), SqlArg.int 1]))
        ++ seatRounds.map (fun p =>
            ("INSERT INTO packs (seat, original_seat, round) VALUES (?, ?, ?)",
              [SqlArg.int ((p.1 + 2 : Nat) : Int), SqlArg.int ((p.1 + 2 : Nat) : Int),
               SqlArg.int (p.2 : Nat)]))
    ∧ (generateEmptyDraftLog recordingTx "draft" []).2.map (fun s => s.index) = List.range 24
    ∧ ∀ s ∈ (generateEmptyDraftLog recordingTx "draft" []).2,
        (generateEmptyDraft recordingTx "draft" []).1.1.getD s.index 0 = s.id := by
  obtain ⟨_, _, _, _, _, _, _, hidx, hst⟩ :=
    (generateEmptyDraft_pack_index recordingTx "draft" []).2.2.2.2.2.2 (by decide)
  exact ⟨by decide, by decide, hidx, fun s hs => (hst s hs).2.2.2.2.2.2.2.2⟩

/-! ### The rebuild of the hoppers after an exhaustion -/

theorem agreeBelow_set {η : Type} (i : Nat) (h₁ h₂ : List (Option η)) (x : Option η)
    (ha : AgreeBelow i h₁ h₂) (hi : i < 15) (hx : x ≠ none) :
    AgreeBelow (i + 1) (h₁.set i x) (h₂.set i x) := by
  obtain ⟨hl₁, hl₂, hk⟩ := ha
  refine ⟨by rw [List.length_set]; exact hl₁, by rw [List.length_set]; exact hl₂, ?_⟩
  intro k hlt
  by_cases hki : k = i
  · subst hki
    rw [getD_set_self h₁ k x none (by omega), getD_set_self h₂ k x none (by omega)]
    exact ⟨rfl, hx⟩
  · rw [getD_set_of_ne h₁ i k x none (fun e => hki e.symm),
      getD_set_of_ne h₂ i k x none (fun e => hki e.symm)]
    exact hk k (by omega)

theorem normalHopperArgs_of_known (allCards dfcCards : CardSet) (kind : String)
    (hk : kind ∈ knownKinds) (h1 : kind ≠ "BasicLandHopper") (h2 : kind ≠ "Pointer")
    (h3 : kind ≠ "FoilHopper") :
    ∃ args, normalHopperArgs allCards dfcCards kind = some args := by
  simp only [knownKinds, List.mem_cons, List.mem_singleton, List.not_mem_nil, or_false] at hk
  rcases hk with h | h | h | h | h | h | h | h | h | h | h | h
  · subst h; exact ⟨_, rfl⟩
  · subst h; exact ⟨_, rfl⟩
  · subst h; exact ⟨_, rfl⟩
  · subst h; exact ⟨_, rfl⟩
  · subst h; exact ⟨_, rfl⟩
  · subst h; exact ⟨_, rfl⟩
  · exact absurd h h1
  · subst h; exact ⟨_, rfl⟩
  · exact absurd h h2
  · subst h; exact ⟨_, rfl⟩
  · subst h; exact ⟨_, rfl⟩
  · exact absurd h h3

/-- On a well-formed entry the loop body of `resetHoppers` does not panic,
and from two arrays that agree below `i` it gives two arrays that agree also
in slot `i`, with the same random source. -/
theorem buildHopper_agree {η ω : Type} (mk : HopperMakers η ω) (allCards dfcCards : CardSet)
    (i : Nat) (d : HopperDef) (h₁ h₂ : List (Option η)) (w : ω)
    (hd : d.WellFormedAt i) (hi : i < 15) (ha : AgreeBelow i h₁ h₂) :
    ∃ hs₁ hs₂ w',
      buildHopper mk allCards dfcCards i d h₁ w = some (hs₁, w')
      ∧ buildHopper mk allCards dfcCards i d h₂ w = some (hs₂, w')
      ∧ AgreeBelow (i + 1) hs₁ hs₂ := by
  obtain ⟨hknown, hptr, hfoil⟩ := hd
  unfold buildHopper
  by_cases h1 : d.Kind = "BasicLandHopper"
  · rw [if_pos h1, if_pos h1]
    simp only [assignSlot, if_pos hi]
    exact ⟨_, _, _, rfl, rfl, agreeBelow_set i h₁ h₂ _ ha hi (by simp)⟩
  rw [if_neg h1, if_neg h1]
  by_cases h2 : d.Kind = "Pointer"
  · rw [if_pos h2, if_pos h2]
    obtain ⟨r, hr, href⟩ := hptr h2
    rw [href]
    simp only [if_pos hi]
    have hsame := ha.2.2 r hr
    refine ⟨_, _, _, rfl, rfl, ?_⟩
    rw [← hsame.1]
    exact agreeBelow_set i h₁ h₂ _ ha hi hsame.2
  rw [if_neg h2, if_neg h2]
  by_cases h3 : d.Kind = "FoilHopper"
  · rw [if_pos h3, if_pos h3]
    obtain ⟨r₀, r₁, r₂, e₀, e₁, e₂⟩ := hfoil h3
    rw [e₀, e₁, e₂]
    simp only [assignSlot, if_pos hi]
    exact ⟨_, _, _, rfl, rfl, agreeBelow_set i h₁ h₂ _ ha hi (by simp)⟩
  rw [if_neg h3, if_neg h3]
  obtain ⟨args, hargs⟩ := normalHopperArgs_of_known allCards dfcCards d.Kind hknown h1 h2 h3
  obtain ⟨refillable, lists⟩ := args
  rw [hargs]
  simp only [assignSlot, if_pos hi]
  exact ⟨_, _, _, rfl, rfl, agreeBelow_set i h₁ h₂ _ ha hi (by simp)⟩

theorem resetHoppersFrom_agree {η ω : Type} (mk : HopperMakers η ω)
    (allCards dfcCards : CardSet) (defs : List HopperDef) (i : Nat)
    (h₁ h₂ : List (Option η)) (w : ω)
    (hd : WellFormedFrom i defs) (hi : i + defs.length ≤ 15) (ha : AgreeBelow i h₁ h₂) :
    ∃ hs₁ hs₂ w',
      resetHoppersFrom mk allCards dfcCards i defs h₁ w = some (hs₁, w')
      ∧ resetHoppersFrom mk allCards dfcCards i defs h₂ w = some (hs₂, w')
      ∧ AgreeBelow (i + defs.length) hs₁ hs₂ := by
  induction defs generalizing i h₁ h₂ w with
  | nil => exact ⟨h₁, h₂, w, rfl, rfl, ha⟩
  | cons d rest ih =>
    simp only [List.length_cons] at hi ⊢
    obtain ⟨hd₁, hd₂⟩ := hd
    obtain ⟨a₁, a₂, w₁, e₁, e₂, ha'⟩ :=
      buildHopper_agree mk allCards dfcCards i d h₁ h₂ w hd₁ (by omega) ha
    obtain ⟨hs₁, hs₂, w', f₁, f₂, hb⟩ := ih (i + 1) a₁ a₂ w₁ hd₂ (by omega) ha'
    refine ⟨hs₁, hs₂, w', ?_, ?_, ?_⟩
    · rw [resetHoppersFrom_cons, e₁]
      exact f₁
    · rw [resetHoppersFrom_cons, e₂]
      exact f₂
    · have : i + (rest.length + 1) = i + 1 + rest.length := by omega
      rw [this]
      exact hb

theorem agreeBelow_eq {η : Type} (h₁ h₂ : List (Option η)) (ha : AgreeBelow 15 h₁ h₂) :
    h₁ = h₂ := by
  obtain ⟨hl₁, hl₂, hk⟩ := ha
  apply List.ext_getElem (by rw [hl₁, hl₂])
  intro n hn₁ hn₂
  have h := (hk n (by omega)).1
  rw [List.getD_eq_getElem?_getD, List.getD_eq_getElem?_getD, List.getElem?_eq_getElem hn₁,
    List.getElem?_eq_getElem hn₂] at h
  exact h

/-- On a well-formed hopper list the closure `resetHoppers` does not panic
and rebuilds all 15 hoppers: the array it leaves has a hopper in every slot
and is the same whatever the array held before, so that nothing of the
previous attempt is left in it. -/
theorem resetHoppers_rebuilds {η ω : Type} (mk : HopperMakers η ω)
    (allCards dfcCards : CardSet) (defs : List HopperDef) (w : ω)
    (hd : WellFormedHoppers defs) :
    ∃ arr w',
      (∀ old : List (Option η), old.length = 15 →
        resetHoppers mk allCards dfcCards defs old w = some (arr, w'))
      ∧ arr.length = 15
      ∧ ∀ j, j < 15 → ∃ hopper, arr.getD j none = some hopper := by
  have hnil : AgreeBelow 0 (List.replicate 15 (none : Option η)) (List.replicate 15 none) :=
    ⟨List.length_replicate _ _, List.length_replicate _ _, fun k hk => absurd hk (by omega)⟩
  obtain ⟨arr, arr', w', e₁, _, hagree⟩ :=
    resetHoppersFrom_agree mk allCards dfcCards defs 0 _ _ w hd.2 (by rw [hd.1]) hnil
  refine ⟨arr, w', fun old hold => ?_, hagree.1, fun j hj => ?_⟩
  · have hold' : AgreeBelow 0 old (List.replicate 15 (none : Option η)) :=
      ⟨hold, List.length_replicate _ _, fun k hk => absurd hk (by omega)⟩
    obtain ⟨b₁, b₂, w'', f₁, f₂, hb⟩ :=
      resetHoppersFrom_agree mk allCards dfcCards defs 0 _ _ w hd.2 (by rw [hd.1]) hold'
    rw [e₁] at f₂
    simp only [Option.some.injEq, Prod.mk.injEq] at f₂
    rw [hd.1] at hb
    have hbeq := agreeBelow_eq b₁ b₂ hb
    unfold resetHoppers
    rw [f₁, hbeq, ← f₂.1, ← f₂.2]
  · have h := (hagree.2.2 j (by rw [hd.1]; omega)).2
    cases hget : arr.getD j none with
    | none => exact absurd hget h
    | some hopper => exact ⟨hopper, rfl⟩

theorem wellFormedFrom_replicate_cube (n i : Nat) :
    WellFormedFrom i (List.replicate n { Kind := "CubeHopper", Refs := [] }) := by
  induction n generalizing i with
  | zero => exact trivial
  | succ n ih =>
    refine ⟨⟨by decide, fun h => absurd h (by decide), fun h => absurd h (by decide)⟩, ih _⟩

/-- C5. On a hopper list as the configuration is meant to hold (15 entries of
known types, every `Pointer` to an earlier slot): when a `Pop` reports
exhaustion while pack `i` is drawn, the next state of the loop is the same
whatever the two validators are: it is at the head of the outer loop, not
after the `break`. The step after it runs the closure `resetHoppers`, which
does not panic and rebuilds all 15 hoppers (every slot holds a hopper, and
the array is the same whatever it held before the build), restarts the
drawing at pack 0 and has `draftAttempts` exactly one more than before;
`packAttempts` counted the abandoned draw. -/
theorem genStep_exhausted {η ω : Type} (mk : HopperMakers η ω)
    (pop : Nat → List (Option η) × ω → (Card × Bool) × (List (Option η) × ω))
    (allCards dfcCards : CardSet) (defs : List HopperDef)
    (st : GenState (List (Option η) × ω)) (i : Nat)
    (hdefs : WellFormedHoppers defs) (hloc : st.loc = Loc.draw i) (hi : i < 24)
    (hex : (drawCards (mainHoppers mk pop allCards dfcCards defs) 15 0 st.hoppers).2.2 = true)
    (harr : (drawCards (mainHoppers mk pop allCards dfcCards defs) 15 0
      st.hoppers).2.1.1.length = 15) :
    ∃ (st₁ st₂ : GenState (List (Option η) × ω)) (arr : List (Option η)) (w' : ω),
      (∀ okP okD, genStepWith (mainHoppers mk pop allCards dfcCards defs) okP okD st = some st₁)
      ∧ st₁.loc = Loc.reset
      ∧ st₁.hoppers = (drawCards (mainHoppers mk pop allCards dfcCards defs) 15 0 st.hoppers).2.1
      ∧ st₁.draftAttempts = st.draftAttempts
      ∧ st₁.packAttempts = st.packAttempts + 1
      ∧ (∀ okP okD,
          genStepWith (mainHoppers mk pop allCards dfcCards defs) okP okD st₁ = some st₂)
      ∧ st₂.loc = Loc.draw 0
      ∧ resetHoppers mk allCards dfcCards defs st₁.hoppers.1 st₁.hoppers.2 = some (arr, w')
      ∧ st₂.hoppers = (arr, w')
      ∧ arr.length = 15
      ∧ (∀ j, j < 15 → ∃ hopper, arr.getD j none = some hopper)
      ∧ (∀ old : List (Option η), old.length = 15 →
          resetHoppers mk allCards dfcCards defs old st₁.hoppers.2 = some (arr, w'))
      ∧ st₂.draftAttempts = st.draftAttempts + 1
      ∧ st₂.packAttempts = st.packAttempts + 1
      ∧ ∀ s, genRun (mainHoppers mk pop allCards dfcCards defs) s 2 st = some st₂ := by
  obtain ⟨st₁, st₂, h1, hl1, hh1, hd1, hp1, h2, hl2, hh2, hd2, hp2, hrun⟩ :=
    genStepWith_exhausted (mainHoppers mk pop allCards dfcCards defs) st i hloc hi hex
  obtain ⟨arr, w', hall, hlen, hsome⟩ :=
    resetHoppers_rebuilds mk allCards dfcCards defs
      (drawCards (mainHoppers mk pop allCards dfcCards defs) 15 0 st.hoppers).2.1.2 hdefs
  have hbuild := hall _ harr
  refine ⟨st₁, st₂, arr, w', h1, hl1, hh1, hd1, hp1, h2, hl2, ?_, ?_, hlen, hsome, ?_, hd2, hp2,
    hrun⟩
  · rw [hh1]
    exact hbuild
  · rw [hh2]
    show (resetHoppers mk allCards dfcCards defs _ _).getD _ = (arr, w')
    rw [hbuild]
    rfl
  · rw [hh1]
    exact hall

/-- C5 at fifteen `CubeHopper` entries of two cards: the state `drainedState`
is reached after the reset and the draws of the packs 0 and 1, the draw of
pack 2 finds the first hopper exhausted, and the next two steps are a restart
at pack 0 with 15 new hoppers of two cards and `draftAttempts = 2`. -/
theorem genStep_exhausted_witness :
    genRun cubeHoppers defaultSettings 3 (genInit (List.replicate 15 none, 0))
      = some drainedState
    ∧ (drawCards cubeHoppers 15 0 drainedState.hoppers).2.2 = true
    ∧ genRun cubeHoppers defaultSettings 2 drainedState
        = some { drainedState with
            loc := Loc.draw 0, hoppers := (List.replicate 15 (some 2), 30),
            packs := drainedState.packs.set 2 (default :: List.replicate 14 default),
            packAttempts := 3, draftAttempts := 2,
            drawnIn := drainedState.drawnIn.set 2 (1 :: List.replicate 14 0) }
    ∧ ∃ (st₂ : GenState (List (Option Nat) × Nat)) (arr : List (Option Nat)) (w' : Nat),
        genRun cubeHoppers defaultSettings 2 drainedState = some st₂
        ∧ st₂.loc = Loc.draw 0
        ∧ st₂.hoppers = (arr, w')
        ∧ (∀ j, j < 15 → ∃ hopper, arr.getD j none = some hopper)
        ∧ st₂.draftAttempts = drainedState.draftAttempts + 1 := by
  obtain ⟨st₁, st₂, arr, w', _, _, _, _, _, _, hl2, _, hh2, _, hsome, _, hd2, _, hrun⟩ :=
    genStep_exhausted twoCardMakers countedPop CardSet.empty CardSet.empty fifteenCubes
      drainedState 2 ⟨rfl, wellFormedFrom_replicate_cube 15 0⟩ rfl (by decide) (by decide)
      (by decide)
  exact ⟨by decide!, by decide, by decide!,
    st₂, arr, w', hrun defaultSettings, hl2, hh2, hsome, hd2⟩

/-! ### Duplicates and the rule on uncommons, within the card model and outside it -/

theorem dedup_symbols_le_of_alphabet (s : Settings) (pack : Pack) (alphabet : List Char)
    (hA : alphabet.length ≤ 5)
    (hcol : ∀ c ∈ pack, c.Rarity = "common" → ∀ x ∈ c.Color.data, x ∈ alphabet)
    (hid : ∀ c ∈ pack, c.Rarity = "common" → ∀ x ∈ c.ColorIdentity.data, x ∈ alphabet) :
    (colorSymbols s pack).dedup.length ≤ 5 ∧ (colorIdentitySymbols s pack).dedup.length ≤ 5 := by
  constructor
  · refine le_trans (dedup_length_le_of_subset _ alphabet ?_) hA
    intro y hy
    obtain ⟨c, hcp, _, hr, hyc⟩ := (mem_colorSymbols s pack y).1 hy
    exact hcol c hcp hr y hyc
  · refine le_trans (dedup_length_le_of_subset _ alphabet ?_) hA
    intro y hy
    obtain ⟨c, hcp, _, hr, hyc⟩ := (mem_colorIdentitySymbols s pack y).1 hy
    exact hid c hcp hr y hyc

theorem utf8Len_eq_length (l : List Char) (h : ∀ x ∈ l, x.utf8Size = 1) :
    String.utf8Len l = l.length := by
  induction l with
  | nil => rfl
  | cons x rest ih =>
    rw [String.utf8Len_cons, ih (fun y hy => h y (List.mem_cons_of_mem _ hy)),
      h x (List.mem_cons_self _ _), List.length_cons]

/-- A pack of the card model on which the loop of `okPack` has cleared
`passes` is rejected in float64 arithmetic too, whatever the order in which
the maps are read out. -/
theorem float_okPack_of_passes_false (s : Settings) (pack : Pack) (alphabet : List Char)
    (colors colorIdentities : List ℚ)
    (hp : (okPackLoop s pack).passes = false) (hA : alphabet.length ≤ 5)
    (hcol : ∀ c ∈ pack, c.Rarity = "common" → ∀ x ∈ c.Color.data, x ∈ alphabet)
    (hid : ∀ c ∈ pack, c.Rarity = "common" → ∀ x ∈ c.ColorIdentity.data, x ∈ alphabet)
    (hc : colors.Perm (okPackLoop s pack).colorHash.values)
    (hi : colorIdentities.Perm (okPackLoop s pack).colorIdentityHash.values) :
    Float64.okPack s pack colors colorIdentities = some false := by
  have hsym := dedup_symbols_le_of_alphabet s pack alphabet hA hcol hid
  apply float_okPack_eq_some_false
  · intro hok
    unfold Float64.okPack at hok
    simp only [] at hok
    rw [float_okPackVerdict_eq_some_true_iff, hp] at hok
    exact Bool.false_ne_true hok.1
  · intro _
    rw [hc.length_eq, okPackLoop_colors_length]
    exact hsym.1
  · intro _
    rw [hi.length_eq, okPackLoop_colorIdentities_length]
    exact hsym.2

/-- C3. Within the card model, where the commons take their `Color` and
`ColorIdentity` symbols from an alphabet of at most five symbols, `okPack`
returns false on every pack in which two cards that are neither foil nor (in
`DfcMode`) Dfc have the same ID, whatever the settings, in exact and in
float64 arithmetic and whatever the order in which the maps are read out; and
on no pack with two such cards does it return true. Outside the card model it can fail to
return: the 15-card pack `packSixSymbols` begins with two non-foil copies of
`C1` whose `Color` has six distinct symbols, and with
`AbortMissingCommonColor` on the zero-padding loop starts from six counts and
never reaches its `break`, however long it runs. -/
theorem okPack_rejects_duplicate :
    (∀ (s : Settings) (pre mid post : List Card) (c₁ c₂ : Card) (alphabet : List Char),
      alphabet.length ≤ 5 →
      (∀ c ∈ pre ++ c₁ :: (mid ++ c₂ :: post), c.Rarity = "common" →
        ∀ x ∈ c.Color.data, x ∈ alphabet) →
      (∀ c ∈ pre ++ c₁ :: (mid ++ c₂ :: post), c.Rarity = "common" →
        ∀ x ∈ c.ColorIdentity.data, x ∈ alphabet) →
      excluded s c₁ = false → excluded s c₂ = false → c₁.ID = c₂.ID →
      okPack s (pre ++ c₁ :: (mid ++ c₂ :: post)) = some false
      ∧ ∀ colors colorIdentities : List ℚ,
          colors.Perm (okPackLoop s (pre ++ c₁ :: (mid ++ c₂ :: post))).colorHash.values →
          colorIdentities.Perm
            (okPackLoop s (pre ++ c₁ :: (mid ++ c₂ :: post))).colorIdentityHash.values →
          Float64.okPack s (pre ++ c₁ :: (mid ++ c₂ :: post)) colors colorIdentities
            = some false)
    ∧ (∀ (s : Settings) (pre mid post : List Card) (c₁ c₂ : Card),
      excluded s c₁ = false → excluded s c₂ = false → c₁.ID = c₂.ID →
      okPack s (pre ++ c₁ :: (mid ++ c₂ :: post)) ≠ some true)
    ∧ packSixSymbols.length = 15
    ∧ (∃ c₁ c₂ rest, packSixSymbols = c₁ :: c₂ :: rest ∧ c₁.ID = c₂.ID
        ∧ excluded { defaultSettings with AbortMissingCommonColor := true } c₁ = false
        ∧ excluded { defaultSettings with AbortMissingCommonColor := true } c₂ = false)
    ∧ (okPackLoop { defaultSettings with AbortMissingCommonColor := true }
          packSixSymbols).passes = false
    ∧ (okPackLoop { defaultSettings with AbortMissingCommonColor := true }
          packSixSymbols).colorHash.values.length = 6
    ∧ (∀ fuel, padLoop fuel (okPackLoop { defaultSettings with AbortMissingCommonColor := true }
          packSixSymbols).colorHash.values = none)
    ∧ okPack { defaultSettings with AbortMissingCommonColor := true } packSixSymbols = none
    ∧ okPack defaultSettings packSixSymbols = some false := by
  have hlen : (okPackLoop { defaultSettings with AbortMissingCommonColor := true }
      packSixSymbols).colorHash.values.length = 6 := by decide!
  refine ⟨?_, ?_, rfl, ⟨_, _, _, rfl, rfl, rfl, rfl⟩, by decide!, hlen, fun fuel => ?_,
    by decide!, by decide!⟩
  · intro s pre mid post c₁ c₂ alphabet hA hcol hid h₁ h₂ heq
    have hsym := dedup_symbols_le_of_alphabet s _ alphabet hA hcol hid
    refine ⟨(okPack_duplicate_not_accepted s pre mid post c₁ c₂ h₁ h₂ heq).2
      (fun _ => hsym.1) (fun _ => hsym.2), fun colors colorIdentities hc hi => ?_⟩
    exact float_okPack_of_passes_false s _ alphabet colors colorIdentities
      (okPackLoop_passes_false_of_duplicate s pre mid post c₁ c₂ h₁ h₂ heq) hA hcol hid hc hi
  · intro s pre mid post c₁ c₂ h₁ h₂ heq
    exact (okPack_duplicate_not_accepted s pre mid post c₁ c₂ h₁ h₂ heq).1
  · exact padLoop_eq_none fuel _ (by rw [hlen]; omega)

/-- C11. Within the card model, where the symbols of `Color` and
`ColorIdentity` come from an alphabet of at most five symbols of one byte
each: with `AbortDuplicateThreeColorIdentityUncommons` on, `okPack` returns
false on every pack in which (a) two eligible uncommons have `ColorIdentity`
strings that are permutations of the same three symbols, or (b) three
eligible uncommons have `ColorIdentity` strings that are permutations of one
another, in exact and in float64 arithmetic and whatever the order in which
the maps are read out; with the flag off, two packs that differ only in the `ColorIdentity`
of their uncommons get the same result. Outside the card model the rule
misses a triplet: the uncommons `U1` and `U2` of the 15-card pack
`packTwoGreek` have identities that are permutations of the same three
symbols of two bytes each, the sorted identity is six bytes long, and with
the rule on `okPack` accepts the pack. And with `AbortMissingCommonColor` on
as well `okPack` does not return on `packTwoWUBSixSymbols`, whose uncommons
have the identities WUB and BUW. -/
theorem okPack_uncommon_identity_rule :
    (∀ (s : Settings) (pre mid post : List Card) (c₁ c₂ : Card) (alphabet : List Char),
      s.AbortDuplicateThreeColorIdentityUncommons = true →
      alphabet.length ≤ 5 → (∀ x ∈ alphabet, x.utf8Size = 1) →
      (∀ c ∈ pre ++ c₁ :: (mid ++ c₂ :: post), ∀ x ∈ c.Color.data, x ∈ alphabet) →
      (∀ c ∈ pre ++ c₁ :: (mid ++ c₂ :: post), ∀ x ∈ c.ColorIdentity.data, x ∈ alphabet) →
      excluded s c₁ = false → excluded s c₂ = false →
      c₁.Rarity = "uncommon" → c₂.Rarity = "uncommon" →
      c₁.ColorIdentity.data.Perm c₂.ColorIdentity.data →
      c₂.ColorIdentity.data.length = 3 →
      okPack s (pre ++ c₁ :: (mid ++ c₂ :: post)) = some false
      ∧ ∀ colors colorIdentities : List ℚ,
          colors.Perm (okPackLoop s (pre ++ c₁ :: (mid ++ c₂ :: post))).colorHash.values →
          colorIdentities.Perm
            (okPackLoop s (pre ++ c₁ :: (mid ++ c₂ :: post))).colorIdentityHash.values →
          Float64.okPack s (pre ++ c₁ :: (mid ++ c₂ :: post)) colors colorIdentities
            = some false)
    ∧ (∀ (s : Settings) (pre mid₁ mid₂ post : List Card) (c₁ c₂ c₃ : Card)
        (alphabet : List Char),
      s.AbortDuplicateThreeColorIdentityUncommons = true →
      alphabet.length ≤ 5 →
      (∀ c ∈ pre ++ c₁ :: (mid₁ ++ c₂ :: (mid₂ ++ c₃ :: post)),
        ∀ x ∈ c.Color.data, x ∈ alphabet) →
      (∀ c ∈ pre ++ c₁ :: (mid₁ ++ c₂ :: (mid₂ ++ c₃ :: post)),
        ∀ x ∈ c.ColorIdentity.data, x ∈ alphabet) →
      excluded s c₁ = false → excluded s c₂ = false → excluded s c₃ = false →
      c₁.Rarity = "uncommon" → c₂.Rarity = "uncommon" → c₃.Rarity = "uncommon" →
      c₁.ColorIdentity.data.Perm c₃.ColorIdentity.data →
      c₂.ColorIdentity.data.Perm c₃.ColorIdentity.data →
      okPack s (pre ++ c₁ :: (mid₁ ++ c₂ :: (mid₂ ++ c₃ :: post))) = some false
      ∧ ∀ colors colorIdentities : List ℚ,
          colors.Perm
            (okPackLoop s (pre ++ c₁ :: (mid₁ ++ c₂ :: (mid₂ ++ c₃ :: post)))).colorHash.values →
          colorIdentities.Perm
            (okPackLoop s
              (pre ++ c₁ :: (mid₁ ++ c₂ :: (mid₂ ++ c₃ :: post)))).colorIdentityHash.values →
          Float64.okPack s (pre ++ c₁ :: (mid₁ ++ c₂ :: (mid₂ ++ c₃ :: post))) colors
            colorIdentities = some false)
    ∧ (∀ s : Settings, s.AbortDuplicateThreeColorIdentityUncommons = false →
      ∀ pack pack' : Pack,
        pack'.map eraseUncommonIdentity = pack.map eraseUncommonIdentity →
        okPack s pack' = okPack s pack)
    ∧ packTwoWUB.length = 15
    ∧ okPack uncommonRuleOn packTwoWUB = some false
    ∧ packTwoGreek.length = 15
    ∧ packTwoGreek = tenCommons ++ mkCard "U1" "uncommon" "αβγ"
        :: ([] ++ mkCard "U2" "uncommon" "γβα" :: threeOthers)
    ∧ (mkCard "U1" "uncommon" "αβγ").ColorIdentity.data.Perm
        (mkCard "U2" "uncommon" "γβα").ColorIdentity.data
    ∧ (mkCard "U2" "uncommon" "γβα").ColorIdentity.data.length = 3
    ∧ (stringSort (mkCard "U2" "uncommon" "γβα").ColorIdentity).utf8ByteSize = 6
    ∧ okPack uncommonRuleOn packTwoGreek = some true
    ∧ packTwoWUBSixSymbols.length = 15
    ∧ okPack uncommonRuleAndAbortMissing packTwoWUBSixSymbols = none := by
  refine ⟨?_, ?_, fun s hflag => (okPack_uncommon_rule_cases s).2 hflag, rfl, by decide!, rfl,
    by decide, by decide, rfl, by decide, by decide!, rfl, by decide!⟩
  · intro s pre mid post c₁ c₂ alphabet hflag hA hbyte hcol hid h₁ h₂ hr₁ hr₂ hperm hlen
    have hsym := dedup_symbols_le_of_alphabet s _ alphabet hA
      (fun c hc _ => hcol c hc) (fun c hc _ => hid c hc)
    have hbytes : c₂.ColorIdentity.utf8ByteSize = 3 := by
      have hmem : ∀ x ∈ c₂.ColorIdentity.data, x.utf8Size = 1 := fun x hx =>
        hbyte x (hid c₂ (by simp) x hx)
      have hsz : c₂.ColorIdentity.utf8ByteSize = String.utf8Len c₂.ColorIdentity.data := by
        cases c₂.ColorIdentity
        exact String.utf8ByteSize_mk _
      rw [hsz, utf8Len_eq_length _ hmem, hlen]
    refine ⟨(((okPack_uncommon_rule_cases s).1 hflag).1 pre mid post c₁ c₂ h₁ h₂ hr₁ hr₂ hperm
      hbytes).2 (fun _ => hsym.1) (fun _ => hsym.2), fun colors colorIdentities hc hi => ?_⟩
    exact float_okPack_of_passes_false s _ alphabet colors colorIdentities
      (okPackLoop_passes_false_of_two_uncommons s pre mid post c₁ c₂ hflag h₁ h₂ hr₁ hr₂
        hperm hbytes) hA (fun c hc _ => hcol c hc) (fun c hc _ => hid c hc) hc hi
  · intro s pre mid₁ mid₂ post c₁ c₂ c₃ alphabet hflag hA hcol hid h₁ h₂ h₃ hr₁ hr₂ hr₃ hp₁ hp₂
    have hsym := dedup_symbols_le_of_alphabet s _ alphabet hA
      (fun c hc _ => hcol c hc) (fun c hc _ => hid c hc)
    refine ⟨(((okPack_uncommon_rule_cases s).1 hflag).2 pre mid₁ mid₂ post c₁ c₂ c₃ h₁ h₂ h₃
      hr₁ hr₂ hr₃ hp₁ hp₂).2 (fun _ => hsym.1) (fun _ => hsym.2),
      fun colors colorIdentities hc hi => ?_⟩
    exact float_okPack_of_passes_false s _ alphabet colors colorIdentities
      (okPackLoop_passes_false_of_three_uncommons s pre mid₁ mid₂ post c₁ c₂ c₃ hflag
        h₁ h₂ h₃ hr₁ hr₂ hr₃ hp₁ hp₂) hA (fun c hc _ => hcol c hc) (fun c hc _ => hid c hc)
      hc hi

end Makedraft
